import Mathlib

/-!
The package unsafereflect: descriptor registry and field projection.

A shallow embedding of `type.go` (package `unsafereflect`).

* The host's `reflect.Type` values are modelled by `RType` together with an
  environment `Env` of declared (named) types; `reflect`'s `Kind`, `Elem`,
  `Len`, `NumField`, `Field`, `Size` and `PointerTo` are read off `view`.
* A `*Type` is an index into the heap of allocated descriptor blocks.  A block
  is the Go struct `{Type; Ptrs [2+4n]unsafe.Pointer; Fields [n]StructField}`
  built at `type.go:109`; all accessors recompute their addresses from
  `numFields()`, exactly as the source does.
* Go run-time panics are `Err.indexOutOfRange`, `Err.nilDeref`,
  `Err.typeMismatch`, `Err.reflectPanic`.
* `Err.fault` is not a panic.  It marks an access through `unsafe.Slice` that
  leaves the array it addresses inside the block (a pointer word past
  `Ptrs`, a struct field outside `Fields`).  Go performs such an access
  unchecked and goes on; what it reads or overwrites depends on what the
  allocator has placed there.  The embedding stops at that point and says
  nothing about what the code does from there on: a result `Err.fault` only
  records that the call has left its block.
* Machine integers are 64 bit (`uint`, `int`, `uintptr`).
-/

namespace Unsafereflect

/-! ## Host types (`reflect.Type`) -/

/-- A `reflect.Type`: a declared type (looked up in the environment) or an
unnamed pointer, slice or array type. -/
inductive RType where
  | named (id : Nat)
  | ptr (elem : RType)
  | slice (elem : RType)
  | array (len : Nat) (elem : RType)
  deriving DecidableEq

/-- The members of `reflect.StructField` that `rt.Field(i)` reports and the
code reads: name, byte offset, field type. -/
structure FieldDecl where
  name : String
  offset : Nat
  type : RType
  deriving DecidableEq

/-- One level of a type's structure, as `reflect` exposes it. -/
inductive Underlying where
  | leaf
  | iface
  | unsafePointer
  | ptr (elem : RType)
  | slice (elem : RType)
  | array (len : Nat) (elem : RType)
  | struct (fields : List FieldDecl)
  deriving DecidableEq

/-- A declared type: its size in bytes and its underlying structure. -/
structure TypeDecl where
  size : Nat
  under : Underlying
  deriving DecidableEq

/-- The declared types of the program, indexed by `RType.named`. -/
abbrev Env := List TypeDecl

/-- The declaration of a named type (an undeclared id is an empty opaque type). -/
def declOf (env : Env) (id : Nat) : TypeDecl :=
  env.getD id ⟨0, Underlying.leaf⟩

/-- One level of structure of a `reflect.Type`. -/
def view (env : Env) : RType → Underlying
  | RType.named id => (declOf env id).under
  | RType.ptr e => Underlying.ptr e
  | RType.slice e => Underlying.slice e
  | RType.array n e => Underlying.array n e

/-- `reflect.Kind`, restricted to the cases the code switches on. -/
inductive Kind where
  | Array | Slice | Pointer | UnsafePointer | Struct | Interface | Other
  deriving DecidableEq

/-- `rt.Kind()`. -/
def kindOf (env : Env) (rt : RType) : Kind :=
  match view env rt with
  | Underlying.leaf => Kind.Other
  | Underlying.iface => Kind.Interface
  | Underlying.unsafePointer => Kind.UnsafePointer
  | Underlying.ptr _ => Kind.Pointer
  | Underlying.slice _ => Kind.Slice
  | Underlying.array _ _ => Kind.Array
  | Underlying.struct _ => Kind.Struct

/-- `rt.Size()` on a 64-bit host. -/
def rtSize (env : Env) : RType → Nat
  | RType.named id => (declOf env id).size
  | RType.ptr _ => 8
  | RType.slice _ => 24
  | RType.array n e => n * rtSize env e

/-- `rt.NumField()` for a struct type (0 otherwise; the code calls it only on structs). -/
def numFieldOf (env : Env) (rt : RType) : Nat :=
  match view env rt with
  | Underlying.struct fs => fs.length
  | _ => 0

/-! ## Machine integers -/

/-- Truncation to a 64-bit `uint`. -/
def toUint (x : Nat) : Nat := x % 2 ^ 64

/-- Reinterpretation of an integer as a 64-bit two's-complement `int`. -/
def wrapInt (x : Int) : Int := (x + 2 ^ 63) % 2 ^ 64 - 2 ^ 63

/-- `unsafe.Add(p, off)`: pointer arithmetic modulo the 64-bit address space. -/
def unsafeAdd (p : Nat) (off : Int) : Nat := (((p : Int) + off) % 2 ^ 64).toNat

/-! ## Errors -/

/-- The ways an operation can fail. -/
inductive Err where
  | typeMismatch
  | indexOutOfRange
  | nilDeref
  | reflectPanic
  | assertion
  | fault
  | outOfFuel
  deriving DecidableEq

deriving instance DecidableEq for Except

/-! ## Descriptors -/

/-- A pointer-sized word of a descriptor block or of an interface header:
nil, a runtime type identity (`*abi.Type`), or a `*Type`. -/
inductive Word where
  | null
  | abi (rt : RType)
  | usr (ref : Nat)
  deriving DecidableEq

/-- The members of `reflect.StructField` used by the code. -/
structure StructField where
  Name : String
  Type_ : Option RType
  Offset : Nat
  deriving DecidableEq

/-- The zero `reflect.StructField`. -/
def StructField.zero : StructField := ⟨"", none, 0⟩

/-- A descriptor block: the Go `Type` header followed by the pointer words and
the field table.  `self` and `ptrToSelf` are `Ptrs[0]` and `Ptrs[1]`, `slots`
is `Ptrs[2:]`, `fields` is `Fields`. -/
structure TypeDesc where
  reflectType : RType
  size : Int
  uintData : Nat
  self : Word
  ptrToSelf : Word
  slots : List Word
  fields : List StructField
  deriving DecidableEq

def abiType : Nat := 0
def abiPtrType : Nat := 1
def usrType : Nat := 2
def usrPtrType : Nat := 3
def typeUnsafePointers : Nat := 4

def udHasLenBit : Nat := 0
def udIsArrayBit : Nat := 1
def uintDataBits : Nat := 2
def udHasLenMask : Nat := 1 <<< udHasLenBit
def udIsArrayMask : Nat := 1 <<< udIsArrayBit

/-- Number of pointer words a `reflect.StructField` occupies (104 bytes). -/
def structFieldWords : Nat := 13

/-- `t.numFields()`. -/
def TypeDesc.numFields (t : TypeDesc) : Nat := t.uintData >>> uintDataBits

/-- `t.fieldIndexMultiplier()`. -/
def TypeDesc.fieldIndexMultiplier (t : TypeDesc) : Nat :=
  (t.uintData >>> udHasLenBit) &&& 1

/-- `t.Len()`. -/
def TypeDesc.Len (t : TypeDesc) : Nat := t.numFields

/-- `t.ReflectType()`. -/
def TypeDesc.ReflectType (t : TypeDesc) : RType := t.reflectType

/-- `t.Size()`. -/
def TypeDesc.Size (t : TypeDesc) : Int := t.size

/-- A Go slice of pointer words inside a descriptor block: index of its first
word counted from `t.unsafePointers()`, and its length. -/
structure Region where
  start : Nat
  len : Nat
  deriving DecidableEq

/-- `unsafe.Slice(t.unsafePointers(), n)`. -/
def unsafeSlice (n : Nat) : Region := ⟨0, n⟩

/-- The slice expression `s[lo:]`. -/
def Region.drop (s : Region) (lo : Nat) : Region := ⟨s.start + lo, s.len - lo⟩

/-- `t.fieldABITypes()`. -/
def TypeDesc.fieldABITypes (t : TypeDesc) : Region :=
  (unsafeSlice (2 + t.numFields)).drop 2

/-- `t.ptrToFieldABITypes()`. -/
def TypeDesc.ptrToFieldABITypes (t : TypeDesc) : Region :=
  (unsafeSlice (2 + usrType * t.numFields)).drop (2 + abiPtrType * t.numFields)

/-- `t.fieldUSRTypes()`. -/
def TypeDesc.fieldUSRTypes (t : TypeDesc) : Region :=
  (unsafeSlice (2 + usrPtrType * t.numFields)).drop (2 + usrType * t.numFields)

/-- `t.ptrToFieldUSRTypes()`. -/
def TypeDesc.ptrToFieldUSRTypes (t : TypeDesc) : Region :=
  (unsafeSlice (2 + typeUnsafePointers * t.numFields)).drop (2 + usrPtrType * t.numFields)

/-- Read the pointer word `w` words after `t.unsafePointers()`.  A word past
the allocated `Ptrs` array is read unchecked by the code; the embedding does
not follow it there (`Err.fault`). -/
def TypeDesc.loadWord (t : TypeDesc) : Nat → Except Err Word
  | 0 => Except.ok t.self
  | 1 => Except.ok t.ptrToSelf
  | k + 2 =>
    match t.slots[k]? with
    | some w => Except.ok w
    | none => Except.error Err.fault

/-- Write the pointer word `w` words after `t.unsafePointers()`.  A word past
the allocated `Ptrs` array is written unchecked by the code, into the `Fields`
array or past the block; the embedding does not follow it there
(`Err.fault`). -/
def TypeDesc.storeWord (t : TypeDesc) (v : Word) : Nat → Except Err TypeDesc
  | 0 => Except.ok { t with self := v }
  | 1 => Except.ok { t with ptrToSelf := v }
  | k + 2 =>
    if k < t.slots.length then Except.ok { t with slots := t.slots.set k v }
    else Except.error Err.fault

/-- The index expression `s[i]` on a slice of pointer words (read). -/
def TypeDesc.getWord (t : TypeDesc) (s : Region) (i : Int) : Except Err Word :=
  if 0 ≤ i ∧ i < s.len then t.loadWord (s.start + i.toNat)
  else Except.error Err.indexOutOfRange

/-- `t.FieldType(fieldIndex)`: the word read is a `*Type`. -/
def TypeDesc.FieldType (t : TypeDesc) (fieldIndex : Int) : Except Err Word :=
  t.getWord t.fieldUSRTypes fieldIndex

/-- The assignment `s[i] = v` on a slice of pointer words. -/
def TypeDesc.setWord (t : TypeDesc) (s : Region) (i : Int) (v : Word) : Except Err TypeDesc :=
  if 0 ≤ i ∧ i < s.len then t.storeWord v (s.start + i.toNat)
  else Except.error Err.indexOutOfRange

/-- A Go slice of `reflect.StructField` inside a descriptor block: index of the
word at which it starts, counted from `t.unsafePointers()`, and its length. -/
structure FieldRegion where
  base : Nat
  len : Nat
  deriving DecidableEq

/-- `t.ReflectStructFields()`. -/
def TypeDesc.ReflectStructFields (t : TypeDesc) : FieldRegion :=
  ⟨2 + t.numFields * typeUnsafePointers, t.numFields⟩

/-- The element of the allocated `Fields` array that lies at the address of
`s[j]`, if there is one: the array starts after the `2 + slots.length`
allocated pointer words. -/
def TypeDesc.fieldCell (t : TypeDesc) (s : FieldRegion) (j : Nat) : Option Nat :=
  let a := s.base + structFieldWords * j
  let b := 2 + t.slots.length
  if b ≤ a ∧ (a - b) % structFieldWords = 0 ∧ (a - b) / structFieldWords < t.fields.length
  then some ((a - b) / structFieldWords) else none

/-- The index expression `s[j]` on a slice of struct fields (read).  Go checks
the index against the length of the slice only; where `s[j]` is not an element
of the allocated `Fields` array the code reads what lies there, and the
embedding does not follow it (`Err.fault`). -/
def TypeDesc.getField (t : TypeDesc) (s : FieldRegion) (j : Int) : Except Err StructField :=
  if 0 ≤ j ∧ j < s.len then
    match t.fieldCell s j.toNat with
    | some k => Except.ok (t.fields.getD k StructField.zero)
    | none => Except.error Err.fault
  else Except.error Err.indexOutOfRange

/-- The assignment `s[j] = sf` on a slice of struct fields.  Go checks the
index against the length of the slice only; where `s[j]` is not an element of
the allocated `Fields` array the code overwrites what lies there and goes on,
and the embedding does not follow it (`Err.fault`). -/
def TypeDesc.setField (t : TypeDesc) (s : FieldRegion) (j : Int) (sf : StructField) :
    Except Err TypeDesc :=
  if 0 ≤ j ∧ j < s.len then
    match t.fieldCell s j.toNat with
    | some k => Except.ok { t with fields := t.fields.set k sf }
    | none => Except.error Err.fault
  else Except.error Err.indexOutOfRange

/-- The field table of a descriptor: the pointer words after the two
identities of the type itself (field value- and pointer-identities, nested
descriptors) and the `reflect.StructField` entries (names, offsets). -/
def TypeDesc.fieldTable (t : TypeDesc) : List Word × List StructField :=
  (t.slots, t.fields)

/-! ## Program state -/

/-- The heap of descriptor blocks and the registry `types` (a `sync.Map`). -/
structure State where
  heap : List TypeDesc
  types : List (RType × Nat)
  deriving DecidableEq

/-- The state at program start. -/
def State.empty : State := ⟨[], []⟩

/-- `types.Load(key)`. -/
def load : List (RType × Nat) → RType → Option Nat
  | [], _ => none
  | (k, v) :: rest, rt => if k = rt then some v else load rest rt

/-- Dereference a `*Type`. -/
def State.deref (σ : State) (r : Nat) : Except Err TypeDesc :=
  match σ.heap[r]? with
  | some t => Except.ok t
  | none => Except.error Err.fault

/-- Dereference a word used as a `*Type`. -/
def State.derefWord (σ : State) : Word → Except Err TypeDesc
  | Word.null => Except.error Err.nilDeref
  | Word.usr r => σ.deref r
  | Word.abi _ => Except.error Err.fault

/-- A boxed value (`interface{}`): type word and data word (`InterfaceData`). -/
structure Boxed where
  type : Word
  data : Nat
  deriving DecidableEq

/-- Process memory: the 64-bit word stored at a byte address. -/
abbrev Mem := Nat → Nat

/-- `SliceDataOf(p).Data`. -/
def sliceData (mem : Mem) (p : Nat) : Nat := mem p

/-- `SliceDataOf(p).Len`. -/
def sliceLen (mem : Mem) (p : Nat) : Int := wrapInt (mem (p + 8))

/-- The sum returned by `t.fieldOffset(i)` (`type.go:261`), from the multiplier
`m`, the `Offset` of the field table entry read and the `size` of the element
descriptor: `int(Offset) + (i*int((^m)&1))*size`. -/
def offsetSum (m : Int) (off : Nat) (i : Int) (size : Int) : Int :=
  wrapInt ((off : Int) + (i * ((-m - 1) % 2)) * size)

/-- `t.fieldOffset(i)`. -/
def fieldOffset (σ : State) (t : TypeDesc) (i : Int) : Except Err Int := do
  let m : Int := t.fieldIndexMultiplier
  let sf ← t.getField t.ReflectStructFields (i * m)
  let w ← t.getWord t.fieldUSRTypes 0
  let e ← σ.derefWord w
  pure (offsetSum m sf.Offset i e.size)

/-- `t.field(struc, fieldIndex, fieldTypesSelector)`. -/
def field (env : Env) (mem : Mem) (σ : State) (r : Nat) (struc : Boxed) (fieldIndex : Int)
    (fieldTypesSelector : TypeDesc → Region) : Except Err Boxed := do
  let t ← σ.deref r
  if struc.type ≠ t.self ∧ struc.type ≠ t.ptrToSelf then
    Except.error Err.typeMismatch
  else
    let base := if kindOf env t.ReflectType = Kind.Slice then sliceData mem struc.data else struc.data
    let ty ← t.getWord (fieldTypesSelector t) (fieldIndex * t.fieldIndexMultiplier)
    let off ← fieldOffset σ t fieldIndex
    pure ⟨ty, unsafeAdd base off⟩

/-- `t.UnsafeFieldValue(struc, fieldIndex)`. -/
def UnsafeFieldValue (env : Env) (mem : Mem) (σ : State) (r : Nat) (struc : Boxed)
    (fieldIndex : Int) : Except Err Boxed :=
  field env mem σ r struc fieldIndex TypeDesc.fieldABITypes

/-- `t.FieldPointer(struc, fieldIndex)`. -/
def FieldPointer (env : Env) (mem : Mem) (σ : State) (r : Nat) (struc : Boxed)
    (fieldIndex : Int) : Except Err Boxed :=
  field env mem σ r struc fieldIndex TypeDesc.ptrToFieldABITypes

/-! ## Building descriptors -/

/-- A step of the program: it changes the state and returns a value or fails.
The state at the point of failure is kept (a Go panic can be recovered). -/
def M (α : Type) : Type := State → State × Except Err α

/-- Sequencing of steps. -/
def M.bind {α β : Type} (x : M α) (f : α → M β) : M β := fun σ =>
  match x σ with
  | (σ1, Except.ok a) => f a σ1
  | (σ1, Except.error e) => (σ1, Except.error e)

/-- A step that only returns. -/
def M.pure {α : Type} (a : α) : M α := fun σ => (σ, Except.ok a)

instance : Monad M where
  pure := M.pure
  bind := M.bind

/-- A step that does not touch the state. -/
def M.ofExcept {α : Type} (x : Except Err α) : M α := fun σ => (σ, x)

/-- Read the descriptor behind a `*Type`. -/
def M.get (r : Nat) : M TypeDesc := fun σ => (σ, σ.deref r)

/-- Read the descriptor behind a word used as a `*Type`. -/
def M.getWord (w : Word) : M TypeDesc := fun σ => (σ, σ.derefWord w)

/-- Update the descriptor behind a `*Type` in place. -/
def M.modify (r : Nat) (f : TypeDesc → Except Err TypeDesc) : M Unit := fun σ =>
  match σ.deref r with
  | Except.error e => (σ, Except.error e)
  | Except.ok t =>
    match f t with
    | Except.error e => (σ, Except.error e)
    | Except.ok t1 => (⟨σ.heap.set r t1, σ.types⟩, Except.ok ())

/-- `rt.Elem()`: `reflect` panics unless the kind is Array, Chan, Map, Pointer
or Slice (Chan and Map never reach it here). -/
def elemOf (env : Env) (rt : RType) : Except Err RType :=
  match view env rt with
  | Underlying.ptr e => Except.ok e
  | Underlying.slice e => Except.ok e
  | Underlying.array _ e => Except.ok e
  | _ => Except.error Err.reflectPanic

/-- `rt.Len()`: `reflect` panics unless the kind is Array. -/
def lenOf (env : Env) (rt : RType) : Except Err Nat :=
  match view env rt with
  | Underlying.array n _ => Except.ok n
  | _ => Except.error Err.reflectPanic

/-- `rt.Field(i)`: `reflect` panics unless `rt` is a struct with more than `i` fields. -/
def fieldOf (env : Env) (rt : RType) (i : Nat) : Except Err StructField :=
  match view env rt with
  | Underlying.struct fs =>
    match fs[i]? with
    | some f => Except.ok ⟨f.name, some f.type, f.offset⟩
    | none => Except.error Err.reflectPanic
  | _ => Except.error Err.reflectPanic

/-- The `reflect.Type` stored in a struct field; using a nil one as a type
(`rt.Kind()`, `reflect.PointerTo(rt)`) is a nil dereference. -/
def typeOfField (sf : StructField) : Except Err RType :=
  match sf.Type_ with
  | some rt => Except.ok rt
  | none => Except.error Err.nilDeref

/-- The type word read at `type.go:123-124`: the interface header of
`rv.Elem().Interface()`, which is nil when `rt` is an interface type (the
sample value is then the nil interface) and the identity of `rt` otherwise. -/
def valueIdentity (env : Env) (rt : RType) : Word :=
  if kindOf env rt = Kind.Interface then Word.null else Word.abi rt

/-- The block allocated at `type.go:108-125`: zeroed pointer words and field
table for `numFields` fields, then `reflectType`, `size`, `uintData` and the
two identities of the type itself. -/
def TypeDesc.alloc (env : Env) (rt : RType) (numFields : Nat) : TypeDesc :=
  { reflectType := rt
    size := wrapInt (rtSize env rt)
    uintData := toUint (numFields <<< uintDataBits)
    self := valueIdentity env rt
    ptrToSelf := Word.abi (RType.ptr rt)
    slots := List.replicate (typeUnsafePointers * numFields) Word.null
    fields := List.replicate numFields StructField.zero }

/-- The init func appended for `reflect.Array` (`type.go:68-70`). -/
def arrayInit (env : Env) (r : Nat) : M Unit := do
  let t ← M.get r
  let n ← M.ofExcept (lenOf env t.ReflectType)
  M.modify r (fun t => Except.ok
    { t with uintData := toUint (n <<< uintDataBits) ||| udIsArrayBit ||| udHasLenMask })

/-- The init func appended for Array, Slice, Pointer and UnsafePointer
(`type.go:75-85`); `recur` is `TypeFromReflectType`. -/
def elemInit (env : Env) (recur : RType → M Nat) (r : Nat) : M Unit := do
  let t ← M.get r
  let e ← M.ofExcept (elemOf env t.ReflectType)
  let elemType ← recur e
  let et ← M.get elemType
  M.modify r (fun t => t.setField t.ReflectStructFields 0 ⟨"Elem", some et.ReflectType, 0⟩)
  let et ← M.get elemType
  M.modify r (fun t => t.setWord t.fieldABITypes 0 et.self)
  let et ← M.get elemType
  M.modify r (fun t => t.setWord t.ptrToFieldABITypes 0 et.ptrToSelf)
  M.modify r (fun t => t.setWord t.fieldUSRTypes 0 (Word.usr elemType))
  let t ← M.get r
  let et ← M.get elemType
  let p ← recur (RType.ptr et.ReflectType)
  M.modify r (fun t1 => t1.setWord t.ptrToFieldUSRTypes 0 (Word.usr p))

/-- The loop of the struct init func (`type.go:98-104`), `k` iterations from
index `i`, over the slices taken before the loop. -/
def structLoop (env : Env) (recur : RType → M Nat) (r : Nat) (rt : RType)
    (fieldABITypes ptrToFieldABITypes fieldUSRTypes ptrToFieldUSRTypes : Region)
    (reflectStructFields : FieldRegion) : Nat → Nat → M Unit
  | 0, _ => pure ()
  | k + 1, i => do
    let sf ← M.ofExcept (fieldOf env rt i)
    M.modify r (fun t => t.setField reflectStructFields i sf)
    let t ← M.get r
    let sf ← M.ofExcept (t.getField reflectStructFields i)
    let ft ← M.ofExcept (typeOfField sf)
    let f ← recur ft
    M.modify r (fun t => t.setWord fieldUSRTypes i (Word.usr f))
    let t ← M.get r
    let w ← M.ofExcept (t.getWord fieldUSRTypes i)
    let d ← M.getWord w
    M.modify r (fun t => t.setWord ptrToFieldABITypes i d.ptrToSelf)
    let t ← M.get r
    let w ← M.ofExcept (t.getWord fieldUSRTypes i)
    let d ← M.getWord w
    M.modify r (fun t => t.setWord fieldABITypes i d.self)
    let t ← M.get r
    let sf ← M.ofExcept (t.getField reflectStructFields i)
    let ft ← M.ofExcept (typeOfField sf)
    let p ← recur (RType.ptr ft)
    M.modify r (fun t => t.setWord ptrToFieldUSRTypes i (Word.usr p))
    structLoop env recur r rt fieldABITypes ptrToFieldABITypes fieldUSRTypes ptrToFieldUSRTypes
      reflectStructFields k (i + 1)

/-- The init func appended for `reflect.Struct` (`type.go:89-105`). -/
def structInit (env : Env) (recur : RType → M Nat) (r : Nat) : M Unit := do
  M.modify r (fun t => Except.ok { t with uintData := t.uintData ||| udHasLenMask })
  let t ← M.get r
  structLoop env recur r t.ReflectType t.fieldABITypes t.ptrToFieldABITypes t.fieldUSRTypes
    t.ptrToFieldUSRTypes t.ReflectStructFields t.numFields 0

/-- The value of `numFields` after the kind switch (`type.go:64-106`). -/
def numFieldsFor (env : Env) (rt : RType) : Nat :=
  match kindOf env rt with
  | Kind.Array => 1
  | Kind.Slice => 1
  | Kind.Pointer => 1
  | Kind.UnsafePointer => 1
  | Kind.Struct => numFieldOf env rt
  | _ => 0

/-- The value of `initFuncs` after the kind switch (`type.go:64-106`). -/
def initFuncsFor (env : Env) (recur : RType → M Nat) (rt : RType) : List (Nat → M Unit) :=
  match kindOf env rt with
  | Kind.Array => [arrayInit env, elemInit env recur]
  | Kind.Slice => [elemInit env recur]
  | Kind.Pointer => [elemInit env recur]
  | Kind.UnsafePointer => [elemInit env recur]
  | Kind.Struct => [structInit env recur]
  | _ => []

/-- `for _, initFunc := range initFuncs { initFunc(t) }`. -/
def runInits (r : Nat) : List (Nat → M Unit) → M Unit
  | [] => pure ()
  | f :: rest => do
    f r
    runInits r rest

/-- `types.LoadOrStore(key, t)`. -/
def loadOrStore (rt : RType) (r : Nat) : M (Nat × Bool) := fun σ =>
  match load σ.types rt with
  | some v => (σ, Except.ok (v, true))
  | none => (⟨σ.heap, (rt, r) :: σ.types⟩, Except.ok (r, false))

/-- Allocation of a descriptor block; the result is the new `*Type`. -/
def allocDesc (t : TypeDesc) : M Nat := fun σ =>
  (⟨σ.heap ++ [t], σ.types⟩, Except.ok σ.heap.length)

/-- The body of `TypeFromReflectType` after the `types.Load` miss
(`type.go:64-169`); `recur` is `TypeFromReflectType`.  Of the consistency
checks at `type.go:130-165` the first can fail (the field count does not
survive the shift into `uintData`); the others compare a length with itself. -/
def buildDesc (env : Env) (recur : RType → M Nat) (rt : RType) : M Nat := do
  let numFields := numFieldsFor env rt
  let initFuncs := initFuncsFor env recur rt
  let t ← allocDesc (TypeDesc.alloc env rt numFields)
  let (v, loaded) ← loadOrStore rt t
  if loaded then pure v
  else
    let d ← M.get t
    if d.ReflectStructFields.len ≠ numFields then
      M.ofExcept (Except.error Err.assertion)
    else
      runInits t initFuncs
      pure t

/-- `TypeFromReflectType(rt)`.  The first argument bounds the depth of the
recursion. -/
def TypeFromReflectType (env : Env) : Nat → RType → M Nat
  | 0, rt => fun σ =>
    match load σ.types rt with
    | some v => (σ, Except.ok v)
    | none => (σ, Except.error Err.outOfFuel)
  | fuel + 1, rt => fun σ =>
    match load σ.types rt with
    | some v => (σ, Except.ok v)
    | none => buildDesc env (TypeFromReflectType env fuel) rt σ

/-- `reflect.TypeOf(v)`: the type named by the type word of `v` (nil for the
nil interface). -/
def reflectTypeOf (v : Boxed) : Except Err (Option RType) :=
  match v.type with
  | Word.null => Except.ok none
  | Word.abi rt => Except.ok (some rt)
  | Word.usr _ => Except.error Err.fault

/-- `TypeOf(v)`.  For the nil interface `rt` is nil: `types.Load` misses
(nothing is stored before `rt.Kind()` is called) and `rt.Kind()` dereferences
nil. -/
def TypeOf (env : Env) (fuel : Nat) (v : Boxed) : M Nat := do
  let rt ← M.ofExcept (reflectTypeOf v)
  match rt with
  | none => M.ofExcept (Except.error Err.nilDeref)
  | some rt => TypeFromReflectType env fuel rt

/-- `Len(v)`. -/
def Len (env : Env) (mem : Mem) (fuel : Nat) (v : Boxed) : M Int := do
  let r ← TypeOf env fuel v
  let t ← M.get r
  if t.uintData &&& udHasLenMask = udHasLenMask then pure (t.numFields : Int)
  else if kindOf env t.ReflectType = Kind.Slice then pure (sliceLen mem v.data)
  else pure 0

/-- The inner loop of `appendFields` (`type.go:329-333`): `k` iterations from
index `i`. -/
def appendLoop (σ : State) (t : TypeDesc) (types : Region) (base : Nat) (m : Nat) :
    Nat → Nat → List Boxed → Except Err (List Boxed)
  | 0, _, slice => Except.ok slice
  | k + 1, i, slice => do
    let off ← fieldOffset σ t i
    let ty ← t.getWord types ((i : Int) * m)
    appendLoop σ t types base m k (i + 1) (slice ++ [⟨ty, unsafeAdd base off⟩])

/-- The `*Type` held in a word (a nil one fails at its first use, which follows at once). -/
def refOfWord : Word → Except Err Nat
  | Word.null => Except.error Err.nilDeref
  | Word.usr r => Except.ok r
  | Word.abi _ => Except.error Err.fault

/-- The body of the outer loop of `appendFields` for one argument `st`
(`type.go:316-333`). -/
def appendOne (env : Env) (mem : Mem) (fuel : Nat) (fieldsSelector : TypeDesc → Region)
    (slice : List Boxed) (st : Boxed) : M (List Boxed) := do
  let structType ← TypeOf env fuel st
  let t ← M.get structType
  let structKind := kindOf env t.ReflectType
  let (structType, structKind, st) ←
    if structKind = Kind.Pointer then do
      let w ← M.ofExcept (t.getWord t.fieldUSRTypes 0)
      let structType ← M.ofExcept (refOfWord w)
      let t ← M.get structType
      pure (structType, kindOf env t.ReflectType, (⟨t.self, st.data⟩ : Boxed))
    else pure (structType, structKind, st)
  let t ← M.get structType
  let types := fieldsSelector t
  let base := if structKind = Kind.Slice then sliceData mem st.data else st.data
  let m := t.fieldIndexMultiplier
  let length ← Len env mem fuel st
  let t ← M.get structType
  fun σ => (σ, appendLoop σ t types base m length.toNat 0 slice)

/-- `appendFields(slice, fieldsSelector, structPointers...)`. -/
def appendFields (env : Env) (mem : Mem) (fuel : Nat) (fieldsSelector : TypeDesc → Region) :
    List Boxed → List Boxed → M (List Boxed)
  | slice, [] => pure slice
  | slice, st :: rest => do
    let slice ← appendOne env mem fuel fieldsSelector slice st
    appendFields env mem fuel fieldsSelector slice rest

/-- `AppendUnsafeFieldValues(slice, structs...)`. -/
def AppendUnsafeFieldValues (env : Env) (mem : Mem) (fuel : Nat) (slice structs : List Boxed) :
    M (List Boxed) :=
  appendFields env mem fuel TypeDesc.fieldABITypes slice structs

/-- `AppendFieldPointers(slice, structs...)`. -/
def AppendFieldPointers (env : Env) (mem : Mem) (fuel : Nat) (slice structs : List Boxed) :
    M (List Boxed) :=
  appendFields env mem fuel TypeDesc.ptrToFieldABITypes slice structs


/-! ## Assertions about states and executions -/

/-- The members of a descriptor that are written before it is published
(`type.go:115-125`) agree. -/
def SameHeader (t t1 : TypeDesc) : Prop :=
  t1.reflectType = t.reflectType ∧ t1.size = t.size ∧ t1.self = t.self ∧
    t1.ptrToSelf = t.ptrToSelf

/-- The state `σ1` comes after `σ`: no descriptor was freed, headers are
unchanged, the descriptors below `b` are untouched and every registry entry
is still there. -/
structure Ext (b : Nat) (σ σ1 : State) : Prop where
  len : σ.heap.length ≤ σ1.heap.length
  hdr : ∀ (i : Nat) (t : TypeDesc), σ.heap[i]? = some t →
    ∃ t1, σ1.heap[i]? = some t1 ∧ SameHeader t t1
  frame : ∀ (i : Nat), i < b → σ1.heap[i]? = σ.heap[i]?
  reg : ∀ k v, load σ.types k = some v → load σ1.types k = some v

/-- Every registry entry points to an allocated descriptor that carries the
header of its key. -/
def Inv (env : Env) (σ : State) : Prop :=
  ∀ k r, load σ.types k = some r →
    ∃ t, σ.heap[r]? = some t ∧ t.reflectType = k ∧ t.self = valueIdentity env k ∧
      t.ptrToSelf = Word.abi (RType.ptr k) ∧ t.size = wrapInt (rtSize env k)

/-- The states the program reaches from `σ`: every change of state is a call
of `TypeFromReflectType` (directly or through `TypeOf`, `Len`, `appendFields`),
returning or not. -/
inductive Later (env : Env) : State → State → Prop where
  | refl (σ : State) : Later env σ σ
  | step {σ σ1 : State} (fuel : Nat) (rt : RType) :
      Later env σ σ1 → Later env σ (TypeFromReflectType env fuel rt σ1).1

/-- The states the program reaches from `σ` by calls of `TypeFromReflectType`,
returning or panicking, none of which leaves a descriptor block (no call ends
in `Err.fault`): on these calls the embedding follows the code step by step. -/
inductive LaterInBlock (env : Env) : State → State → Prop where
  | refl (σ : State) : LaterInBlock env σ σ
  | step {σ σ1 : State} (fuel : Nat) (rt : RType) :
      LaterInBlock env σ σ1 →
      (TypeFromReflectType env fuel rt σ1).2 ≠ Except.error Err.fault →
      LaterInBlock env σ (TypeFromReflectType env fuel rt σ1).1

/-- The states the program reaches from its start. -/
def Reachable (env : Env) (σ : State) : Prop := Later env State.empty σ

/-- What holds after a step: `Q` of the result and state when it returns,
`E` of the error and state when it fails. -/
def wp {α : Type} (x : M α) (Q : α → State → Prop) (E : Err → State → Prop) (σ : State) :
    Prop :=
  match x σ with
  | (σ1, Except.ok a) => Q a σ1
  | (σ1, Except.error e) => E e σ1

/-- The type `rt` and the types nested in it. -/
def subterms : RType → List RType
  | RType.named id => [RType.named id]
  | RType.ptr e => RType.ptr e :: subterms e
  | RType.slice e => RType.slice e :: subterms e
  | RType.array n e => RType.array n e :: subterms e

/-- The types a declaration mentions. -/
def underTypes : Underlying → List RType
  | Underlying.ptr e => subterms e
  | Underlying.slice e => subterms e
  | Underlying.array _ e => subterms e
  | Underlying.struct fs => (fs.map (fun f => subterms f.type)).flatten
  | _ => []

/-- The types the declarations of the program mention. -/
def envTypes (env : Env) : List RType := (env.map (fun d => underTypes d.under)).flatten

/-- The finite set of types that building the descriptor of `rt` can ask for:
`rt`, the types the program mentions, the types nested in these, and the
pointer types to all of them. -/
def typeGraph (env : Env) (rt : RType) : List RType :=
  (subterms rt ++ envTypes env) ++ (subterms rt ++ envTypes env).map RType.ptr

/-- The number of types of `U` that have no descriptor yet. -/
def unregistered (U : List RType) (σ : State) : Nat :=
  (U.filter (fun x => (load σ.types x).isNone)).length

/-- A step that only extends the state, writes at or above `b`, and keeps the
registry well formed. -/
def Sound (env : Env) (b : Nat) {α : Type} (x : M α) : Prop :=
  ∀ σ : State, b ≤ σ.heap.length → Ext b σ (x σ).1 ∧ (Inv env σ → Inv env (x σ).1)

/-- What the body of `TypeFromReflectType` relies on in its recursive calls:
they only extend the state, leave every existing descriptor untouched, keep
the registry well formed, and register what they return. -/
def RecSound (env : Env) (recur : RType → M Nat) : Prop :=
  ∀ (rt : RType) (σ : State),
    Ext σ.heap.length σ (recur rt σ).1 ∧ (Inv env σ → Inv env (recur rt σ).1) ∧
      ∀ r, (recur rt σ).2 = Except.ok r → load (recur rt σ).1.types rt = some r

/-- A step that does not stop for lack of recursion depth from the states
satisfying `C`. -/
def Runs {α : Type} (C : State → Prop) (x : M α) : Prop :=
  ∀ σ : State, C σ → (x σ).2 ≠ Except.error Err.outOfFuel

/-- What holds along a chain of calls: the registry is well formed, at most
`fuel` types of `U` have no descriptor, and the entries `L` are registered. -/
def Ctx (env : Env) (U : List RType) (fuel : Nat) (L : List (RType × Nat)) (σ : State) :
    Prop :=
  Inv env σ ∧ unregistered U σ ≤ fuel ∧ ∀ p ∈ L, load σ.types p.1 = some p.2

/-- The recursive calls on types of `U` do not stop for lack of depth when at
most `fuel` types of `U` have no descriptor. -/
def RecRuns (env : Env) (U : List RType) (fuel : Nat) (recur : RType → M Nat) : Prop :=
  ∀ (rt : RType) (σ : State), rt ∈ U → Inv env σ → unregistered U σ ≤ fuel →
    (recur rt σ).2 ≠ Except.error Err.outOfFuel

/-- The descriptor behind `r` holds `sf` at index `i` of the field slice `fs`. -/
def FieldAt (r : Nat) (fs : FieldRegion) (i : Nat) (sf : StructField) (σ : State) : Prop :=
  ∃ t, σ.heap[r]? = some t ∧ t.getField fs i = Except.ok sf

/-- Whenever the step `x` returns from a state satisfying `C`, the result and
the state it leaves satisfy `Q`. -/
def Holds {α : Type} (C : State → Prop) (x : M α) (Q : α → State → Prop) : Prop :=
  ∀ (σ : State), C σ → ∀ (a : α) (σ1 : State), x σ = (σ1, Except.ok a) → Q a σ1

/-- The shape of the descriptor of a struct with `n` fields once the struct
init func has set the has-length bit. -/
def StructShape (n : Nat) (t : TypeDesc) : Prop :=
  t.uintData = toUint (n <<< uintDataBits) ||| udHasLenMask ∧ t.slots.length = 4 * n ∧
    t.fields.length = n

/-- The entries of the descriptor `t` for field `j`, declared as `f`: the
declared field, the two identities of its type, and the registered descriptor
of its type. -/
def FieldFilled (env : Env) (n : Nat) (t : TypeDesc) (σ : State) (j : Nat) (f : FieldDecl) :
    Prop :=
  t.fields[j]? = some ⟨f.name, some f.type, f.offset⟩ ∧
    t.slots[j]? = some (valueIdentity env f.type) ∧
    t.slots[n + j]? = some (Word.abi (RType.ptr f.type)) ∧
    ∃ rj, t.slots[2 * n + j]? = some (Word.usr rj) ∧ load σ.types f.type = some rj

/-- The state of the struct init loop before index `i`: the descriptor behind
`r` has the struct shape and its entries below `i` are filled. -/
def LoopInv (env : Env) (fs : List FieldDecl) (r : Nat) (i : Nat) (σ : State) : Prop :=
  Inv env σ ∧ ∃ t, σ.heap[r]? = some t ∧ StructShape fs.length t ∧
    ∀ j f, j < i → fs[j]? = some f → FieldFilled env fs.length t σ j f

/-- The state of the struct init loop inside the iteration for index `i`: as
`LoopInv`, and the descriptor and registry satisfy `P`. -/
def Stage (env : Env) (fs : List FieldDecl) (r : Nat) (i : Nat)
    (P : TypeDesc → State → Prop) (σ : State) : Prop :=
  Inv env σ ∧ ∃ t, σ.heap[r]? = some t ∧ StructShape fs.length t ∧
    (∀ j f, j < i → fs[j]? = some f → FieldFilled env fs.length t σ j f) ∧ P t σ

/-- The entries of the descriptor `t` of a slice or pointer type with element
type `e`, as the element init func leaves them: one field table entry, the
two identities of `e`, and the registered descriptor of `e`; the has-length
bit is clear. -/
def ElemFilled (env : Env) (t : TypeDesc) (σ : State) (e : RType) : Prop :=
  t.uintData = 4 ∧ t.slots.length = 4 ∧ t.fields = [⟨"Elem", some e, 0⟩] ∧
    t.slots[0]? = some (valueIdentity env e) ∧
    t.slots[1]? = some (Word.abi (RType.ptr e)) ∧
    ∃ re, t.slots[2]? = some (Word.usr re) ∧ load σ.types e = some re

/-- The descriptor behind `r` is completely built: if it is the descriptor of a
struct type, every entry of its field table is filled; if it is the descriptor
of a slice or pointer type, its one entry is filled. -/
def Good (env : Env) (σ : State) (r : Nat) : Prop :=
  ∀ t, σ.heap[r]? = some t →
    (∀ fs, view env t.reflectType = Underlying.struct fs → fs.length < 2 ^ 62 →
      StructShape fs.length t ∧
        ∀ j f, j < fs.length → fs[j]? = some f → FieldFilled env fs.length t σ j f) ∧
    (∀ e, (view env t.reflectType = Underlying.slice e ∨
        view env t.reflectType = Underlying.ptr e) → ElemFilled env t σ e)

/-- Every registered descriptor outside `P` (the descriptors whose build is in
progress or was abandoned) is completely built. -/
def AGE (env : Env) (P : Nat → Prop) (σ : State) : Prop :=
  ∀ k r, load σ.types k = some r → ¬ P r → Good env σ r

/-- The registry is well formed and every registered descriptor outside `P` is
completely built. -/
def Keep (env : Env) (P : Nat → Prop) (σ : State) : Prop :=
  Inv env σ ∧ AGE env P σ

/-- What the body of `TypeFromReflectType` relies on in its recursive calls for
the descriptors they register: a call that returns leaves every registered
descriptor outside `P` completely built. -/
def RecGood (env : Env) (recur : RType → M Nat) : Prop :=
  ∀ (k : RType) (σ σ1 : State) (v : Nat) (P : Nat → Prop),
    Keep env P σ → recur k σ = (σ1, Except.ok v) → AGE env P σ1

/-- The shape of the descriptor of a slice or pointer type: one field, the
has-length bit clear. -/
def ElemShape (t : TypeDesc) : Prop :=
  t.uintData = 4 ∧ t.slots.length = 4 ∧ t.fields.length = 1

/-- The state inside the element init func for the descriptor behind `r`: it
has the one-field shape and, with the registry, satisfies `P`. -/
def EStage (env : Env) (r : Nat) (P : TypeDesc → State → Prop) (σ : State) : Prop :=
  Inv env σ ∧ ∃ t, σ.heap[r]? = some t ∧ ElemShape t ∧ P t σ

/-! ## Concrete types and the states their descriptors are built in -/

/-- The declared types used in the examples: `int64`, `string`,
`S{Int int64; Str string}`, `Node{Next *Node}`, `Z{A [0]int64}`. -/
def envT : Env :=
  [⟨8, Underlying.leaf⟩, ⟨16, Underlying.leaf⟩,
   ⟨24, Underlying.struct [⟨"Int", 0, RType.named 0⟩, ⟨"Str", 8, RType.named 1⟩]⟩,
   ⟨8, Underlying.struct [⟨"Next", 0, RType.ptr (RType.named 3)⟩]⟩,
   ⟨0, Underlying.struct [⟨"A", 0, RType.array 0 (RType.named 0)⟩]⟩]

def tInt : RType := RType.named 0
def tStr : RType := RType.named 1
def tS : RType := RType.named 2
def tNode : RType := RType.named 3
def tZ : RType := RType.named 4

/-- A leaf descriptor as built for `rt`. -/
def leafDesc (rt : RType) (size : Int) : TypeDesc :=
  ⟨rt, size, 0, Word.abi rt, Word.abi (RType.ptr rt), [], []⟩

/-- A one-entry descriptor as built for `rt` with element `e`. -/
def elemDesc (rt e : RType) (size : Int) (re rp : Nat) : TypeDesc :=
  ⟨rt, size, 4, Word.abi rt, Word.abi (RType.ptr rt),
    [Word.abi e, Word.abi (RType.ptr e), Word.usr re, Word.usr rp], [⟨"Elem", some e, 0⟩]⟩

/-- The state after `TypeFromReflectType(S)` at program start. -/
def stS : State :=
  ⟨[⟨tS, 24, 9, Word.abi tS, Word.abi (RType.ptr tS),
      [Word.abi tInt, Word.abi tStr, Word.abi (RType.ptr tInt), Word.abi (RType.ptr tStr),
        Word.usr 1, Word.usr 3, Word.usr 2, Word.usr 4],
      [⟨"Int", some tInt, 0⟩, ⟨"Str", some tStr, 8⟩]⟩,
    leafDesc tInt 8, elemDesc (RType.ptr tInt) tInt 8 1 2,
    leafDesc tStr 16, elemDesc (RType.ptr tStr) tStr 8 3 4],
   [(RType.ptr tStr, 4), (tStr, 3), (RType.ptr tInt, 2), (tInt, 1), (tS, 0)]⟩

/-- The state after `TypeFromReflectType(Node)` at program start. -/
def stNode : State :=
  ⟨[⟨tNode, 8, 5, Word.abi tNode, Word.abi (RType.ptr tNode),
      [Word.abi (RType.ptr tNode), Word.abi (RType.ptr (RType.ptr tNode)), Word.usr 1, Word.usr 2],
      [⟨"Next", some (RType.ptr tNode), 0⟩]⟩,
    elemDesc (RType.ptr tNode) tNode 8 0 1,
    elemDesc (RType.ptr (RType.ptr tNode)) (RType.ptr tNode) 8 1 2],
   [(RType.ptr (RType.ptr tNode), 2), (RType.ptr tNode, 1), (tNode, 0)]⟩

/-- The state after `TypeOf` of an `int64` and then of a `*int64`. -/
def stPtr : State :=
  ⟨[leafDesc tInt 8, elemDesc (RType.ptr tInt) tInt 8 0 1],
   [(RType.ptr tInt, 1), (tInt, 0)]⟩

/-- The state after `TypeOf` of an `int64`, a `*int64` and then a `[]int64`. -/
def stSl : State :=
  ⟨[leafDesc tInt 8, elemDesc (RType.ptr tInt) tInt 8 0 1,
    elemDesc (RType.slice tInt) tInt 24 0 1],
   [(RType.slice tInt, 2), (RType.ptr tInt, 1), (tInt, 0)]⟩

/-- The state inside `TypeFromReflectType([n]int64)`, called after `TypeOf` of
an `int64`, right after `types.LoadOrStore` has published the new descriptor
and before its init funcs run. -/
def stArrPub (n : Nat) : State :=
  ⟨[leafDesc tInt 8, TypeDesc.alloc envT (RType.array n tInt) 1],
   [(RType.array n tInt, 1), (tInt, 0)]⟩

/-- The state inside `TypeFromReflectType([n]int64)`, called after `TypeOf` of
an `int64`, right after the array init func (the first init func) has run: it
has stored `uintData`, the field table is still zeroed. -/
def stArr (n : Nat) (size : Int) (uintData : Nat) : State :=
  ⟨[leafDesc tInt 8,
    ⟨RType.array n tInt, size, uintData, Word.abi (RType.array n tInt),
      Word.abi (RType.ptr (RType.array n tInt)),
      [Word.null, Word.null, Word.null, Word.null], [⟨"", none, 0⟩]⟩],
   [(RType.array n tInt, 1), (tInt, 0)]⟩

/-- The state after `TypeFromReflectType(int64)` at program start. -/
def stInt : State := ⟨[leafDesc tInt 8], [(tInt, 0)]⟩

/-- The state inside `TypeFromReflectType(*int64)`, called after `TypeOf` of an
`int64`, right after `types.LoadOrStore` has published the new descriptor and
before its init funcs run. -/
def stPub : State :=
  ⟨[leafDesc tInt 8, TypeDesc.alloc envT (RType.ptr tInt) 1],
   [(RType.ptr tInt, 1), (tInt, 0)]⟩

/-- The state in which `TypeOf(Z{})`, called after `TypeOf` of an `int64`,
panics: the descriptor of `Z` is published and holds its first field table
entry, the descriptor of `[0]int64` is published with the field count 0. -/
def stZ : State :=
  ⟨[leafDesc tInt 8,
    ⟨tZ, 0, 5, Word.abi tZ, Word.abi (RType.ptr tZ),
      [Word.null, Word.null, Word.null, Word.null],
      [⟨"A", some (RType.array 0 tInt), 0⟩]⟩,
    ⟨RType.array 0 tInt, 0, 1, Word.abi (RType.array 0 tInt),
      Word.abi (RType.ptr (RType.array 0 tInt)),
      [Word.null, Word.null, Word.null, Word.null], [⟨"", none, 0⟩]⟩],
   [(RType.array 0 tInt, 2), (tZ, 1), (tInt, 0)]⟩

/-! ## Projection: the type check and the index check -/

theorem getWord_ne_typeMismatch (t : TypeDesc) (s : Region) (i : Int) :
    t.getWord s i ≠ Except.error Err.typeMismatch := by
  unfold TypeDesc.getWord
  split
  · generalize s.start + i.toNat = w
    unfold TypeDesc.loadWord
    split
    · simp
    · simp
    · split <;> simp
  · simp

theorem getField_ne_typeMismatch (t : TypeDesc) (s : FieldRegion) (i : Int) :
    t.getField s i ≠ Except.error Err.typeMismatch := by
  unfold TypeDesc.getField
  split
  · split <;> simp
  · simp

theorem derefWord_ne_typeMismatch (σ : State) (w : Word) :
    σ.derefWord w ≠ Except.error Err.typeMismatch := by
  cases w with
  | null => simp [State.derefWord]
  | abi rt => simp [State.derefWord]
  | usr r =>
    simp only [State.derefWord, State.deref]
    split <;> simp

theorem fieldOffset_ne_typeMismatch (σ : State) (t : TypeDesc) (i : Int) :
    fieldOffset σ t i ≠ Except.error Err.typeMismatch := by
  unfold fieldOffset
  have h1 := getField_ne_typeMismatch t t.ReflectStructFields (i * (t.fieldIndexMultiplier : Int))
  have h2 := getWord_ne_typeMismatch t t.fieldUSRTypes 0
  cases hf : t.getField t.ReflectStructFields (i * (t.fieldIndexMultiplier : Int)) with
  | error e => simp_all [bind, Except.bind]
  | ok sf =>
    cases hw : t.getWord t.fieldUSRTypes 0 with
    | error e => simp_all [bind, Except.bind]
    | ok w =>
      have h3 := derefWord_ne_typeMismatch σ w
      cases hd : σ.derefWord w with
      | error e => simp_all [bind, Except.bind]
      | ok d => simp [bind, Except.bind, hf, hw, hd, pure, Except.pure]

theorem field_mismatch (env : Env) (mem : Mem) (σ : State) (r : Nat) (t : TypeDesc)
    (struc : Boxed) (i : Int) (sel : TypeDesc → Region) (ht : σ.heap[r]? = some t)
    (h1 : struc.type ≠ t.self) (h2 : struc.type ≠ t.ptrToSelf) :
    field env mem σ r struc i sel = Except.error Err.typeMismatch := by
  simp [field, State.deref, ht, bind, Except.bind, h1, h2]

theorem field_match (env : Env) (mem : Mem) (σ : State) (r : Nat) (t : TypeDesc)
    (struc : Boxed) (i : Int) (sel : TypeDesc → Region) (ht : σ.heap[r]? = some t)
    (h : struc.type = t.self ∨ struc.type = t.ptrToSelf) :
    field env mem σ r struc i sel =
      (t.getWord (sel t) (i * t.fieldIndexMultiplier)).bind (fun ty =>
        (fieldOffset σ t i).bind (fun off =>
          Except.ok ⟨ty, unsafeAdd
            (if kindOf env t.ReflectType = Kind.Slice then sliceData mem struc.data
             else struc.data) off⟩)) := by
  have hc : ¬ (struc.type ≠ t.self ∧ struc.type ≠ t.ptrToSelf) := by
    rcases h with h | h <;> simp [h]
  simp only [field, State.deref, ht, bind, Except.bind, pure, Except.pure]
  rw [if_neg hc]

theorem field_ne_typeMismatch (env : Env) (mem : Mem) (σ : State) (r : Nat) (t : TypeDesc)
    (struc : Boxed) (i : Int) (sel : TypeDesc → Region) (ht : σ.heap[r]? = some t)
    (h : struc.type = t.self ∨ struc.type = t.ptrToSelf) :
    field env mem σ r struc i sel ≠ Except.error Err.typeMismatch := by
  rw [field_match env mem σ r t struc i sel ht h]
  have h1 := getWord_ne_typeMismatch t (sel t) (i * (t.fieldIndexMultiplier : Int))
  have h2 := fieldOffset_ne_typeMismatch σ t i
  cases hw : t.getWord (sel t) (i * (t.fieldIndexMultiplier : Int)) with
  | error e =>
    rw [hw] at h1
    simpa [Except.bind] using h1
  | ok w =>
    cases ho : fieldOffset σ t i with
    | error e =>
      rw [ho] at h2
      simpa [Except.bind] using h2
    | ok off => simp [Except.bind]

/-- C4: when the type word of the boxed aggregate is neither the value-identity
nor the pointer-identity of the descriptor, `UnsafeFieldValue` and
`FieldPointer` panic with the type mismatch for every index; when it is one of
the two, neither fails the type check. -/
theorem field_type_check (env : Env) (mem : Mem) (σ : State) (r : Nat) (t : TypeDesc)
    (struc : Boxed) (i : Int) (ht : σ.heap[r]? = some t) :
    (struc.type ≠ t.self ∧ struc.type ≠ t.ptrToSelf →
      UnsafeFieldValue env mem σ r struc i = Except.error Err.typeMismatch ∧
      FieldPointer env mem σ r struc i = Except.error Err.typeMismatch) ∧
    (struc.type = t.self ∨ struc.type = t.ptrToSelf →
      UnsafeFieldValue env mem σ r struc i ≠ Except.error Err.typeMismatch ∧
      FieldPointer env mem σ r struc i ≠ Except.error Err.typeMismatch) := by
  constructor
  · rintro ⟨h1, h2⟩
    exact ⟨field_mismatch env mem σ r t struc i _ ht h1 h2,
      field_mismatch env mem σ r t struc i _ ht h1 h2⟩
  · intro h
    exact ⟨field_ne_typeMismatch env mem σ r t struc i _ ht h,
      field_ne_typeMismatch env mem σ r t struc i _ ht h⟩

theorem field_type_check_witness :
    stInt.heap[0]? = some (leafDesc tInt 8) ∧
    ((Boxed.mk (Word.abi tStr) 4096).type ≠ (leafDesc tInt 8).self ∧
        (Boxed.mk (Word.abi tStr) 4096).type ≠ (leafDesc tInt 8).ptrToSelf →
      UnsafeFieldValue envT (fun _ => 0) stInt 0 ⟨Word.abi tStr, 4096⟩ 0
        = Except.error Err.typeMismatch ∧
      FieldPointer envT (fun _ => 0) stInt 0 ⟨Word.abi tStr, 4096⟩ 0
        = Except.error Err.typeMismatch) ∧
    ((Boxed.mk (Word.abi tStr) 4096).type = (leafDesc tInt 8).self ∨
        (Boxed.mk (Word.abi tStr) 4096).type = (leafDesc tInt 8).ptrToSelf →
      UnsafeFieldValue envT (fun _ => 0) stInt 0 ⟨Word.abi tStr, 4096⟩ 0
        ≠ Except.error Err.typeMismatch ∧
      FieldPointer envT (fun _ => 0) stInt 0 ⟨Word.abi tStr, 4096⟩ 0
        ≠ Except.error Err.typeMismatch) :=
  ⟨rfl, field_type_check envT (fun _ => 0) stInt 0 (leafDesc tInt 8) ⟨Word.abi tStr, 4096⟩ 0 rfl⟩

theorem fieldABITypes_len (t : TypeDesc) : t.fieldABITypes.len = t.numFields := by
  simp [TypeDesc.fieldABITypes, unsafeSlice, Region.drop]

theorem field_index_fails (env : Env) (mem : Mem) (σ : State) (r : Nat) (t : TypeDesc)
    (struc : Boxed) (i : Int) (ht : σ.heap[r]? = some t)
    (hm : struc.type = t.self ∨ struc.type = t.ptrToSelf)
    (hk : t.fieldIndexMultiplier = 1 ∨ t.numFields = 0)
    (hi : i < 0 ∨ (t.numFields : Int) ≤ i) :
    UnsafeFieldValue env mem σ r struc i = Except.error Err.indexOutOfRange := by
  unfold UnsafeFieldValue
  rw [field_match env mem σ r t struc i _ ht hm]
  have hw : t.getWord t.fieldABITypes (i * (t.fieldIndexMultiplier : Int))
      = Except.error Err.indexOutOfRange := by
    unfold TypeDesc.getWord
    rw [fieldABITypes_len]
    rcases hk with hk | hk
    · rw [hk]
      have : ¬ (0 ≤ i * ((1 : Nat) : Int) ∧ i * ((1 : Nat) : Int) < (t.numFields : Int)) := by
        simp only [Nat.cast_one, mul_one]
        omega
      rw [if_neg this]
    · rw [hk]
      have : ¬ (0 ≤ i * (t.fieldIndexMultiplier : Int) ∧
          i * (t.fieldIndexMultiplier : Int) < ((0 : Nat) : Int)) := by
        simp only [Nat.cast_zero]
        omega
      rw [if_neg this]
  rw [hw]
  rfl

/-! ## Steps -/

theorem M.bind_apply {α β : Type} (x : M α) (f : α → M β) (σ : State) :
    (x >>= f) σ = match x σ with
      | (σ1, Except.ok a) => f a σ1
      | (σ1, Except.error e) => (σ1, Except.error e) := rfl

theorem M.pure_apply {α : Type} (a : α) (σ : State) :
    (Pure.pure a : M α) σ = (σ, Except.ok a) := rfl

theorem M.modify_none {r : Nat} {f : TypeDesc → Except Err TypeDesc} {σ : State}
    (h : σ.heap[r]? = none) : M.modify r f σ = (σ, Except.error Err.fault) := by
  simp [M.modify, State.deref, h]

theorem M.modify_error {r : Nat} {f : TypeDesc → Except Err TypeDesc} {σ : State}
    {t : TypeDesc} {e : Err} (h : σ.heap[r]? = some t) (hf : f t = Except.error e) :
    M.modify r f σ = (σ, Except.error e) := by
  simp [M.modify, State.deref, h, hf]

theorem M.modify_ok {r : Nat} {f : TypeDesc → Except Err TypeDesc} {σ : State}
    {t t1 : TypeDesc} (h : σ.heap[r]? = some t) (hf : f t = Except.ok t1) :
    M.modify r f σ = (⟨σ.heap.set r t1, σ.types⟩, Except.ok ()) := by
  simp [M.modify, State.deref, h, hf]

theorem M.get_ok {r : Nat} {σ : State} {t : TypeDesc} (h : σ.heap[r]? = some t) :
    M.get r σ = (σ, Except.ok t) := by
  simp [M.get, State.deref, h]

/-! ## Frame: a call only adds to the state -/

theorem SameHeader_refl (t : TypeDesc) : SameHeader t t := ⟨rfl, rfl, rfl, rfl⟩

theorem SameHeader_trans {a b c : TypeDesc} (h1 : SameHeader a b) (h2 : SameHeader b c) :
    SameHeader a c := by
  obtain ⟨a1, a2, a3, a4⟩ := h1
  obtain ⟨b1, b2, b3, b4⟩ := h2
  exact ⟨b1.trans a1, b2.trans a2, b3.trans a3, b4.trans a4⟩

theorem Ext_refl (b : Nat) (σ : State) : Ext b σ σ :=
  ⟨Nat.le_refl _, fun _ t h => ⟨t, h, SameHeader_refl t⟩, fun _ _ => rfl, fun _ _ h => h⟩

theorem Ext_trans {b : Nat} {σ σ1 σ2 : State} (h1 : Ext b σ σ1) (h2 : Ext b σ1 σ2) :
    Ext b σ σ2 := by
  refine ⟨Nat.le_trans h1.len h2.len, ?_, ?_, fun k v h => h2.reg k v (h1.reg k v h)⟩
  · intro i t h
    obtain ⟨t1, ht1, hs1⟩ := h1.hdr i t h
    obtain ⟨t2, ht2, hs2⟩ := h2.hdr i t1 ht1
    exact ⟨t2, ht2, SameHeader_trans hs1 hs2⟩
  · intro i hi
    rw [h2.frame i hi, h1.frame i hi]

theorem Ext_mono {b c : Nat} {σ σ1 : State} (h : Ext b σ σ1) (hc : c ≤ b) : Ext c σ σ1 :=
  ⟨h.len, h.hdr, fun i hi => h.frame i (Nat.lt_of_lt_of_le hi hc), h.reg⟩

theorem Sound_pure (env : Env) (b : Nat) {α : Type} (a : α) : Sound env b (pure a : M α) :=
  fun σ _ => ⟨Ext_refl b σ, fun h => h⟩

theorem Sound_ofExcept (env : Env) (b : Nat) {α : Type} (x : Except Err α) :
    Sound env b (M.ofExcept x) :=
  fun σ _ => ⟨Ext_refl b σ, fun h => h⟩

theorem Sound_get (env : Env) (b : Nat) (r : Nat) : Sound env b (M.get r) :=
  fun σ _ => ⟨Ext_refl b σ, fun h => h⟩

theorem Sound_getWord (env : Env) (b : Nat) (w : Word) : Sound env b (M.getWord w) :=
  fun σ _ => ⟨Ext_refl b σ, fun h => h⟩

theorem Sound_bind {env : Env} {b : Nat} {α β : Type} {x : M α} {f : α → M β}
    (hx : Sound env b x) (hf : ∀ a, Sound env b (f a)) : Sound env b (x >>= f) := by
  intro σ hb
  have h1 := hx σ hb
  rw [M.bind_apply]
  rcases hres : x σ with ⟨σ1, _ | a⟩
  · simpa [hres] using h1
  · rw [hres] at h1
    have hb1 : b ≤ σ1.heap.length := Nat.le_trans hb h1.1.len
    have h2 := hf a σ1 hb1
    exact ⟨Ext_trans h1.1 h2.1, fun hi => h2.2 (h1.2 hi)⟩

theorem Sound_recur {env : Env} {recur : RType → M Nat} (h : RecSound env recur) (b : Nat)
    (rt : RType) : Sound env b (recur rt) :=
  fun σ hb => ⟨Ext_mono (h rt σ).1 hb, (h rt σ).2.1⟩

theorem Sound_modify {env : Env} {b r : Nat} {f : TypeDesc → Except Err TypeDesc}
    (hr : b ≤ r) (hf : ∀ t t1, f t = Except.ok t1 → SameHeader t t1) :
    Sound env b (M.modify r f) := by
  intro σ _
  cases hg : σ.heap[r]? with
  | none => rw [M.modify_none hg]; exact ⟨Ext_refl b σ, fun h => h⟩
  | some t =>
    cases hft : f t with
    | error e => rw [M.modify_error hg hft]; exact ⟨Ext_refl b σ, fun h => h⟩
    | ok t1 =>
      rw [M.modify_ok hg hft]
      have hs := hf t t1 hft
      have key : ∀ (i : Nat) (u : TypeDesc), σ.heap[i]? = some u →
          ∃ u1, (σ.heap.set r t1)[i]? = some u1 ∧ SameHeader u u1 := by
        intro i u hu
        by_cases hir : r = i
        · subst hir
          have hlt : r < σ.heap.length := by
            rcases Nat.lt_or_ge r σ.heap.length with h | h
            · exact h
            · rw [List.getElem?_eq_none h] at hg
              cases hg
          refine ⟨t1, by simp [List.getElem?_set, hlt], ?_⟩
          rw [hg] at hu
          cases hu
          exact hs
        · exact ⟨u, by simp [List.getElem?_set, hir, hu], SameHeader_refl u⟩
      refine ⟨⟨by simp, key, ?_, fun _ _ h => h⟩, ?_⟩
      · intro i hi
        have : r ≠ i := by omega
        simp [List.getElem?_set, this]
      · intro hinv k v hk
        obtain ⟨u, hu, h1, h2, h3, h4⟩ := hinv k v hk
        obtain ⟨u1, hu1, e1, e2, e3, e4⟩ := key v u hu
        exact ⟨u1, hu1, e1.trans h1, e3.trans h2, e4.trans h3, e2.trans h4⟩

theorem storeWord_header {t t1 : TypeDesc} {v : Word} {w : Nat} (hw : 2 ≤ w)
    (h : t.storeWord v w = Except.ok t1) : SameHeader t t1 := by
  obtain ⟨k, rfl⟩ : ∃ k, w = k + 2 := ⟨w - 2, by omega⟩
  simp only [TypeDesc.storeWord] at h
  split at h
  · cases h
    exact ⟨rfl, rfl, rfl, rfl⟩
  · cases h

theorem setWord_header {t t1 : TypeDesc} {s : Region} {i : Int} {v : Word} (hs : 2 ≤ s.start)
    (h : t.setWord s i v = Except.ok t1) : SameHeader t t1 := by
  unfold TypeDesc.setWord at h
  split at h
  · exact storeWord_header (by omega) h
  · cases h

theorem setField_header {t t1 : TypeDesc} {s : FieldRegion} {j : Int} {sf : StructField}
    (h : t.setField s j sf = Except.ok t1) : SameHeader t t1 := by
  unfold TypeDesc.setField at h
  split at h
  · split at h
    · cases h
      exact ⟨rfl, rfl, rfl, rfl⟩
    · cases h
  · cases h

theorem fieldABITypes_start (t : TypeDesc) : 2 ≤ t.fieldABITypes.start := by
  simp [TypeDesc.fieldABITypes, unsafeSlice, Region.drop]

theorem ptrToFieldABITypes_start (t : TypeDesc) : 2 ≤ t.ptrToFieldABITypes.start := by
  simp [TypeDesc.ptrToFieldABITypes, unsafeSlice, Region.drop]

theorem fieldUSRTypes_start (t : TypeDesc) : 2 ≤ t.fieldUSRTypes.start := by
  simp [TypeDesc.fieldUSRTypes, unsafeSlice, Region.drop]

theorem ptrToFieldUSRTypes_start (t : TypeDesc) : 2 ≤ t.ptrToFieldUSRTypes.start := by
  simp [TypeDesc.ptrToFieldUSRTypes, unsafeSlice, Region.drop]

theorem Sound_arrayInit (env : Env) {b r : Nat} (hr : b ≤ r) : Sound env b (arrayInit env r) := by
  unfold Unsafereflect.arrayInit
  refine Sound_bind (Sound_get env b r) (fun t => ?_)
  refine Sound_bind (Sound_ofExcept env b _) (fun n => ?_)
  refine Sound_modify hr ?_
  intro t t1 h
  cases h
  exact ⟨rfl, rfl, rfl, rfl⟩

theorem Sound_elemInit {env : Env} {recur : RType → M Nat} (hrec : RecSound env recur)
    {b r : Nat} (hr : b ≤ r) : Sound env b (elemInit env recur r) := by
  unfold Unsafereflect.elemInit
  refine Sound_bind (Sound_get env b r) (fun t => ?_)
  refine Sound_bind (Sound_ofExcept env b _) (fun e => ?_)
  refine Sound_bind (Sound_recur hrec b e) (fun elemType => ?_)
  refine Sound_bind (Sound_get env b _) (fun et => ?_)
  refine Sound_bind (Sound_modify hr (fun _ _ h => setField_header h)) (fun _ => ?_)
  refine Sound_bind (Sound_get env b _) (fun et => ?_)
  refine Sound_bind
    (Sound_modify hr (fun u _ h => setWord_header (fieldABITypes_start u) h)) (fun _ => ?_)
  refine Sound_bind (Sound_get env b _) (fun et => ?_)
  refine Sound_bind
    (Sound_modify hr (fun u _ h => setWord_header (ptrToFieldABITypes_start u) h)) (fun _ => ?_)
  refine Sound_bind
    (Sound_modify hr (fun u _ h => setWord_header (fieldUSRTypes_start u) h)) (fun _ => ?_)
  refine Sound_bind (Sound_get env b r) (fun t1 => ?_)
  refine Sound_bind (Sound_get env b _) (fun et => ?_)
  refine Sound_bind (Sound_recur hrec b _) (fun p => ?_)
  exact Sound_modify hr (fun _ _ h => setWord_header (ptrToFieldUSRTypes_start t1) h)

theorem Sound_structLoop {env : Env} {recur : RType → M Nat} (hrec : RecSound env recur)
    {b r : Nat} (hr : b ≤ r) (rt : RType) {s1 s2 s3 s4 : Region} (fs : FieldRegion)
    (h1 : 2 ≤ s1.start) (h2 : 2 ≤ s2.start) (h3 : 2 ≤ s3.start) (h4 : 2 ≤ s4.start)
    (k : Nat) : ∀ i : Nat, Sound env b (structLoop env recur r rt s1 s2 s3 s4 fs k i) := by
  induction k with
  | zero =>
    intro i
    unfold Unsafereflect.structLoop
    exact Sound_pure env b ()
  | succ k ih =>
    intro i
    unfold Unsafereflect.structLoop
    refine Sound_bind (Sound_ofExcept env b _) (fun sf => ?_)
    refine Sound_bind (Sound_modify hr (fun _ _ h => setField_header h)) (fun _ => ?_)
    refine Sound_bind (Sound_get env b r) (fun t => ?_)
    refine Sound_bind (Sound_ofExcept env b _) (fun sf1 => ?_)
    refine Sound_bind (Sound_ofExcept env b _) (fun ft => ?_)
    refine Sound_bind (Sound_recur hrec b _) (fun f => ?_)
    refine Sound_bind (Sound_modify hr (fun _ _ h => setWord_header h3 h)) (fun _ => ?_)
    refine Sound_bind (Sound_get env b r) (fun t => ?_)
    refine Sound_bind (Sound_ofExcept env b _) (fun w => ?_)
    refine Sound_bind (Sound_getWord env b _) (fun d => ?_)
    refine Sound_bind (Sound_modify hr (fun _ _ h => setWord_header h2 h)) (fun _ => ?_)
    refine Sound_bind (Sound_get env b r) (fun t => ?_)
    refine Sound_bind (Sound_ofExcept env b _) (fun w => ?_)
    refine Sound_bind (Sound_getWord env b _) (fun d => ?_)
    refine Sound_bind (Sound_modify hr (fun _ _ h => setWord_header h1 h)) (fun _ => ?_)
    refine Sound_bind (Sound_get env b r) (fun t => ?_)
    refine Sound_bind (Sound_ofExcept env b _) (fun sf2 => ?_)
    refine Sound_bind (Sound_ofExcept env b _) (fun ft2 => ?_)
    refine Sound_bind (Sound_recur hrec b _) (fun p => ?_)
    refine Sound_bind (Sound_modify hr (fun _ _ h => setWord_header h4 h)) (fun _ => ?_)
    exact ih (i + 1)

theorem Sound_structInit {env : Env} {recur : RType → M Nat} (hrec : RecSound env recur)
    {b r : Nat} (hr : b ≤ r) : Sound env b (structInit env recur r) := by
  unfold Unsafereflect.structInit
  refine Sound_bind (Sound_modify hr ?_) (fun _ => ?_)
  · intro t t1 h
    cases h
    exact ⟨rfl, rfl, rfl, rfl⟩
  · refine Sound_bind (Sound_get env b r) (fun t => ?_)
    exact Sound_structLoop hrec hr _ _ (fieldABITypes_start t) (ptrToFieldABITypes_start t)
      (fieldUSRTypes_start t) (ptrToFieldUSRTypes_start t) _ 0

theorem Sound_runInits {env : Env} {b r : Nat} :
    ∀ fs : List (Nat → M Unit), (∀ f ∈ fs, Sound env b (f r)) → Sound env b (runInits r fs) := by
  intro fs
  induction fs with
  | nil =>
    intro _
    unfold Unsafereflect.runInits
    exact Sound_pure env b ()
  | cons f rest ih =>
    intro h
    unfold Unsafereflect.runInits
    refine Sound_bind (h f (List.mem_cons_self f rest)) (fun _ => ?_)
    exact ih (fun g hg => h g (List.mem_cons_of_mem f hg))

theorem Sound_initFuncsFor {env : Env} {recur : RType → M Nat} (hrec : RecSound env recur)
    {b r : Nat} (hr : b ≤ r) (rt : RType) :
    ∀ f ∈ initFuncsFor env recur rt, Sound env b (f r) := by
  intro f hf
  unfold Unsafereflect.initFuncsFor at hf
  split at hf <;> simp at hf
  · rcases hf with rfl | rfl
    · exact Sound_arrayInit env hr
    · exact Sound_elemInit hrec hr
  · subst hf; exact Sound_elemInit hrec hr
  · subst hf; exact Sound_elemInit hrec hr
  · subst hf; exact Sound_elemInit hrec hr
  · subst hf; exact Sound_structInit hrec hr

theorem buildDesc_apply (env : Env) (recur : RType → M Nat) (rt : RType) (σ : State)
    (h : load σ.types rt = none) :
    buildDesc env recur rt σ =
      if (TypeDesc.alloc env rt (numFieldsFor env rt)).ReflectStructFields.len
          ≠ numFieldsFor env rt then
        (⟨σ.heap ++ [TypeDesc.alloc env rt (numFieldsFor env rt)],
          (rt, σ.heap.length) :: σ.types⟩, Except.error Err.assertion)
      else
        match runInits σ.heap.length (initFuncsFor env recur rt)
            ⟨σ.heap ++ [TypeDesc.alloc env rt (numFieldsFor env rt)],
              (rt, σ.heap.length) :: σ.types⟩ with
        | (σ3, Except.ok _) => (σ3, Except.ok σ.heap.length)
        | (σ3, Except.error e) => (σ3, Except.error e) := by
  have hget : M.get σ.heap.length
      ⟨σ.heap ++ [TypeDesc.alloc env rt (numFieldsFor env rt)], (rt, σ.heap.length) :: σ.types⟩
      = (⟨σ.heap ++ [TypeDesc.alloc env rt (numFieldsFor env rt)],
          (rt, σ.heap.length) :: σ.types⟩,
         Except.ok (TypeDesc.alloc env rt (numFieldsFor env rt))) :=
    M.get_ok (by simp)
  unfold buildDesc
  by_cases hc : (TypeDesc.alloc env rt (numFieldsFor env rt)).ReflectStructFields.len
      = numFieldsFor env rt
  · simp only [M.bind_apply, allocDesc, loadOrStore, h, hget, hc, M.pure_apply, ne_eq,
      not_true_eq_false, if_false, Bool.false_eq_true]
    cases runInits σ.heap.length (initFuncsFor env recur rt)
      ⟨σ.heap ++ [TypeDesc.alloc env rt (numFieldsFor env rt)], (rt, σ.heap.length) :: σ.types⟩ with
    | mk σ3 res => cases res <;> rfl
  · simp only [M.bind_apply, allocDesc, loadOrStore, h, hget, hc, M.ofExcept, ne_eq,
      not_false_eq_true, if_true, if_false, Bool.false_eq_true]

theorem TFRT_hit (env : Env) (fuel : Nat) {rt : RType} {σ : State} {v : Nat}
    (h : load σ.types rt = some v) : TypeFromReflectType env fuel rt σ = (σ, Except.ok v) := by
  cases fuel <;> simp [TypeFromReflectType, h]

theorem TFRT_zero_miss (env : Env) {rt : RType} {σ : State} (h : load σ.types rt = none) :
    TypeFromReflectType env 0 rt σ = (σ, Except.error Err.outOfFuel) := by
  simp [TypeFromReflectType, h]

theorem TFRT_succ_miss (env : Env) (fuel : Nat) {rt : RType} {σ : State}
    (h : load σ.types rt = none) :
    TypeFromReflectType env (fuel + 1) rt σ
      = buildDesc env (TypeFromReflectType env fuel) rt σ := by
  simp [TypeFromReflectType, h]

theorem load_cons (rt : RType) (r : Nat) (types : List (RType × Nat)) (k : RType) :
    load ((rt, r) :: types) k = if rt = k then some r else load types k := rfl

theorem store_ext (env : Env) (rt : RType) (σ : State) (t : TypeDesc)
    (h : load σ.types rt = none) :
    Ext σ.heap.length σ ⟨σ.heap ++ [t], (rt, σ.heap.length) :: σ.types⟩ := by
  refine ⟨by simp, ?_, ?_, ?_⟩
  · intro i u hu
    have hi : i < σ.heap.length := by
      rcases Nat.lt_or_ge i σ.heap.length with h1 | h1
      · exact h1
      · rw [List.getElem?_eq_none h1] at hu
        cases hu
    exact ⟨u, by simp [List.getElem?_append_left hi, hu], SameHeader_refl u⟩
  · intro i hi
    simp [List.getElem?_append_left hi]
  · intro k v hk
    rw [load_cons]
    by_cases hkr : rt = k
    · subst hkr
      rw [h] at hk
      cases hk
    · simp [hkr, hk]

theorem store_inv (env : Env) (rt : RType) (σ : State) (n : Nat)
    (hinv : Inv env σ) :
    Inv env ⟨σ.heap ++ [TypeDesc.alloc env rt n], (rt, σ.heap.length) :: σ.types⟩ := by
  intro k v hk
  rw [load_cons] at hk
  by_cases hkr : rt = k
  · subst hkr
    simp at hk
    subst hk
    exact ⟨TypeDesc.alloc env rt n, by simp, rfl, rfl, rfl, rfl⟩
  · simp [hkr] at hk
    obtain ⟨u, hu, h1⟩ := hinv k v hk
    have hi : v < σ.heap.length := by
      rcases Nat.lt_or_ge v σ.heap.length with h1 | h1
      · exact h1
      · rw [List.getElem?_eq_none h1] at hu
        cases hu
    exact ⟨u, by simp [List.getElem?_append_left hi, hu], h1⟩

theorem buildDesc_sound {env : Env} {recur : RType → M Nat} (hrec : RecSound env recur)
    (rt : RType) (σ : State) (h : load σ.types rt = none) :
    Ext σ.heap.length σ (buildDesc env recur rt σ).1 ∧
      (Inv env σ → Inv env (buildDesc env recur rt σ).1) ∧
      ∀ r, (buildDesc env recur rt σ).2 = Except.ok r →
        load (buildDesc env recur rt σ).1.types rt = some r := by
  rw [buildDesc_apply env recur rt σ h]
  have hext := store_ext env rt σ (TypeDesc.alloc env rt (numFieldsFor env rt)) h
  have hinv := store_inv env rt σ (numFieldsFor env rt)
  split
  · refine ⟨hext, hinv, ?_⟩
    intro r hr
    cases hr
  · have hs := Sound_runInits (initFuncsFor env recur rt)
      (Sound_initFuncsFor hrec (Nat.le_refl σ.heap.length) rt)
      ⟨σ.heap ++ [TypeDesc.alloc env rt (numFieldsFor env rt)], (rt, σ.heap.length) :: σ.types⟩
      (by simp)
    have hreg : load (runInits σ.heap.length (initFuncsFor env recur rt)
        ⟨σ.heap ++ [TypeDesc.alloc env rt (numFieldsFor env rt)],
          (rt, σ.heap.length) :: σ.types⟩).1.types rt = some σ.heap.length :=
      hs.1.reg rt σ.heap.length (by simp [load_cons])
    rcases hres : runInits σ.heap.length (initFuncsFor env recur rt)
      ⟨σ.heap ++ [TypeDesc.alloc env rt (numFieldsFor env rt)],
        (rt, σ.heap.length) :: σ.types⟩ with ⟨σ3, _ | a⟩
    · rw [hres] at hs hreg
      refine ⟨Ext_trans hext hs.1, fun hi => hs.2 (hinv hi), ?_⟩
      intro r hr
      cases hr
    · rw [hres] at hs hreg
      refine ⟨Ext_trans hext hs.1, fun hi => hs.2 (hinv hi), ?_⟩
      intro r hr
      cases hr
      exact hreg

theorem TFRT_sound (env : Env) : ∀ fuel : Nat, RecSound env (TypeFromReflectType env fuel) := by
  intro fuel
  induction fuel with
  | zero =>
    intro rt σ
    cases hl : load σ.types rt with
    | none =>
      rw [TFRT_zero_miss env hl]
      exact ⟨Ext_refl _ σ, fun h => h, fun r hr => by cases hr⟩
    | some v =>
      rw [TFRT_hit env 0 hl]
      refine ⟨Ext_refl _ σ, fun h => h, fun r hr => ?_⟩
      cases hr
      exact hl
  | succ fuel ih =>
    intro rt σ
    cases hl : load σ.types rt with
    | none =>
      rw [TFRT_succ_miss env fuel hl]
      exact buildDesc_sound ih rt σ hl
    | some v =>
      rw [TFRT_hit env (fuel + 1) hl]
      refine ⟨Ext_refl _ σ, fun h => h, fun r hr => ?_⟩
      cases hr
      exact hl

theorem Later_reg {env : Env} {σ σ1 : State} (h : Later env σ σ1) :
    ∀ k v, load σ.types k = some v → load σ1.types k = some v := by
  induction h with
  | refl => exact fun _ _ h => h
  | step fuel rt _ ih =>
    intro k v hk
    exact (TFRT_sound env fuel rt _).1.reg k v (ih k v hk)

theorem Later_ext {env : Env} {σ σ1 : State} (h : Later env σ σ1) :
    Ext σ.heap.length σ σ1 := by
  induction h with
  | refl => exact Ext_refl _ _
  | step fuel rt _ ih =>
    exact Ext_trans ih (Ext_mono (TFRT_sound env fuel rt _).1 ih.len)

theorem Later_inv {env : Env} {σ σ1 : State} (h : Later env σ σ1) (hi : Inv env σ) :
    Inv env σ1 := by
  induction h with
  | refl => exact hi
  | step fuel rt _ ih => exact (TFRT_sound env fuel rt _).2.1 ih

theorem Inv_empty (env : Env) : Inv env State.empty := by
  intro k r h
  simp [State.empty, load] at h

theorem Reachable_inv {env : Env} {σ : State} (h : Reachable env σ) : Inv env σ :=
  Later_inv h (Inv_empty env)

theorem Later_trans {env : Env} {σ σ1 σ2 : State} (h1 : Later env σ σ1)
    (h2 : Later env σ1 σ2) : Later env σ σ2 := by
  induction h2 with
  | refl => exact h1
  | step fuel rt _ ih => exact Later.step fuel rt ih

/-! ## The registry only grows (C7) -/

theorem TypeOf_abi (env : Env) (fuel : Nat) (v : Boxed) (rt : RType) (σ : State)
    (h : v.type = Word.abi rt) : TypeOf env fuel v σ = TypeFromReflectType env fuel rt σ := by
  unfold TypeOf
  simp [M.bind_apply, M.ofExcept, reflectTypeOf, h]

theorem runInits_nil (r : Nat) (σ : State) : runInits r [] σ = (σ, Except.ok ()) := rfl

theorem alloc_numFields (env : Env) (rt : RType) (n : Nat) (hn : n < 2 ^ 62) :
    (TypeDesc.alloc env rt n).numFields = n := by
  simp only [TypeDesc.alloc, TypeDesc.numFields, toUint, uintDataBits, Nat.shiftLeft_eq,
    Nat.shiftRight_eq_div_pow]
  omega

theorem build_leaf (env : Env) (fuel : Nat) (rt : RType) (σ : State)
    (hl : load σ.types rt = none) (hv : view env rt = Underlying.leaf) :
    TypeFromReflectType env (fuel + 1) rt σ
      = (⟨σ.heap ++ [TypeDesc.alloc env rt 0], (rt, σ.heap.length) :: σ.types⟩,
          Except.ok σ.heap.length) := by
  have hn : numFieldsFor env rt = 0 := by simp [numFieldsFor, kindOf, hv]
  have hi : initFuncsFor env (TypeFromReflectType env fuel) rt = [] := by
    simp [initFuncsFor, kindOf, hv]
  rw [TFRT_succ_miss env fuel hl, buildDesc_apply env _ rt σ hl, hn, hi, runInits_nil]
  have h0 : (TypeDesc.alloc env rt 0).ReflectStructFields.len = 0 :=
    alloc_numFields env rt 0 (by norm_num)
  simp [h0]

/-- C7: once `TypeFromReflectType(rt)` has returned the descriptor `d`, every
later call `TypeFromReflectType(rt)` and every `TypeOf(v)` for a value `v` whose
type is `rt` returns the same `d` and leaves the state as it is; and no later
step removes or replaces a registry entry. -/
theorem descriptor_identity_stable (env : Env) (fuel : Nat) (rt : RType) (σ σ1 : State)
    (d : Nat) (h : TypeFromReflectType env fuel rt σ = (σ1, Except.ok d)) :
    ∀ σ2, Later env σ1 σ2 →
      (∀ fuel2, TypeFromReflectType env fuel2 rt σ2 = (σ2, Except.ok d)) ∧
      (∀ fuel2 (v : Boxed), v.type = Word.abi rt → TypeOf env fuel2 v σ2 = (σ2, Except.ok d)) ∧
      (∀ k r, load σ2.types k = some r →
        ∀ σ3, Later env σ2 σ3 → load σ3.types k = some r) := by
  intro σ2 h2
  have hreg : load σ1.types rt = some d := by
    have := (TFRT_sound env fuel rt σ).2.2 d (by rw [h])
    rwa [h] at this
  have hreg2 : load σ2.types rt = some d := Later_reg h2 rt d hreg
  refine ⟨fun fuel2 => TFRT_hit env fuel2 hreg2, ?_, ?_⟩
  · intro fuel2 v hv
    rw [TypeOf_abi env fuel2 v rt σ2 hv]
    exact TFRT_hit env fuel2 hreg2
  · intro k r hk σ3 h3
    exact Later_reg h3 k r hk

theorem build_int : TypeFromReflectType envT 1 tInt State.empty = (stInt, Except.ok 0) := by
  rw [build_leaf envT 0 tInt State.empty rfl rfl]
  rfl

theorem descriptor_identity_stable_witness :
    TypeFromReflectType envT 1 tInt State.empty = (stInt, Except.ok 0) ∧
    ∀ σ2, Later envT stInt σ2 →
      (∀ fuel2, TypeFromReflectType envT fuel2 tInt σ2 = (σ2, Except.ok 0)) ∧
      (∀ fuel2 (v : Boxed), v.type = Word.abi tInt →
        TypeOf envT fuel2 v σ2 = (σ2, Except.ok 0)) ∧
      (∀ k r, load σ2.types k = some r →
        ∀ σ3, Later envT σ2 σ3 → load σ3.types k = some r) :=
  ⟨build_int, descriptor_identity_stable envT 1 tInt State.empty stInt 0 build_int⟩

/-! ## The type graph of a call is finite and closed -/

theorem subterms_self (rt : RType) : rt ∈ subterms rt := by
  cases rt <;> simp [subterms]

theorem subterms_trans {x y : RType} (h : x ∈ subterms y) : ∀ z, z ∈ subterms x → z ∈ subterms y := by
  induction y with
  | named id =>
    simp [subterms] at h
    subst h
    exact fun _ hz => hz
  | ptr e ih =>
    intro z hz
    simp only [subterms, List.mem_cons] at h ⊢
    rcases h with rfl | h
    · simpa [subterms] using hz
    · exact Or.inr (ih h z hz)
  | slice e ih =>
    intro z hz
    simp only [subterms, List.mem_cons] at h ⊢
    rcases h with rfl | h
    · simpa [subterms] using hz
    · exact Or.inr (ih h z hz)
  | array n e ih =>
    intro z hz
    simp only [subterms, List.mem_cons] at h ⊢
    rcases h with rfl | h
    · simpa [subterms] using hz
    · exact Or.inr (ih h z hz)

theorem envTypes_closed {env : Env} {x : RType} (h : x ∈ envTypes env) :
    ∀ z, z ∈ subterms x → z ∈ envTypes env := by
  intro z hz
  simp only [envTypes, List.mem_flatten, List.mem_map] at h ⊢
  obtain ⟨l, ⟨d, hd, rfl⟩, hx⟩ := h
  refine ⟨_, ⟨d, hd, rfl⟩, ?_⟩
  cases hu : d.under with
  | leaf => simp [hu, underTypes] at hx
  | iface => simp [hu, underTypes] at hx
  | unsafePointer => simp [hu, underTypes] at hx
  | ptr e =>
    simp only [hu, underTypes] at hx ⊢
    exact subterms_trans hx z hz
  | slice e =>
    simp only [hu, underTypes] at hx ⊢
    exact subterms_trans hx z hz
  | array n e =>
    simp only [hu, underTypes] at hx ⊢
    exact subterms_trans hx z hz
  | struct fs =>
    simp only [hu, underTypes, List.mem_flatten, List.mem_map] at hx ⊢
    obtain ⟨l, ⟨f, hf, rfl⟩, hx⟩ := hx
    exact ⟨_, ⟨f, hf, rfl⟩, subterms_trans hx z hz⟩

theorem declOf_mem {env : Env} {id : Nat} (h : (declOf env id).under ≠ Underlying.leaf) :
    declOf env id ∈ env := by
  unfold declOf at h ⊢
  rcases Nat.lt_or_ge id env.length with hlt | hge
  · rw [List.getD_eq_getElem env _ hlt]
    exact List.getElem_mem hlt
  · rw [List.getD_eq_default env _ hge] at h
    exact absurd rfl h

/-- The nested types: `rt`, the types the program mentions, and their parts. -/
theorem base_closed {env : Env} {rt x : RType} (h : x ∈ subterms rt ++ envTypes env) :
    ∀ z, z ∈ subterms x → z ∈ subterms rt ++ envTypes env := by
  intro z hz
  rw [List.mem_append] at h ⊢
  rcases h with h | h
  · exact Or.inl (subterms_trans h z hz)
  · exact Or.inr (envTypes_closed h z hz)

theorem mem_typeGraph_of_base {env : Env} {rt x : RType}
    (h : x ∈ subterms rt ++ envTypes env) :
    x ∈ typeGraph env rt ∧ RType.ptr x ∈ typeGraph env rt := by
  unfold typeGraph
  constructor
  · exact List.mem_append_left _ h
  · exact List.mem_append_right _ (List.mem_map.mpr ⟨x, h, rfl⟩)

theorem self_mem_typeGraph (env : Env) (rt : RType) : rt ∈ typeGraph env rt :=
  (mem_typeGraph_of_base (List.mem_append_left _ (subterms_self rt))).1

/-- The element type of a type of the graph is a nested type. -/
theorem elem_mem_base {env : Env} {rt x e : RType} (hx : x ∈ typeGraph env rt)
    (he : elemOf env x = Except.ok e) : e ∈ subterms rt ++ envTypes env := by
  unfold typeGraph at hx
  rw [List.mem_append] at hx
  cases x with
  | named id =>
    have hb : RType.named id ∈ subterms rt ++ envTypes env := by
      rcases hx with hx | hx
      · exact hx
      · simp at hx
    have hne : (declOf env id).under ≠ Underlying.leaf := by
      intro hl
      simp [elemOf, view, hl] at he
    have hmem := declOf_mem hne
    have : e ∈ underTypes (declOf env id).under := by
      unfold elemOf view at he
      cases hu : (declOf env id).under <;> simp [hu] at he
      all_goals subst he
      all_goals simp [underTypes, subterms_self]
    exact List.mem_append_right _ (by
      simp only [envTypes, List.mem_flatten, List.mem_map]
      exact ⟨_, ⟨_, hmem, rfl⟩, this⟩)
  | ptr e1 =>
    simp [elemOf, view] at he
    subst he
    rcases hx with hx | hx
    · exact base_closed hx _ (by simp [subterms, subterms_self])
    · simpa using hx
  | slice e1 =>
    simp [elemOf, view] at he
    subst he
    rcases hx with hx | hx
    · exact base_closed hx _ (by simp [subterms, subterms_self])
    · simp at hx
  | array n e1 =>
    simp [elemOf, view] at he
    subst he
    rcases hx with hx | hx
    · exact base_closed hx _ (by simp [subterms, subterms_self])
    · simp at hx

/-- The field types of a struct are nested types. -/
theorem field_mem_base {env : Env} {rt x : RType} {i : Nat} {sf : StructField} {ft : RType}
    (he : fieldOf env x i = Except.ok sf) (hft : sf.Type_ = some ft) :
    ft ∈ subterms rt ++ envTypes env := by
  unfold fieldOf at he
  cases hv : view env x with
  | struct fs =>
    simp only [hv] at he
    cases hf : fs[i]? with
    | none => simp [hf] at he
    | some f =>
      simp only [hf, Except.ok.injEq] at he
      subst he
      simp only [Option.some.injEq] at hft
      subst hft
      cases x with
      | named id =>
        simp only [view] at hv
        have hmem := declOf_mem (by rw [hv]; simp)
        have hfm : f ∈ fs := List.getElem?_mem hf
        refine List.mem_append_right _ ?_
        simp only [envTypes, List.mem_flatten, List.mem_map]
        refine ⟨_, ⟨_, hmem, rfl⟩, ?_⟩
        rw [hv]
        simp only [underTypes, List.mem_flatten, List.mem_map]
        exact ⟨_, ⟨f, hfm, rfl⟩, subterms_self _⟩
      | ptr e => simp [view] at hv
      | slice e => simp [view] at hv
      | array n e => simp [view] at hv
  | leaf => simp [hv] at he
  | iface => simp [hv] at he
  | unsafePointer => simp [hv] at he
  | ptr e => simp [hv] at he
  | slice e => simp [hv] at he
  | array n e => simp [hv] at he

/-! ## The count of unregistered types -/

theorem unregistered_mono (U : List RType) {σ σ1 : State}
    (h : ∀ k v, load σ.types k = some v → load σ1.types k = some v) :
    unregistered U σ1 ≤ unregistered U σ := by
  unfold unregistered
  induction U with
  | nil => simp
  | cons x rest ih =>
    simp only [List.filter_cons]
    cases h1 : load σ1.types x with
    | some v =>
      simp only [Option.isNone_some, Bool.false_eq_true, if_false]
      split
      · simp only [List.length_cons]
        omega
      · exact ih
    | none =>
      cases h0 : load σ.types x with
      | some v =>
        rw [h x v h0] at h1
        cases h1
      | none =>
        simp only [Option.isNone_none, if_true, List.length_cons]
        omega

theorem unregistered_store (U : List RType) {σ σ1 : State} {rt : RType}
    (h : ∀ k v, load σ.types k = some v → load σ1.types k = some v)
    (hrt : rt ∈ U) (h0 : load σ.types rt = none) (h1 : (load σ1.types rt).isSome) :
    unregistered U σ1 < unregistered U σ := by
  unfold unregistered
  induction U with
  | nil => simp at hrt
  | cons x rest ih =>
    have hm := unregistered_mono rest h
    unfold unregistered at hm
    simp only [List.filter_cons]
    by_cases hx : x = rt
    · subst hx
      rw [h0]
      cases h2 : load σ1.types x with
      | none => simp [h2] at h1
      | some v =>
        simp only [Option.isNone_some, Bool.false_eq_true, if_false, Option.isNone_none,
          if_true, List.length_cons]
        omega
    · have hr : rt ∈ rest := by
        rcases List.mem_cons.mp hrt with h3 | h3
        · exact absurd h3.symm hx
        · exact h3
      have ih1 := ih hr
      cases h2 : load σ1.types x with
      | some v =>
        simp only [Option.isNone_some, Bool.false_eq_true, if_false]
        split
        · simp only [List.length_cons]
          omega
        · exact ih1
      | none =>
        cases h3 : load σ.types x with
        | some v =>
          rw [h x v h3] at h2
          cases h2
        | none =>
          simp only [Option.isNone_none, if_true, List.length_cons]
          omega

/-! ## Steps that do not run out of depth -/

theorem getWord_ne_outOfFuel (t : TypeDesc) (s : Region) (i : Int) :
    t.getWord s i ≠ Except.error Err.outOfFuel := by
  unfold TypeDesc.getWord
  split
  · generalize s.start + i.toNat = w
    unfold TypeDesc.loadWord
    split
    · simp
    · simp
    · split <;> simp
  · simp

theorem getField_ne_outOfFuel (t : TypeDesc) (s : FieldRegion) (i : Int) :
    t.getField s i ≠ Except.error Err.outOfFuel := by
  unfold TypeDesc.getField
  split
  · split <;> simp
  · simp

theorem setWord_ne_outOfFuel (t : TypeDesc) (s : Region) (i : Int) (v : Word) :
    t.setWord s i v ≠ Except.error Err.outOfFuel := by
  unfold TypeDesc.setWord
  split
  · generalize s.start + i.toNat = w
    unfold TypeDesc.storeWord
    split
    · simp
    · simp
    · split <;> simp
  · simp

theorem setField_ne_outOfFuel (t : TypeDesc) (s : FieldRegion) (i : Int) (sf : StructField) :
    t.setField s i sf ≠ Except.error Err.outOfFuel := by
  unfold TypeDesc.setField
  split
  · split <;> simp
  · simp

theorem derefWord_ne_outOfFuel (σ : State) (w : Word) :
    σ.derefWord w ≠ Except.error Err.outOfFuel := by
  cases w with
  | null => simp [State.derefWord]
  | abi rt => simp [State.derefWord]
  | usr r =>
    simp only [State.derefWord, State.deref]
    split <;> simp

theorem elemOf_ne_outOfFuel (env : Env) (rt : RType) :
    elemOf env rt ≠ Except.error Err.outOfFuel := by
  unfold elemOf
  split <;> simp

theorem lenOf_ne_outOfFuel (env : Env) (rt : RType) :
    lenOf env rt ≠ Except.error Err.outOfFuel := by
  unfold lenOf
  split <;> simp

theorem fieldOf_ne_outOfFuel (env : Env) (rt : RType) (i : Nat) :
    fieldOf env rt i ≠ Except.error Err.outOfFuel := by
  unfold fieldOf
  split
  · split <;> simp
  · simp

theorem typeOfField_ne_outOfFuel (sf : StructField) :
    typeOfField sf ≠ Except.error Err.outOfFuel := by
  unfold typeOfField
  split <;> simp

theorem Runs_weaken {α : Type} {C D : State → Prop} {x : M α} (h : ∀ σ, C σ → D σ)
    (hx : Runs D x) : Runs C x :=
  fun σ hc => hx σ (h σ hc)

theorem Runs_pure {α : Type} (C : State → Prop) (a : α) : Runs C (pure a : M α) := by
  intro σ _
  rw [M.pure_apply]
  simp

theorem Runs_get_bind {α : Type} {C : State → Prop} {r : Nat} {f : TypeDesc → M α}
    (P : TypeDesc → Prop) (hP : ∀ σ t, C σ → σ.heap[r]? = some t → P t)
    (hf : ∀ t, P t → Runs C (f t)) : Runs C (M.get r >>= f) := by
  intro σ hc
  rw [M.bind_apply]
  cases hg : σ.heap[r]? with
  | none => simp [M.get, State.deref, hg]
  | some t =>
    rw [M.get_ok hg]
    exact hf t (hP σ t hc hg) σ hc

theorem Runs_getWord_bind {α : Type} {C : State → Prop} {w : Word} {f : TypeDesc → M α}
    (hf : ∀ t, Runs C (f t)) : Runs C (M.getWord w >>= f) := by
  intro σ hc
  rw [M.bind_apply]
  have hne := derefWord_ne_outOfFuel σ w
  cases hg : σ.derefWord w with
  | error e =>
    rw [hg] at hne
    simpa [M.getWord, hg] using hne
  | ok t =>
    simp only [M.getWord, hg]
    exact hf t σ hc

theorem Runs_ofExcept_bind {α β : Type} {C : State → Prop} {x : Except Err α} {f : α → M β}
    (hx : x ≠ Except.error Err.outOfFuel) (hf : ∀ a, x = Except.ok a → Runs C (f a)) :
    Runs C (M.ofExcept x >>= f) := by
  intro σ hc
  rw [M.bind_apply]
  cases x with
  | error e => simpa [M.ofExcept] using hx
  | ok a =>
    simp only [M.ofExcept]
    exact hf a rfl σ hc

theorem Runs_modify_bind {α : Type} {C D : State → Prop} {r : Nat}
    {g : TypeDesc → Except Err TypeDesc} {f : Unit → M α}
    (hne : ∀ t, g t ≠ Except.error Err.outOfFuel)
    (hpost : ∀ σ t t1, C σ → σ.heap[r]? = some t → g t = Except.ok t1 →
      D ⟨σ.heap.set r t1, σ.types⟩)
    (hf : Runs D (f ())) : Runs C (M.modify r g >>= f) := by
  intro σ hc
  rw [M.bind_apply]
  cases hg : σ.heap[r]? with
  | none => simp [M.modify_none hg]
  | some t =>
    cases hgt : g t with
    | error e =>
      have := hne t
      rw [hgt] at this
      simpa [M.modify_error hg hgt] using this
    | ok t1 =>
      rw [M.modify_ok hg hgt]
      exact hf _ (hpost σ t t1 hc hg hgt)

theorem Runs_modify_last {C : State → Prop} {r : Nat} {g : TypeDesc → Except Err TypeDesc}
    (hne : ∀ t, g t ≠ Except.error Err.outOfFuel) : Runs C (M.modify r g) := by
  intro σ _
  cases hg : σ.heap[r]? with
  | none => simp [M.modify_none hg]
  | some t =>
    cases hgt : g t with
    | error e =>
      have := hne t
      rw [hgt] at this
      simpa [M.modify_error hg hgt] using this
    | ok t1 => simp [M.modify_ok hg hgt]

theorem Runs_recur_bind {α : Type} {env : Env} {U : List RType} {fuel : Nat}
    {recur : RType → M Nat} (hS : RecSound env recur) (hR : RecRuns env U fuel recur)
    {C : State → Prop} {D : Nat → State → Prop} {k : RType} {f : Nat → M α}
    (hk : ∀ σ, C σ → k ∈ U ∧ Inv env σ ∧ unregistered U σ ≤ fuel)
    (hpost : ∀ σ σ1 v, C σ → Ext σ.heap.length σ σ1 → Inv env σ1 →
      load σ1.types k = some v → D v σ1)
    (hf : ∀ v, Runs (D v) (f v)) : Runs C (recur k >>= f) := by
  intro σ hc
  rw [M.bind_apply]
  obtain ⟨hku, hinv, hm⟩ := hk σ hc
  have h1 := hR k σ hku hinv hm
  have h2 := hS k σ
  rcases hres : recur k σ with ⟨σ1, e | v⟩
  · rw [hres] at h1
    simpa using h1
  · rw [hres] at h2
    exact hf v σ1 (hpost σ σ1 v hc h2.1 (h2.2.1 hinv) (h2.2.2 v rfl))

theorem Inv_set {env : Env} {σ : State} {r : Nat} {t t1 : TypeDesc} (hinv : Inv env σ)
    (ht : σ.heap[r]? = some t) (hs : SameHeader t t1) :
    Inv env ⟨σ.heap.set r t1, σ.types⟩ := by
  have h0 : Sound env 0
      (M.modify r (fun u => if u = t then Except.ok t1 else Except.error Err.fault)) :=
    Sound_modify (Nat.zero_le r) (by
      intro u u1 hu
      by_cases huc : u = t
      · simp [huc] at hu
        subst hu; subst huc
        exact hs
      · simp [huc] at hu)
  have h := h0 σ (Nat.zero_le _)
  have hf : (fun u => if u = t then Except.ok t1 else Except.error Err.fault) t
      = (Except.ok t1 : Except Err TypeDesc) := by simp
  rw [M.modify_ok ht hf] at h
  exact h.2 hinv

theorem Ctx_set {env : Env} {U : List RType} {fuel : Nat} {L : List (RType × Nat)}
    {σ : State} {r : Nat} {t t1 : TypeDesc} (h : Ctx env U fuel L σ)
    (ht : σ.heap[r]? = some t) (hs : SameHeader t t1) :
    Ctx env U fuel L ⟨σ.heap.set r t1, σ.types⟩ :=
  ⟨Inv_set h.1 ht hs, h.2.1, h.2.2⟩

theorem Ctx_recur {env : Env} {U : List RType} {fuel : Nat} {L : List (RType × Nat)}
    {σ σ1 : State} {k : RType} {v : Nat} (h : Ctx env U fuel L σ)
    (hext : Ext σ.heap.length σ σ1) (hinv : Inv env σ1) (hk : load σ1.types k = some v) :
    Ctx env U fuel ((k, v) :: L) σ1 := by
  refine ⟨hinv, Nat.le_trans (unregistered_mono U hext.reg) h.2.1, ?_⟩
  intro p hp
  rcases List.mem_cons.mp hp with rfl | hp
  · exact hk
  · exact hext.reg _ _ (h.2.2 p hp)

theorem Ctx_header {env : Env} {U : List RType} {fuel : Nat} {L : List (RType × Nat)}
    {σ : State} {k : RType} {v : Nat} {t : TypeDesc} (h : Ctx env U fuel L σ)
    (hm : (k, v) ∈ L) (ht : σ.heap[v]? = some t) : t.reflectType = k := by
  obtain ⟨u, hu, hk, -⟩ := h.1 k v (h.2.2 (k, v) hm)
  rw [ht] at hu
  cases hu
  exact hk

theorem fieldCell_lt {t : TypeDesc} {s : FieldRegion} {j k : Nat}
    (h : t.fieldCell s j = some k) : k < t.fields.length := by
  unfold TypeDesc.fieldCell at h
  simp only at h
  split at h
  · cases h
    rename_i hc
    exact hc.2.2
  · cases h

theorem setField_getField {t t1 : TypeDesc} {s : FieldRegion} {j : Int} {sf : StructField}
    (h : t.setField s j sf = Except.ok t1) : t1.getField s j = Except.ok sf := by
  unfold TypeDesc.setField at h
  unfold TypeDesc.getField
  split at h
  · rename_i hj
    rw [if_pos hj]
    cases hc : t.fieldCell s j.toNat with
    | none => simp [hc] at h
    | some k =>
      simp only [hc, Except.ok.injEq] at h
      subst h
      have hk := fieldCell_lt hc
      have hc1 : TypeDesc.fieldCell
          { t with fields := t.fields.set k sf } s j.toNat = some k := by
        unfold TypeDesc.fieldCell at hc ⊢
        simpa using hc
      simp only [hc1]
      simp [List.getD_eq_getElem?_getD, List.getElem?_set, hk]
  · cases h

theorem storeWord_getField {t t1 : TypeDesc} {v : Word} {w : Nat} {fs : FieldRegion} {j : Int}
    (h : t.storeWord v w = Except.ok t1) : t1.getField fs j = t.getField fs j := by
  unfold TypeDesc.storeWord at h
  split at h
  · cases h; rfl
  · cases h; rfl
  · split at h
    · cases h
      unfold TypeDesc.getField TypeDesc.fieldCell
      simp
    · cases h

theorem setWord_getField {t t1 : TypeDesc} {s : Region} {i : Int} {v : Word}
    {fs : FieldRegion} {j : Int} (h : t.setWord s i v = Except.ok t1) :
    t1.getField fs j = t.getField fs j := by
  unfold TypeDesc.setWord at h
  split at h
  · exact storeWord_getField h
  · cases h

theorem getElem?_set_self_of_some {α : Type} {l : List α} {r : Nat} {a b : α}
    (h : l[r]? = some a) : (l.set r b)[r]? = some b := by
  have hlt : r < l.length := by
    rcases Nat.lt_or_ge r l.length with h1 | h1
    · exact h1
    · rw [List.getElem?_eq_none h1] at h
      cases h
  simp [List.getElem?_set, hlt]

theorem FieldAt_ext {r : Nat} {fs : FieldRegion} {i : Nat} {sf : StructField} {σ σ1 : State}
    (h : FieldAt r fs i sf σ) (hext : Ext σ.heap.length σ σ1) : FieldAt r fs i sf σ1 := by
  obtain ⟨t, ht, hf⟩ := h
  have hlt : r < σ.heap.length := by
    rcases Nat.lt_or_ge r σ.heap.length with h1 | h1
    · exact h1
    · rw [List.getElem?_eq_none h1] at ht
      cases ht
  exact ⟨t, by rw [hext.frame r hlt]; exact ht, hf⟩

theorem FieldAt_setWord {r : Nat} {fs : FieldRegion} {i : Nat} {sf : StructField} {σ : State}
    {t t1 : TypeDesc} {s : Region} {j : Int} {v : Word} (h : FieldAt r fs i sf σ)
    (ht : σ.heap[r]? = some t) (hg : t.setWord s j v = Except.ok t1) :
    FieldAt r fs i sf ⟨σ.heap.set r t1, σ.types⟩ := by
  obtain ⟨u, hu, hf⟩ := h
  rw [ht] at hu
  cases hu
  exact ⟨t1, getElem?_set_self_of_some ht, by rw [setWord_getField hg]; exact hf⟩

theorem Ctx_ext {env : Env} {U : List RType} {fuel : Nat} {L : List (RType × Nat)}
    {σ σ1 : State} {b : Nat} (h : Ctx env U fuel L σ) (hext : Ext b σ σ1)
    (hinv : Inv env σ1) : Ctx env U fuel L σ1 :=
  ⟨hinv, Nat.le_trans (unregistered_mono U hext.reg) h.2.1,
    fun p hp => hext.reg _ _ (h.2.2 p hp)⟩

theorem elemInit_runs {env : Env} {rt0 : RType} {fuel : Nat} {recur : RType → M Nat}
    (hS : RecSound env recur) (hR : RecRuns env (typeGraph env rt0) fuel recur)
    {rt : RType} (hrt : rt ∈ typeGraph env rt0) (r : Nat) :
    Runs (Ctx env (typeGraph env rt0) fuel [(rt, r)]) (elemInit env recur r) := by
  unfold elemInit
  refine Runs_get_bind (fun t => t.reflectType = rt)
    (fun σ t hc ht => Ctx_header hc (List.mem_singleton.mpr rfl) ht) (fun t ht => ?_)
  refine Runs_ofExcept_bind (elemOf_ne_outOfFuel _ _) (fun e he => ?_)
  have heb : e ∈ subterms rt0 ++ envTypes env :=
    elem_mem_base hrt (by rw [← ht]; exact he)
  refine Runs_recur_bind hS hR
    (D := fun v => Ctx env (typeGraph env rt0) fuel [(e, v), (rt, r)])
    (fun σ hc => ⟨(mem_typeGraph_of_base heb).1, hc.1, hc.2.1⟩)
    (fun σ σ1 v hc hext hinv hk => Ctx_recur hc hext hinv hk) (fun elemType => ?_)
  refine Runs_get_bind (fun _ => True) (fun _ _ _ _ => trivial) (fun et _ => ?_)
  refine Runs_modify_bind (D := Ctx env (typeGraph env rt0) fuel [(e, elemType), (rt, r)])
    (fun u => setField_ne_outOfFuel u _ _ _)
    (fun σ u u1 hc hu hg => Ctx_set hc hu (setField_header hg)) ?_
  refine Runs_get_bind (fun _ => True) (fun _ _ _ _ => trivial) (fun et _ => ?_)
  refine Runs_modify_bind (D := Ctx env (typeGraph env rt0) fuel [(e, elemType), (rt, r)])
    (fun u => setWord_ne_outOfFuel u _ _ _)
    (fun σ u u1 hc hu hg => Ctx_set hc hu (setWord_header (fieldABITypes_start u) hg)) ?_
  refine Runs_get_bind (fun _ => True) (fun _ _ _ _ => trivial) (fun et _ => ?_)
  refine Runs_modify_bind (D := Ctx env (typeGraph env rt0) fuel [(e, elemType), (rt, r)])
    (fun u => setWord_ne_outOfFuel u _ _ _)
    (fun σ u u1 hc hu hg => Ctx_set hc hu (setWord_header (ptrToFieldABITypes_start u) hg)) ?_
  refine Runs_modify_bind (D := Ctx env (typeGraph env rt0) fuel [(e, elemType), (rt, r)])
    (fun u => setWord_ne_outOfFuel u _ _ _)
    (fun σ u u1 hc hu hg => Ctx_set hc hu (setWord_header (fieldUSRTypes_start u) hg)) ?_
  refine Runs_get_bind (fun _ => True) (fun _ _ _ _ => trivial) (fun t1 _ => ?_)
  refine Runs_get_bind (fun et => et.reflectType = e)
    (fun σ u hc hu => Ctx_header hc (List.mem_cons_self _ _) hu) (fun et het => ?_)
  refine Runs_recur_bind hS hR (D := fun _ _ => True)
    (fun σ hc => ⟨by
      have : et.ReflectType = e := het
      rw [this]
      exact (mem_typeGraph_of_base heb).2, hc.1, hc.2.1⟩)
    (fun _ _ _ _ _ _ _ => trivial) (fun p => ?_)
  exact Runs_modify_last (fun u => setWord_ne_outOfFuel u _ _ _)

theorem arrayInit_runs (env : Env) (C : State → Prop) (r : Nat) :
    Runs C (arrayInit env r) := by
  unfold arrayInit
  refine Runs_get_bind (fun _ => True) (fun _ _ _ _ => trivial) (fun t _ => ?_)
  refine Runs_ofExcept_bind (lenOf_ne_outOfFuel _ _) (fun n _ => ?_)
  exact Runs_modify_last (fun u => by simp)

theorem getField_eq_of_fieldAt {r : Nat} {fs : FieldRegion} {i : Nat} {sf : StructField}
    {σ : State} {t : TypeDesc} (h : FieldAt r fs i sf σ) (ht : σ.heap[r]? = some t) :
    t.getField fs i = Except.ok sf := by
  obtain ⟨u, hu, hf⟩ := h
  rw [ht] at hu
  cases hu
  exact hf

theorem structLoop_runs {env : Env} {rt0 : RType} {fuel : Nat} {recur : RType → M Nat}
    (hS : RecSound env recur) (hR : RecRuns env (typeGraph env rt0) fuel recur)
    (L : List (RType × Nat)) (r : Nat) (rt : RType) (s1 s2 s3 s4 : Region) (fs : FieldRegion)
    (h1 : 2 ≤ s1.start) (h2 : 2 ≤ s2.start) (h3 : 2 ≤ s3.start) (h4 : 2 ≤ s4.start)
    (k : Nat) : ∀ i : Nat, Runs (Ctx env (typeGraph env rt0) fuel L)
      (structLoop env recur r rt s1 s2 s3 s4 fs k i) := by
  induction k with
  | zero =>
    intro i
    unfold structLoop
    exact Runs_pure _ ()
  | succ k ih =>
    intro i
    unfold structLoop
    refine Runs_ofExcept_bind (fieldOf_ne_outOfFuel _ _ _) (fun sf hsf => ?_)
    refine Runs_modify_bind
      (D := fun σ => Ctx env (typeGraph env rt0) fuel L σ ∧ FieldAt r fs i sf σ)
      (fun u => setField_ne_outOfFuel u _ _ _)
      (fun σ u u1 hc hu hg => ⟨Ctx_set hc hu (setField_header hg),
        ⟨u1, getElem?_set_self_of_some hu, setField_getField hg⟩⟩) ?_
    refine Runs_get_bind (fun t => t.getField fs i = Except.ok sf)
      (fun σ t hc ht => getField_eq_of_fieldAt hc.2 ht) (fun t ht => ?_)
    refine Runs_ofExcept_bind (getField_ne_outOfFuel _ _ _) (fun sf1 hsf1 => ?_)
    have e1 : sf1 = sf := by
      rw [ht] at hsf1
      cases hsf1
      rfl
    subst e1
    refine Runs_ofExcept_bind (typeOfField_ne_outOfFuel _) (fun ft hft => ?_)
    have hty : sf1.Type_ = some ft := by
      unfold typeOfField at hft
      cases hT : sf1.Type_ with
      | none => simp [hT] at hft
      | some x =>
        simp [hT] at hft
        rw [hft]
    have hb : ft ∈ subterms rt0 ++ envTypes env := field_mem_base hsf hty
    refine Runs_recur_bind hS hR
      (D := fun _ σ => Ctx env (typeGraph env rt0) fuel L σ ∧ FieldAt r fs i sf1 σ)
      (fun σ hc => ⟨(mem_typeGraph_of_base hb).1, hc.1.1, hc.1.2.1⟩)
      (fun σ σ1 v hc hext hinv _ => ⟨Ctx_ext hc.1 hext hinv, FieldAt_ext hc.2 hext⟩) (fun f => ?_)
    refine Runs_modify_bind
      (D := fun σ => Ctx env (typeGraph env rt0) fuel L σ ∧ FieldAt r fs i sf1 σ)
      (fun u => setWord_ne_outOfFuel u _ _ _)
      (fun σ u u1 hc hu hg => ⟨Ctx_set hc.1 hu (setWord_header h3 hg), FieldAt_setWord hc.2 hu hg⟩) ?_
    refine Runs_get_bind (fun _ => True) (fun _ _ _ _ => trivial) (fun t _ => ?_)
    refine Runs_ofExcept_bind (getWord_ne_outOfFuel _ _ _) (fun w _ => ?_)
    refine Runs_getWord_bind (fun d => ?_)
    refine Runs_modify_bind
      (D := fun σ => Ctx env (typeGraph env rt0) fuel L σ ∧ FieldAt r fs i sf1 σ)
      (fun u => setWord_ne_outOfFuel u _ _ _)
      (fun σ u u1 hc hu hg => ⟨Ctx_set hc.1 hu (setWord_header h2 hg), FieldAt_setWord hc.2 hu hg⟩) ?_
    refine Runs_get_bind (fun _ => True) (fun _ _ _ _ => trivial) (fun t _ => ?_)
    refine Runs_ofExcept_bind (getWord_ne_outOfFuel _ _ _) (fun w _ => ?_)
    refine Runs_getWord_bind (fun d => ?_)
    refine Runs_modify_bind
      (D := fun σ => Ctx env (typeGraph env rt0) fuel L σ ∧ FieldAt r fs i sf1 σ)
      (fun u => setWord_ne_outOfFuel u _ _ _)
      (fun σ u u1 hc hu hg => ⟨Ctx_set hc.1 hu (setWord_header h1 hg), FieldAt_setWord hc.2 hu hg⟩) ?_
    refine Runs_get_bind (fun t => t.getField fs i = Except.ok sf1)
      (fun σ t hc ht => getField_eq_of_fieldAt hc.2 ht) (fun t ht2 => ?_)
    refine Runs_ofExcept_bind (getField_ne_outOfFuel _ _ _) (fun sf2 hsf2 => ?_)
    have e2 : sf2 = sf1 := by
      rw [ht2] at hsf2
      cases hsf2
      rfl
    subst e2
    refine Runs_ofExcept_bind (typeOfField_ne_outOfFuel _) (fun ft2 hft2 => ?_)
    have e3 : ft2 = ft := by
      rw [hft] at hft2
      cases hft2
      rfl
    subst e3
    refine Runs_recur_bind hS hR
      (D := fun _ σ => Ctx env (typeGraph env rt0) fuel L σ)
      (fun σ hc => ⟨(mem_typeGraph_of_base hb).2, hc.1.1, hc.1.2.1⟩)
      (fun σ σ1 v hc hext hinv _ => Ctx_ext hc.1 hext hinv) (fun p => ?_)
    refine Runs_modify_bind (D := Ctx env (typeGraph env rt0) fuel L)
      (fun u => setWord_ne_outOfFuel u _ _ _)
      (fun σ u u1 hc hu hg => Ctx_set hc hu (setWord_header h4 hg)) ?_
    exact ih (i + 1)

theorem structInit_runs {env : Env} {rt0 : RType} {fuel : Nat} {recur : RType → M Nat}
    (hS : RecSound env recur) (hR : RecRuns env (typeGraph env rt0) fuel recur)
    (L : List (RType × Nat)) (r : Nat) :
    Runs (Ctx env (typeGraph env rt0) fuel L) (structInit env recur r) := by
  unfold structInit
  refine Runs_modify_bind (D := Ctx env (typeGraph env rt0) fuel L) (fun u => by simp)
    (fun σ u u1 hc hu hg => Ctx_set hc hu (by cases hg; exact ⟨rfl, rfl, rfl, rfl⟩)) ?_
  refine Runs_get_bind (fun _ => True) (fun _ _ _ _ => trivial) (fun t _ => ?_)
  exact structLoop_runs hS hR L r _ _ _ _ _ _ (fieldABITypes_start t)
    (ptrToFieldABITypes_start t) (fieldUSRTypes_start t) (ptrToFieldUSRTypes_start t) _ 0

theorem Runs_bind_sound {α β : Type} {env : Env} {b : Nat} {U : List RType} {fuel : Nat}
    {L : List (RType × Nat)} {x : M α} {f : α → M β} (hs : Sound env b x)
    (hx : Runs (fun σ => b ≤ σ.heap.length ∧ Ctx env U fuel L σ) x)
    (hf : ∀ a, Runs (fun σ => b ≤ σ.heap.length ∧ Ctx env U fuel L σ) (f a)) :
    Runs (fun σ => b ≤ σ.heap.length ∧ Ctx env U fuel L σ) (x >>= f) := by
  intro σ hc
  rw [M.bind_apply]
  have h1 := hx σ hc
  have h2 := hs σ hc.1
  rcases hres : x σ with ⟨σ1, e | a⟩
  · rw [hres] at h1
    simpa using h1
  · rw [hres] at h2
    exact hf a σ1 ⟨Nat.le_trans hc.1 h2.1.len, Ctx_ext hc.2 h2.1 (h2.2 hc.2.1)⟩

theorem runInits_runs {env : Env} {b : Nat} {U : List RType} {fuel : Nat}
    {L : List (RType × Nat)} (r : Nat) :
    ∀ fs : List (Nat → M Unit),
      (∀ f ∈ fs, Sound env b (f r) ∧ Runs (Ctx env U fuel L) (f r)) →
      Runs (fun σ => b ≤ σ.heap.length ∧ Ctx env U fuel L σ) (runInits r fs) := by
  intro fs
  induction fs with
  | nil =>
    intro _
    unfold runInits
    exact Runs_pure _ ()
  | cons f rest ih =>
    intro h
    unfold runInits
    have hf := h f (List.mem_cons_self f rest)
    refine Runs_bind_sound hf.1 (Runs_weaken (fun _ hc => hc.2) hf.2) (fun _ => ?_)
    exact ih (fun g hg => h g (List.mem_cons_of_mem f hg))

theorem initFuncsFor_runs {env : Env} {rt0 : RType} {fuel : Nat} {recur : RType → M Nat}
    (hS : RecSound env recur) (hR : RecRuns env (typeGraph env rt0) fuel recur)
    {rt : RType} (hrt : rt ∈ typeGraph env rt0) (r : Nat) :
    ∀ f ∈ initFuncsFor env recur rt,
      Runs (Ctx env (typeGraph env rt0) fuel [(rt, r)]) (f r) := by
  intro f hf
  unfold initFuncsFor at hf
  split at hf <;> simp at hf
  · rcases hf with rfl | rfl
    · exact arrayInit_runs env _ r
    · exact elemInit_runs hS hR hrt r
  · subst hf; exact elemInit_runs hS hR hrt r
  · subst hf; exact elemInit_runs hS hR hrt r
  · subst hf; exact elemInit_runs hS hR hrt r
  · subst hf; exact structInit_runs hS hR _ r

theorem unregistered_pos {U : List RType} {σ : State} {rt : RType} (hrt : rt ∈ U)
    (h : load σ.types rt = none) : 0 < unregistered U σ := by
  unfold unregistered
  apply List.length_pos_of_mem (a := rt)
  simp [List.mem_filter, hrt, h]

theorem TFRT_runs (env : Env) (rt0 : RType) :
    ∀ fuel : Nat, RecRuns env (typeGraph env rt0) fuel (TypeFromReflectType env fuel) := by
  intro fuel
  induction fuel with
  | zero =>
    intro rt σ hrt _ hm
    cases hl : load σ.types rt with
    | none =>
      have := unregistered_pos hrt hl
      omega
    | some v =>
      rw [TFRT_hit env 0 hl]
      simp
  | succ fuel ih =>
    intro rt σ hrt hinv hm
    cases hl : load σ.types rt with
    | some v =>
      rw [TFRT_hit env (fuel + 1) hl]
      simp
    | none =>
      rw [TFRT_succ_miss env fuel hl, buildDesc_apply env _ rt σ hl]
      split
      · simp
      · have hS := TFRT_sound env fuel
        have hext := store_ext env rt σ (TypeDesc.alloc env rt (numFieldsFor env rt)) hl
        have hctx : Ctx env (typeGraph env rt0) fuel [(rt, σ.heap.length)]
            ⟨σ.heap ++ [TypeDesc.alloc env rt (numFieldsFor env rt)],
              (rt, σ.heap.length) :: σ.types⟩ := by
          refine ⟨store_inv env rt σ _ hinv, ?_, ?_⟩
          · have := unregistered_store (typeGraph env rt0) hext.reg hrt hl
              (by simp [load_cons])
            omega
          · intro p hp
            rw [List.mem_singleton] at hp
            subst hp
            simp [load_cons]
        have hrun := runInits_runs (b := σ.heap.length) σ.heap.length
          (initFuncsFor env (TypeFromReflectType env fuel) rt)
          (fun f hf => ⟨Sound_initFuncsFor hS (Nat.le_refl _) rt f hf,
            initFuncsFor_runs hS ih hrt σ.heap.length f hf⟩)
          ⟨σ.heap ++ [TypeDesc.alloc env rt (numFieldsFor env rt)],
            (rt, σ.heap.length) :: σ.types⟩ ⟨by simp, hctx⟩
        rcases hres : runInits σ.heap.length
          (initFuncsFor env (TypeFromReflectType env fuel) rt)
          ⟨σ.heap ++ [TypeDesc.alloc env rt (numFieldsFor env rt)],
            (rt, σ.heap.length) :: σ.types⟩ with ⟨σ3, e | a⟩
        · rw [hres] at hrun
          simpa using hrun
        · simp

/-- C8: `TypeFromReflectType` terminates on every type of every finite set of
declarations, self-referential ones included, from every state the program can
be in: a recursion depth equal to the number of types of the (finite) type graph
that have no descriptor yet is never exceeded, because every call that does not
find its type registered registers it before it recurses. -/
theorem builder_terminates (env : Env) (rt : RType) (σ : State) (h : Reachable env σ) :
    ∀ fuel, unregistered (typeGraph env rt) σ ≤ fuel →
      (TypeFromReflectType env fuel rt σ).2 ≠ Except.error Err.outOfFuel :=
  fun fuel hf => TFRT_runs env rt fuel rt σ (self_mem_typeGraph env rt) (Reachable_inv h) hf

theorem builder_terminates_witness :
    Reachable envT State.empty ∧
    ∀ fuel, unregistered (typeGraph envT tNode) State.empty ≤ fuel →
      (TypeFromReflectType envT fuel tNode State.empty).2 ≠ Except.error Err.outOfFuel :=
  ⟨Later.refl _, builder_terminates envT tNode State.empty (Later.refl _)⟩

/-! ## What a returning step establishes -/

theorem Holds_pure {α : Type} {C : State → Prop} {Q : α → State → Prop} {a : α}
    (h : ∀ σ, C σ → Q a σ) : Holds C (Pure.pure a : M α) Q := by
  intro σ hc b σ1 hres
  rw [M.pure_apply] at hres
  cases hres
  exact h σ hc

theorem Holds_get_bind {α : Type} {C : State → Prop} {Q : α → State → Prop} {r : Nat}
    {f : TypeDesc → M α} (P : TypeDesc → Prop)
    (hP : ∀ σ t, C σ → σ.heap[r]? = some t → P t)
    (hf : ∀ t, P t → Holds C (f t) Q) : Holds C (M.get r >>= f) Q := by
  intro σ hc a σ1 hres
  rw [M.bind_apply] at hres
  cases hg : σ.heap[r]? with
  | none => simp [M.get, State.deref, hg] at hres
  | some t =>
    rw [M.get_ok hg] at hres
    exact hf t (hP σ t hc hg) σ hc a σ1 hres

theorem Holds_getWord_bind {α : Type} {C : State → Prop} {Q : α → State → Prop} {w : Word}
    {f : TypeDesc → M α} (P : TypeDesc → Prop)
    (hP : ∀ σ t, C σ → σ.derefWord w = Except.ok t → P t)
    (hf : ∀ t, P t → Holds C (f t) Q) : Holds C (M.getWord w >>= f) Q := by
  intro σ hc a σ1 hres
  rw [M.bind_apply] at hres
  cases hg : σ.derefWord w with
  | error e => simp [M.getWord, hg] at hres
  | ok t =>
    simp only [M.getWord, hg] at hres
    exact hf t (hP σ t hc hg) σ hc a σ1 hres

theorem Holds_ofExcept_bind {α β : Type} {C : State → Prop} {Q : β → State → Prop}
    {x : Except Err α} {f : α → M β} (hf : ∀ a, x = Except.ok a → Holds C (f a) Q) :
    Holds C (M.ofExcept x >>= f) Q := by
  intro σ hc b σ1 hres
  rw [M.bind_apply] at hres
  cases x with
  | error e => simp [M.ofExcept] at hres
  | ok a =>
    simp only [M.ofExcept] at hres
    exact hf a rfl σ hc b σ1 hres

theorem Holds_modify_bind {α : Type} {C D : State → Prop} {Q : α → State → Prop} {r : Nat}
    {g : TypeDesc → Except Err TypeDesc} {f : Unit → M α}
    (hpost : ∀ σ t t1, C σ → σ.heap[r]? = some t → g t = Except.ok t1 →
      D ⟨σ.heap.set r t1, σ.types⟩)
    (hf : Holds D (f ()) Q) : Holds C (M.modify r g >>= f) Q := by
  intro σ hc a σ1 hres
  rw [M.bind_apply] at hres
  cases hg : σ.heap[r]? with
  | none => simp [M.modify_none hg] at hres
  | some t =>
    cases hgt : g t with
    | error e => simp [M.modify_error hg hgt] at hres
    | ok t1 =>
      rw [M.modify_ok hg hgt] at hres
      exact hf _ (hpost σ t t1 hc hg hgt) a σ1 hres

theorem Holds_recur_bind {α : Type} {env : Env} {recur : RType → M Nat}
    (hS : RecSound env recur) {C : State → Prop} {D : Nat → State → Prop}
    {Q : α → State → Prop} {k : RType} {f : Nat → M α}
    (hpost : ∀ σ σ1 v, C σ → Ext σ.heap.length σ σ1 → (Inv env σ → Inv env σ1) →
      load σ1.types k = some v → D v σ1)
    (hf : ∀ v, Holds (D v) (f v) Q) : Holds C (recur k >>= f) Q := by
  intro σ hc a σ1 hres
  rw [M.bind_apply] at hres
  have h2 := hS k σ
  rcases hr : recur k σ with ⟨σ2, e | v⟩
  · simp [hr] at hres
  · rw [hr] at hres h2
    exact hf v σ2 (hpost σ σ2 v hc h2.1 h2.2.1 (h2.2.2 v rfl)) a σ1 hres

/-! ## Reading and writing a descriptor of struct shape -/

theorem toUint_shift (n : Nat) (hn : n < 2 ^ 62) : toUint (n <<< uintDataBits) = 4 * n := by
  simp only [toUint, uintDataBits, Nat.shiftLeft_eq]
  omega

theorem four_mul_or_one (n : Nat) : (4 * n ||| 1) = 4 * n + 1 := by
  have h := Nat.mul_add_lt_is_or (i := 2) (b := 1) (by norm_num) n
  simpa using h.symm

theorem StructShape_numFields {n : Nat} {t : TypeDesc} (h : StructShape n t)
    (hn : n < 2 ^ 62) : t.numFields = n := by
  unfold TypeDesc.numFields
  rw [h.1, toUint_shift n hn]
  simp only [uintDataBits, udHasLenMask, udHasLenBit, Nat.shiftLeft_zero]
  rw [four_mul_or_one, Nat.shiftRight_eq_div_pow]
  omega

theorem StructShape_multiplier {n : Nat} {t : TypeDesc} (h : StructShape n t)
    (hn : n < 2 ^ 62) : t.fieldIndexMultiplier = 1 := by
  unfold TypeDesc.fieldIndexMultiplier
  rw [h.1, toUint_shift n hn]
  simp only [udHasLenMask, udHasLenBit, Nat.shiftLeft_zero, Nat.shiftRight_zero]
  rw [four_mul_or_one, Nat.and_one_is_mod]
  omega
/-! ## Writes into a descriptor block, field by field -/

theorem setWord_ok {t t1 : TypeDesc} {c len i : Nat} {v : Word}
    (h : t.setWord ⟨2 + c, len⟩ (i : Int) v = Except.ok t1) :
    c + i < t.slots.length ∧ t1.uintData = t.uintData ∧ t1.fields = t.fields ∧
      t1.slots = t.slots.set (c + i) v := by
  unfold TypeDesc.setWord at h
  split at h
  · have e : 2 + c + (i : Int).toNat = (c + i) + 2 := by
      rw [Int.toNat_natCast]
      omega
    simp only [e, TypeDesc.storeWord] at h
    split at h
    · rename_i hlt
      cases h
      exact ⟨hlt, rfl, rfl, rfl⟩
    · cases h
  · cases h

theorem getWord_shape {t : TypeDesc} {c len i : Nat} {v : Word} (hi : i < len)
    (h : t.slots[c + i]? = some v) : t.getWord ⟨2 + c, len⟩ (i : Int) = Except.ok v := by
  unfold TypeDesc.getWord
  have hc : (0 : Int) ≤ (i : Int) ∧ (i : Int) < ((⟨2 + c, len⟩ : Region).len : Int) := by
    constructor
    · exact Int.natCast_nonneg i
    · exact_mod_cast hi
  rw [if_pos hc]
  have e : 2 + c + (i : Int).toNat = (c + i) + 2 := by
    rw [Int.toNat_natCast]
    omega
  simp only [e, TypeDesc.loadWord, h]

theorem fieldCell_shape {t : TypeDesc} {n len i : Nat} (hl : t.slots.length = 4 * n)
    (hf : i < t.fields.length) : t.fieldCell ⟨2 + 4 * n, len⟩ i = some i := by
  unfold TypeDesc.fieldCell
  simp only [structFieldWords, hl]
  have h1 : 2 + 4 * n + 13 * i - (2 + 4 * n) = 13 * i := by omega
  rw [h1]
  have h2 : 13 * i % 13 = 0 := by omega
  have h3 : 13 * i / 13 = i := by omega
  rw [h2, h3]
  simp [hf]

theorem setField_ok {t t1 : TypeDesc} {n len i : Nat} {sf : StructField}
    (hl : t.slots.length = 4 * n) (hf : i < t.fields.length)
    (h : t.setField ⟨2 + 4 * n, len⟩ (i : Int) sf = Except.ok t1) :
    t1.uintData = t.uintData ∧ t1.slots = t.slots ∧ t1.fields = t.fields.set i sf := by
  unfold TypeDesc.setField at h
  split at h
  · rw [Int.toNat_natCast, fieldCell_shape hl hf] at h
    simp only at h
    cases h
    exact ⟨rfl, rfl, rfl⟩
  · cases h

theorem getField_shape {t : TypeDesc} {n len i : Nat} {sf : StructField}
    (hl : t.slots.length = 4 * n) (hi : i < len) (h : t.fields[i]? = some sf) :
    t.getField ⟨2 + 4 * n, len⟩ (i : Int) = Except.ok sf := by
  have hf : i < t.fields.length := by
    rcases Nat.lt_or_ge i t.fields.length with h1 | h1
    · exact h1
    · rw [List.getElem?_eq_none h1] at h
      cases h
  unfold TypeDesc.getField
  have hc : (0 : Int) ≤ (i : Int) ∧ (i : Int) < ((⟨2 + 4 * n, len⟩ : FieldRegion).len : Int) := by
    constructor
    · exact Int.natCast_nonneg i
    · exact_mod_cast hi
  rw [if_pos hc, Int.toNat_natCast, fieldCell_shape hl hf]
  simp only [List.getD_eq_getElem?_getD, h, Option.getD_some]

theorem StructShape_of_eq {n : Nat} {t t1 : TypeDesc} (h : StructShape n t)
    (hu : t1.uintData = t.uintData) (hs : t1.slots.length = t.slots.length)
    (hf : t1.fields.length = t.fields.length) : StructShape n t1 :=
  ⟨hu.trans h.1, hs.trans h.2.1, hf.trans h.2.2⟩

theorem FieldFilled_setSlot {env : Env} {n : Nat} {t t1 : TypeDesc} {σ σ1 : State}
    {j k : Nat} {f : FieldDecl} {v : Word} (h : FieldFilled env n t σ j f)
    (hty : σ1.types = σ.types) (hf : t1.fields = t.fields) (hs : t1.slots = t.slots.set k v)
    (h1 : k ≠ j) (h2 : k ≠ n + j) (h3 : k ≠ 2 * n + j) : FieldFilled env n t1 σ1 j f := by
  obtain ⟨a, b, c, rj, d, e⟩ := h
  refine ⟨by rw [hf]; exact a, ?_, ?_, rj, ?_, by rw [hty]; exact e⟩
  · rw [hs, List.getElem?_set_ne h1]; exact b
  · rw [hs, List.getElem?_set_ne h2]; exact c
  · rw [hs, List.getElem?_set_ne h3]; exact d

theorem FieldFilled_setField {env : Env} {n : Nat} {t t1 : TypeDesc} {σ σ1 : State}
    {i j : Nat} {f : FieldDecl} {sf : StructField} (h : FieldFilled env n t σ j f)
    (hty : σ1.types = σ.types) (hs : t1.slots = t.slots) (hf : t1.fields = t.fields.set i sf)
    (hij : i ≠ j) : FieldFilled env n t1 σ1 j f := by
  obtain ⟨a, b, c, rj, d, e⟩ := h
  refine ⟨?_, by rw [hs]; exact b, by rw [hs]; exact c, rj, by rw [hs]; exact d,
    by rw [hty]; exact e⟩
  rw [hf, List.getElem?_set_ne hij]
  exact a

theorem FieldFilled_ext {env : Env} {n b : Nat} {t : TypeDesc} {σ σ1 : State} {j : Nat}
    {f : FieldDecl} (h : FieldFilled env n t σ j f) (hext : Ext b σ σ1) :
    FieldFilled env n t σ1 j f := by
  obtain ⟨a, b1, c, rj, d, e⟩ := h
  exact ⟨a, b1, c, rj, d, hext.reg _ _ e⟩

theorem fieldOf_struct {env : Env} {rt : RType} {fs : List FieldDecl} {i : Nat}
    {sf : StructField} (hv : view env rt = Underlying.struct fs)
    (h : fieldOf env rt i = Except.ok sf) :
    ∃ f, fs[i]? = some f ∧ sf = ⟨f.name, some f.type, f.offset⟩ := by
  unfold fieldOf at h
  rw [hv] at h
  simp only at h
  cases hf : fs[i]? with
  | none => simp [hf] at h
  | some f =>
    simp only [hf, Except.ok.injEq] at h
    exact ⟨f, rfl, h.symm⟩

theorem derefWord_inv {env : Env} {σ : State} {k : RType} {v : Nat} {d : TypeDesc}
    (hinv : Inv env σ) (hk : load σ.types k = some v)
    (hd : σ.derefWord (Word.usr v) = Except.ok d) :
    d.self = valueIdentity env k ∧ d.ptrToSelf = Word.abi (RType.ptr k) := by
  obtain ⟨t, ht, _, h2, h3, _⟩ := hinv k v hk
  simp only [State.derefWord, State.deref, ht, Except.ok.injEq] at hd
  subst hd
  exact ⟨h2, h3⟩

/-! ## The struct init loop fills the descriptor -/

theorem Stage_of_LoopInv {env : Env} {fs : List FieldDecl} {r i : Nat} {σ : State}
    (h : LoopInv env fs r i σ) : Stage env fs r i (fun _ _ => True) σ := by
  obtain ⟨hinv, t, ht, hs, hf⟩ := h
  exact ⟨hinv, t, ht, hs, hf, trivial⟩

theorem Stage_setWord {env : Env} {fs : List FieldDecl} {r i c : Nat} {σ : State}
    {P Q : TypeDesc → State → Prop} {u u1 : TypeDesc} {v : Word}
    (h : Stage env fs r i P σ) (hu : σ.heap[r]? = some u)
    (hg : u.setWord ⟨2 + c, fs.length⟩ (i : Int) v = Except.ok u1)
    (hc : c = 0 ∨ c = fs.length ∨ c = 2 * fs.length ∨ c = 3 * fs.length)
    (hi : i < fs.length)
    (hP : ∀ σ1 : State, σ1.types = σ.types → c + i < u.slots.length → u1.fields = u.fields →
      u1.slots = u.slots.set (c + i) v → P u σ → Q u1 σ1) :
    Stage env fs r i Q ⟨σ.heap.set r u1, σ.types⟩ := by
  obtain ⟨hinv, t, ht, hs, hf, hp⟩ := h
  rw [hu] at ht
  cases ht
  obtain ⟨g1, g2, g3, g4⟩ := setWord_ok hg
  refine ⟨Inv_set hinv hu (setWord_header (by simp) hg), u1, getElem?_set_self_of_some hu,
    StructShape_of_eq hs g2 (by rw [g4, List.length_set]) (by rw [g3]), ?_,
    hP _ rfl g1 g3 g4 hp⟩
  intro j f hj hfj
  refine FieldFilled_setSlot (hf j f hj hfj) rfl g3 g4 ?_ ?_ ?_
  · rcases hc with e | e | e | e <;> omega
  · rcases hc with e | e | e | e <;> omega
  · rcases hc with e | e | e | e <;> omega

theorem Stage_setField {env : Env} {fs : List FieldDecl} {r i : Nat} {σ : State}
    {P Q : TypeDesc → State → Prop} {u u1 : TypeDesc} {sf : StructField}
    (h : Stage env fs r i P σ) (hu : σ.heap[r]? = some u)
    (hg : u.setField ⟨2 + 4 * fs.length, fs.length⟩ (i : Int) sf = Except.ok u1)
    (hi : i < fs.length)
    (hP : ∀ σ1 : State, σ1.types = σ.types → u1.slots = u.slots →
      u1.fields = u.fields.set i sf → i < u.fields.length → P u σ → Q u1 σ1) :
    Stage env fs r i Q ⟨σ.heap.set r u1, σ.types⟩ := by
  obtain ⟨hinv, t, ht, hs, hf, hp⟩ := h
  rw [hu] at ht
  cases ht
  have hlen : i < u.fields.length := by rw [hs.2.2]; exact hi
  obtain ⟨g2, g3, g4⟩ := setField_ok hs.2.1 hlen hg
  refine ⟨Inv_set hinv hu (setField_header hg), u1, getElem?_set_self_of_some hu,
    StructShape_of_eq hs g2 (by rw [g3]) (by rw [g4, List.length_set]), ?_,
    hP _ rfl g3 g4 hlen hp⟩
  intro j f hj hfj
  exact FieldFilled_setField (hf j f hj hfj) rfl g3 g4 (by omega)

theorem Stage_ext {env : Env} {fs : List FieldDecl} {r i : Nat} {σ σ1 : State}
    {P Q : TypeDesc → State → Prop} (h : Stage env fs r i P σ)
    (hext : Ext σ.heap.length σ σ1) (hinv : Inv env σ1)
    (hP : ∀ t, P t σ → Q t σ1) : Stage env fs r i Q σ1 := by
  obtain ⟨_, t, ht, hs, hf, hp⟩ := h
  have hlt : r < σ.heap.length := by
    rcases Nat.lt_or_ge r σ.heap.length with h1 | h1
    · exact h1
    · rw [List.getElem?_eq_none h1] at ht
      cases ht
  exact ⟨hinv, t, by rw [hext.frame r hlt]; exact ht, hs,
    fun j f hj hfj => FieldFilled_ext (hf j f hj hfj) hext, hP t hp⟩

theorem Stage_desc {env : Env} {fs : List FieldDecl} {r i : Nat} {σ : State}
    {P : TypeDesc → State → Prop} {t : TypeDesc} (h : Stage env fs r i P σ)
    (ht : σ.heap[r]? = some t) : StructShape fs.length t ∧ P t σ := by
  obtain ⟨_, u, hu, hs, _, hp⟩ := h
  rw [ht] at hu
  cases hu
  exact ⟨hs, hp⟩

theorem typeOfField_some {sf : StructField} {ft : RType} (h : typeOfField sf = Except.ok ft) :
    sf.Type_ = some ft := by
  unfold typeOfField at h
  cases hT : sf.Type_ with
  | none => simp [hT] at h
  | some x =>
    simp only [hT, Except.ok.injEq] at h
    rw [h]

theorem structLoop_fills {env : Env} {recur : RType → M Nat} (hS : RecSound env recur)
    (fs : List FieldDecl) (r : Nat) (rt : RType) (hv : view env rt = Underlying.struct fs)
    (k : Nat) : ∀ i : Nat, i + k = fs.length →
      Holds (LoopInv env fs r i)
        (structLoop env recur r rt ⟨2 + 0, fs.length⟩ ⟨2 + fs.length, fs.length⟩
          ⟨2 + 2 * fs.length, fs.length⟩ ⟨2 + 3 * fs.length, fs.length⟩
          ⟨2 + 4 * fs.length, fs.length⟩ k i)
        (fun _ σ => LoopInv env fs r fs.length σ) := by
  induction k with
  | zero =>
    intro i hik
    unfold structLoop
    have e : i = fs.length := by omega
    subst e
    exact Holds_pure (fun σ h => h)
  | succ k ih =>
    intro i hik
    have hi : i < fs.length := by omega
    unfold structLoop
    refine Holds_ofExcept_bind (fun sf hsf => ?_)
    obtain ⟨fd, hfd, hsfd⟩ := fieldOf_struct hv hsf
    refine Holds_modify_bind
      (D := Stage env fs r i (fun t _ => t.fields[i]? = some sf))
      (fun σ u u1 hc hu hg => Stage_setField (Stage_of_LoopInv hc) hu hg hi
        (fun σ1 _ _ g4 hlen _ => by rw [g4]; exact List.getElem?_set_self hlen)) ?_
    refine Holds_get_bind
      (fun t => t.getField ⟨2 + 4 * fs.length, fs.length⟩ (i : Int) = Except.ok sf)
      (fun σ t hc ht => getField_shape (Stage_desc hc ht).1.2.1 hi (Stage_desc hc ht).2)
      (fun t ht => ?_)
    refine Holds_ofExcept_bind (fun sf1 hsf1 => ?_)
    have e1 : sf1 = sf := by
      rw [ht] at hsf1
      cases hsf1
      rfl
    subst e1
    refine Holds_ofExcept_bind (fun ft hft => ?_)
    have hty : ft = fd.type := by
      have h1 := typeOfField_some hft
      rw [hsfd] at h1
      cases h1
      rfl
    subst hty
    refine Holds_recur_bind hS
      (D := fun f => Stage env fs r i
        (fun t σ => t.fields[i]? = some sf1 ∧ load σ.types fd.type = some f))
      (fun σ σ1 v hc hext hinv hk => Stage_ext hc hext (hinv hc.1) (fun t hp => ⟨hp, hk⟩))
      (fun f => ?_)
    refine Holds_modify_bind
      (D := Stage env fs r i (fun t σ => t.fields[i]? = some sf1 ∧
        load σ.types fd.type = some f ∧ t.slots[2 * fs.length + i]? = some (Word.usr f)))
      (fun σ u u1 hc hu hg => Stage_setWord hc hu hg (Or.inr (Or.inr (Or.inl rfl))) hi
        (fun σ1 hty g1 g3 g4 hp => ⟨by rw [g3]; exact hp.1, by rw [hty]; exact hp.2,
          by rw [g4]; exact List.getElem?_set_self g1⟩)) ?_
    refine Holds_get_bind
      (fun t => t.getWord ⟨2 + 2 * fs.length, fs.length⟩ (i : Int) = Except.ok (Word.usr f))
      (fun σ t hc ht => getWord_shape hi (Stage_desc hc ht).2.2.2) (fun t ht3 => ?_)
    refine Holds_ofExcept_bind (fun w hw => ?_)
    have e2 : w = Word.usr f := by
      rw [ht3] at hw
      cases hw
      rfl
    subst e2
    refine Holds_getWord_bind
      (fun d => d.self = valueIdentity env fd.type ∧ d.ptrToSelf = Word.abi (RType.ptr fd.type))
      (fun σ d hc hd => by
        obtain ⟨hinv, u, _, _, _, hp⟩ := hc
        exact derefWord_inv hinv hp.2.1 hd) (fun d hd => ?_)
    refine Holds_modify_bind
      (D := Stage env fs r i (fun t σ => t.fields[i]? = some sf1 ∧
        load σ.types fd.type = some f ∧ t.slots[2 * fs.length + i]? = some (Word.usr f) ∧
        t.slots[fs.length + i]? = some (Word.abi (RType.ptr fd.type))))
      (fun σ u u1 hc hu hg => Stage_setWord hc hu hg (Or.inr (Or.inl rfl)) hi
        (fun σ1 hty g1 g3 g4 hp => ⟨by rw [g3]; exact hp.1, by rw [hty]; exact hp.2.1,
          by rw [g4, List.getElem?_set_ne (by omega)]; exact hp.2.2,
          by rw [g4, hd.2]; exact List.getElem?_set_self g1⟩)) ?_
    refine Holds_get_bind
      (fun t => t.getWord ⟨2 + 2 * fs.length, fs.length⟩ (i : Int) = Except.ok (Word.usr f))
      (fun σ t hc ht => getWord_shape hi (Stage_desc hc ht).2.2.2.1) (fun t ht4 => ?_)
    refine Holds_ofExcept_bind (fun w hw => ?_)
    have e3 : w = Word.usr f := by
      rw [ht4] at hw
      cases hw
      rfl
    subst e3
    refine Holds_getWord_bind
      (fun d => d.self = valueIdentity env fd.type ∧ d.ptrToSelf = Word.abi (RType.ptr fd.type))
      (fun σ d hc hd => by
        obtain ⟨hinv, u, _, _, _, hp⟩ := hc
        exact derefWord_inv hinv hp.2.1 hd) (fun d2 hd2 => ?_)
    refine Holds_modify_bind
      (D := Stage env fs r i (fun t σ => t.fields[i]? = some sf1 ∧
        load σ.types fd.type = some f ∧ t.slots[2 * fs.length + i]? = some (Word.usr f) ∧
        t.slots[fs.length + i]? = some (Word.abi (RType.ptr fd.type)) ∧
        t.slots[0 + i]? = some (valueIdentity env fd.type)))
      (fun σ u u1 hc hu hg => Stage_setWord hc hu hg (Or.inl rfl) hi
        (fun σ1 hty g1 g3 g4 hp => ⟨by rw [g3]; exact hp.1, by rw [hty]; exact hp.2.1,
          by rw [g4, List.getElem?_set_ne (by omega)]; exact hp.2.2.1,
          by rw [g4, List.getElem?_set_ne (by omega)]; exact hp.2.2.2,
          by rw [g4, hd2.1]; exact List.getElem?_set_self g1⟩)) ?_
    refine Holds_get_bind
      (fun t => t.getField ⟨2 + 4 * fs.length, fs.length⟩ (i : Int) = Except.ok sf1)
      (fun σ t hc ht => getField_shape (Stage_desc hc ht).1.2.1 hi (Stage_desc hc ht).2.1)
      (fun t ht5 => ?_)
    refine Holds_ofExcept_bind (fun sf2 hsf2 => ?_)
    have e4 : sf2 = sf1 := by
      rw [ht5] at hsf2
      cases hsf2
      rfl
    subst e4
    refine Holds_ofExcept_bind (fun ft2 hft2 => ?_)
    refine Holds_recur_bind hS
      (D := fun _ => Stage env fs r i (fun t σ => t.fields[i]? = some sf2 ∧
        load σ.types fd.type = some f ∧ t.slots[2 * fs.length + i]? = some (Word.usr f) ∧
        t.slots[fs.length + i]? = some (Word.abi (RType.ptr fd.type)) ∧
        t.slots[0 + i]? = some (valueIdentity env fd.type)))
      (fun σ σ1 v hc hext hinv hk => Stage_ext hc hext (hinv hc.1)
        (fun t hp => ⟨hp.1, hext.reg _ _ hp.2.1, hp.2.2⟩))
      (fun p => ?_)
    refine Holds_modify_bind (D := LoopInv env fs r (i + 1))
      (fun σ u u1 hc hu hg => ?_) (ih (i + 1) (by omega))
    have hst := Stage_setWord (Q := fun t σ => t.fields[i]? = some sf2 ∧
        load σ.types fd.type = some f ∧ t.slots[2 * fs.length + i]? = some (Word.usr f) ∧
        t.slots[fs.length + i]? = some (Word.abi (RType.ptr fd.type)) ∧
        t.slots[0 + i]? = some (valueIdentity env fd.type))
      hc hu hg (Or.inr (Or.inr (Or.inr rfl))) hi
      (fun σ1 hty g1 g3 g4 hp => ⟨by rw [g3]; exact hp.1, by rw [hty]; exact hp.2.1,
        by rw [g4, List.getElem?_set_ne (by omega)]; exact hp.2.2.1,
        by rw [g4, List.getElem?_set_ne (by omega)]; exact hp.2.2.2.1,
        by rw [g4, List.getElem?_set_ne (by omega)]; exact hp.2.2.2.2⟩)
    obtain ⟨hinv, t, ht, hs, hf, hp⟩ := hst
    refine ⟨hinv, t, ht, hs, ?_⟩
    intro j fj hj hfj
    rcases Nat.lt_or_ge j i with hlt | hge
    · exact hf j fj hlt hfj
    · have e5 : j = i := by omega
      subst e5
      rw [hfd] at hfj
      cases hfj
      refine ⟨?_, ?_, hp.2.2.2.1, f, hp.2.2.1, hp.2.1⟩
      · rw [hp.1, hsfd]
      · have h0 := hp.2.2.2.2
        rw [Nat.zero_add] at h0
        exact h0

theorem Holds_weaken {α : Type} {C D : State → Prop} {x : M α} {Q : α → State → Prop}
    (hcd : ∀ σ, C σ → D σ) (h : Holds D x Q) : Holds C x Q :=
  fun σ hc a σ1 hres => h σ (hcd σ hc) a σ1 hres

theorem alloc_shape (env : Env) (rt : RType) (n : Nat) :
    StructShape n { TypeDesc.alloc env rt n with
      uintData := (TypeDesc.alloc env rt n).uintData ||| udHasLenMask } := by
  refine ⟨rfl, ?_, ?_⟩
  · simp [TypeDesc.alloc, typeUnsafePointers]
  · simp [TypeDesc.alloc]

theorem regions_of_shape {n : Nat} {t : TypeDesc} (h : StructShape n t) (hn : n < 2 ^ 62) :
    t.fieldABITypes = ⟨2 + 0, n⟩ ∧ t.ptrToFieldABITypes = ⟨2 + n, n⟩ ∧
      t.fieldUSRTypes = ⟨2 + 2 * n, n⟩ ∧ t.ptrToFieldUSRTypes = ⟨2 + 3 * n, n⟩ ∧
      t.ReflectStructFields = ⟨2 + 4 * n, n⟩ := by
  have hnum := StructShape_numFields h hn
  unfold TypeDesc.fieldABITypes TypeDesc.ptrToFieldABITypes TypeDesc.fieldUSRTypes
    TypeDesc.ptrToFieldUSRTypes TypeDesc.ReflectStructFields
  rw [hnum]
  simp only [unsafeSlice, Region.drop, usrType, abiPtrType, usrPtrType, typeUnsafePointers,
    Region.mk.injEq, FieldRegion.mk.injEq, true_and, and_true]
  omega

theorem structInit_fills {env : Env} {recur : RType → M Nat} (hS : RecSound env recur)
    (fs : List FieldDecl) (r : Nat) (rt : RType) (hv : view env rt = Underlying.struct fs)
    (hn : fs.length < 2 ^ 62) :
    Holds (fun σ => Inv env σ ∧ σ.heap[r]? = some (TypeDesc.alloc env rt fs.length))
      (structInit env recur r) (fun _ σ => LoopInv env fs r fs.length σ) := by
  unfold structInit
  refine Holds_modify_bind
    (D := fun σ => Inv env σ ∧ ∃ t, σ.heap[r]? = some t ∧ StructShape fs.length t ∧
      t.reflectType = rt)
    (fun σ u u1 hc hu hg => ?_) ?_
  · have e : u = TypeDesc.alloc env rt fs.length := by
      have h2 := hc.2
      rw [hu] at h2
      cases h2
      rfl
    subst e
    cases hg
    exact ⟨Inv_set hc.1 hu ⟨rfl, rfl, rfl, rfl⟩, _, getElem?_set_self_of_some hu,
      alloc_shape env rt fs.length, rfl⟩
  · refine Holds_get_bind (fun t => StructShape fs.length t ∧ t.reflectType = rt)
      (fun σ t hc ht => by
        obtain ⟨_, u, hu, hs, hr⟩ := hc
        rw [ht] at hu
        cases hu
        exact ⟨hs, hr⟩) (fun t ht => ?_)
    obtain ⟨g1, g2, g3, g4, g5⟩ := regions_of_shape ht.1 hn
    rw [g1, g2, g3, g4, g5, StructShape_numFields ht.1 hn]
    have hrt : t.ReflectType = rt := ht.2
    rw [hrt]
    refine Holds_weaken ?_ (structLoop_fills hS fs r rt hv fs.length 0 (by omega))
    intro σ hc
    obtain ⟨hinv, u, hu, hs, _⟩ := hc
    exact ⟨hinv, u, hu, hs, fun j f hj _ => absurd hj (Nat.not_lt_zero j)⟩

theorem struct_build_filled (env : Env) (fuel : Nat) (rt : RType) (fs : List FieldDecl)
    (σ0 σ : State) (r : Nat) (hinv : Inv env σ0) (hfresh : load σ0.types rt = none)
    (hv : view env rt = Underlying.struct fs) (hn : fs.length < 2 ^ 62)
    (hb : TypeFromReflectType env fuel rt σ0 = (σ, Except.ok r)) :
    LoopInv env fs r fs.length σ := by
  cases fuel with
  | zero =>
    rw [TFRT_zero_miss env hfresh] at hb
    cases hb
  | succ fuel =>
    have hnf : numFieldsFor env rt = fs.length := by
      simp [numFieldsFor, kindOf, numFieldOf, hv]
    have hif : initFuncsFor env (TypeFromReflectType env fuel) rt
        = [structInit env (TypeFromReflectType env fuel)] := by
      simp [initFuncsFor, kindOf, hv]
    have hlen : (TypeDesc.alloc env rt fs.length).ReflectStructFields.len = fs.length :=
      alloc_numFields env rt fs.length hn
    rw [TFRT_succ_miss env fuel hfresh, buildDesc_apply env _ rt σ0 hfresh, hnf, hif] at hb
    simp only [hlen, ne_eq, not_true_eq_false, if_false] at hb
    have hrun : runInits σ0.heap.length [structInit env (TypeFromReflectType env fuel)]
        = (structInit env (TypeFromReflectType env fuel) σ0.heap.length >>=
            fun _ => (Pure.pure () : M Unit)) := rfl
    rw [hrun, M.bind_apply] at hb
    rcases hst : structInit env (TypeFromReflectType env fuel) σ0.heap.length
      ⟨σ0.heap ++ [TypeDesc.alloc env rt fs.length], (rt, σ0.heap.length) :: σ0.types⟩
      with ⟨σ3, e | u⟩
    · rw [hst] at hb
      simp at hb
    · rw [hst] at hb
      simp only [M.pure_apply, Prod.mk.injEq, Except.ok.injEq] at hb
      obtain ⟨h1, h2⟩ := hb
      subst h1
      subst h2
      exact structInit_fills (TFRT_sound env fuel) fs σ0.heap.length rt hv hn _
        ⟨store_inv env rt σ0 fs.length hinv, by simp⟩ u σ3 hst

theorem unsafeAdd_wrapInt (p off : Nat) (h : p + off < 2 ^ 64) :
    unsafeAdd p (wrapInt (off : Int)) = p + off := by
  unfold unsafeAdd wrapInt
  omega

theorem fieldOffset_struct {σ : State} {t d : TypeDesc} {n i r0 : Nat} {sf : StructField}
    (hs : StructShape n t) (hn : n < 2 ^ 62) (hi : i < n) (hf : t.fields[i]? = some sf)
    (h0 : t.slots[2 * n + 0]? = some (Word.usr r0)) (hd : σ.heap[r0]? = some d) :
    fieldOffset σ t (i : Int) = Except.ok (wrapInt (sf.Offset : Int)) := by
  obtain ⟨_, _, g3, _, g5⟩ := regions_of_shape hs hn
  have hm := StructShape_multiplier hs hn
  have hw : t.getWord ⟨2 + 2 * n, n⟩ (0 : Int) = Except.ok (Word.usr r0) := by
    have := @getWord_shape t (2 * n) n 0 (Word.usr r0) (by omega) h0
    simpa using this
  unfold fieldOffset
  simp only [hm, g3, g5, Nat.cast_one, mul_one, getField_shape hs.2.1 hi hf, hw, bind,
    Except.bind, State.derefWord, State.deref, hd, pure, Except.pure, offsetSum]
  norm_num

theorem getElem?_lt {α : Type} {l : List α} {i : Nat} {a : α} (h : l[i]? = some a) :
    i < l.length := by
  rcases Nat.lt_or_ge i l.length with h1 | h1
  · exact h1
  · rw [List.getElem?_eq_none h1] at h
    cases h

theorem valueIdentity_struct {env : Env} {rt : RType} {fs : List FieldDecl}
    (hv : view env rt = Underlying.struct fs) : valueIdentity env rt = Word.abi rt := by
  simp [valueIdentity, kindOf, hv]

theorem field_of_filled (env : Env) (mem : Mem) (σ : State) (r : Nat) (rt : RType)
    (fs : List FieldDecl) (t : TypeDesc) (hinv : Inv env σ) (hreg : load σ.types rt = some r)
    (hv : view env rt = Underlying.struct fs) (hn : fs.length < 2 ^ 62)
    (ht : σ.heap[r]? = some t) (hs : StructShape fs.length t)
    (hf : ∀ j f, j < fs.length → fs[j]? = some f → FieldFilled env fs.length t σ j f)
    (struc : Boxed) (i : Nat) (f : FieldDecl) (hfi : fs[i]? = some f)
    (hty : struc.type = Word.abi rt ∨ struc.type = Word.abi (RType.ptr rt))
    (hadd : struc.data + f.offset < 2 ^ 64) :
    UnsafeFieldValue env mem σ r struc (i : Int)
        = Except.ok ⟨valueIdentity env f.type, struc.data + f.offset⟩ ∧
      FieldPointer env mem σ r struc (i : Int)
        = Except.ok ⟨Word.abi (RType.ptr f.type), struc.data + f.offset⟩ := by
  have hi : i < fs.length := getElem?_lt hfi
  obtain ⟨u, hu, hur, hself, hptr, _⟩ := hinv rt r hreg
  rw [ht] at hu
  cases hu
  rw [valueIdentity_struct hv] at hself
  have hty2 : struc.type = t.self ∨ struc.type = t.ptrToSelf := by
    rw [hself, hptr]
    exact hty
  obtain ⟨f0, hf0⟩ : ∃ f0, fs[0]? = some f0 := by
    cases fs with
    | nil => simp at hi
    | cons a l => exact ⟨a, by simp⟩
  obtain ⟨_, _, _, r0, h0, hl0⟩ := hf 0 f0 (by omega) hf0
  obtain ⟨d, hd, _⟩ := hinv f0.type r0 hl0
  obtain ⟨a1, a2, a3, _⟩ := hf i f hi hfi
  have hoff := fieldOffset_struct hs hn hi a1 h0 hd
  obtain ⟨g1, g2, _, _, _⟩ := regions_of_shape hs hn
  have hm := StructShape_multiplier hs hn
  have hk : kindOf env t.ReflectType ≠ Kind.Slice := by
    have e : t.ReflectType = rt := hur
    rw [e]
    simp [kindOf, hv]
  have hw1 : t.getWord ⟨2 + 0, fs.length⟩ (i : Int) = Except.ok (valueIdentity env f.type) :=
    getWord_shape hi (by rw [Nat.zero_add]; exact a2)
  have hw2 : t.getWord ⟨2 + fs.length, fs.length⟩ (i : Int)
      = Except.ok (Word.abi (RType.ptr f.type)) := getWord_shape hi a3
  constructor
  · unfold UnsafeFieldValue
    rw [field_match env mem σ r t struc i _ ht hty2, hm, g1, Nat.cast_one, mul_one, hw1, hoff]
    simp only [Except.bind, if_neg hk]
    rw [unsafeAdd_wrapInt _ _ hadd]
  · unfold FieldPointer
    rw [field_match env mem σ r t struc i _ ht hty2, hm, g2, Nat.cast_one, mul_one, hw2, hoff]
    simp only [Except.bind, if_neg hk]
    rw [unsafeAdd_wrapInt _ _ hadd]

/-! ## Completely built descriptors -/

theorem Good_frame {env : Env} {σ σ1 : State} {r : Nat} (hh : σ1.heap[r]? = σ.heap[r]?)
    (hreg : ∀ k v, load σ.types k = some v → load σ1.types k = some v)
    (h : Good env σ r) : Good env σ1 r := by
  intro t ht
  rw [hh] at ht
  obtain ⟨h1, h2⟩ := h t ht
  constructor
  · intro fs hv hn
    obtain ⟨hs, hf⟩ := h1 fs hv hn
    refine ⟨hs, fun j f hj hfj => ?_⟩
    obtain ⟨a, b, c, rj, d, e⟩ := hf j f hj hfj
    exact ⟨a, b, c, rj, d, hreg _ _ e⟩
  · intro e he
    obtain ⟨a, b, c, d, e1, re, f, g⟩ := h2 e he
    exact ⟨a, b, c, d, e1, re, f, hreg _ _ g⟩

theorem AGE_set {env : Env} {P : Nat → Prop} {σ : State} {r : Nat} (t1 : TypeDesc)
    (h : AGE env P σ) (hr : P r) : AGE env P ⟨σ.heap.set r t1, σ.types⟩ := by
  intro k r1 hk hp
  have hne : r ≠ r1 := fun e => hp (e ▸ hr)
  exact @Good_frame env σ ⟨σ.heap.set r t1, σ.types⟩ r1 (by simp [List.getElem?_set_ne hne])
    (fun _ _ h => h) (h k r1 hk hp)

theorem Keep_set {env : Env} {P : Nat → Prop} {σ : State} {r : Nat} {t t1 : TypeDesc}
    (h : Keep env P σ) (hr : P r) (ht : σ.heap[r]? = some t) (hs : SameHeader t t1) :
    Keep env P ⟨σ.heap.set r t1, σ.types⟩ :=
  ⟨Inv_set h.1 ht hs, AGE_set t1 h.2 hr⟩

theorem AGE_store {env : Env} {P : Nat → Prop} {σ : State} (rt : RType) (t : TypeDesc)
    (hinv : Inv env σ) (h : AGE env P σ) (hl : load σ.types rt = none) :
    AGE env (fun x => x = σ.heap.length ∨ P x)
      ⟨σ.heap ++ [t], (rt, σ.heap.length) :: σ.types⟩ := by
  intro k r1 hk hp
  rw [load_cons] at hk
  by_cases hkr : rt = k
  · simp only [hkr, if_true, Option.some.injEq] at hk
    exact absurd (Or.inl hk.symm) hp
  · simp only [hkr, if_false] at hk
    obtain ⟨u, hu, _⟩ := hinv k r1 hk
    have hlt : r1 < σ.heap.length := getElem?_lt hu
    have hext := store_ext env rt σ t hl
    exact Good_frame (hext.frame r1 hlt) hext.reg (h k r1 hk (fun hp1 => hp (Or.inr hp1)))

theorem AGE_done {env : Env} {P : Nat → Prop} {σ : State} {r : Nat}
    (h : AGE env (fun x => x = r ∨ P x) σ) (hg : Good env σ r) : AGE env P σ := by
  intro k r1 hk hp
  by_cases e : r1 = r
  · rw [e]
    exact hg
  · exact h k r1 hk (fun hp1 => hp1.elim e hp)

theorem Holds_recur_keep {α : Type} {env : Env} {recur : RType → M Nat}
    (hS : RecSound env recur) (hG : RecGood env recur) {P : Nat → Prop}
    {Q : α → State → Prop} {k : RType} {f : Nat → M α}
    (hf : ∀ v, Holds (Keep env P) (f v) Q) : Holds (Keep env P) (recur k >>= f) Q := by
  intro σ hc a σ1 hres
  rw [M.bind_apply] at hres
  have h2 := hS k σ
  rcases hr : recur k σ with ⟨σ2, e | v⟩
  · simp [hr] at hres
  · rw [hr] at hres h2
    exact hf v σ2 ⟨h2.2.1 hc.1, hG k σ σ2 v P hc hr⟩ a σ1 hres

theorem Holds_modify_keep {α : Type} {env : Env} {P : Nat → Prop} {Q : α → State → Prop}
    {r : Nat} {g : TypeDesc → Except Err TypeDesc} {f : Unit → M α} (hr : P r)
    (hg : ∀ t t1, g t = Except.ok t1 → SameHeader t t1)
    (hf : Holds (Keep env P) (f ()) Q) : Holds (Keep env P) (M.modify r g >>= f) Q :=
  Holds_modify_bind (fun _ t t1 hc ht hgt => Keep_set hc hr ht (hg t t1 hgt)) hf

theorem Holds_modify_keep_last {env : Env} {P : Nat → Prop} {r : Nat}
    {g : TypeDesc → Except Err TypeDesc} (hr : P r)
    (hg : ∀ t t1, g t = Except.ok t1 → SameHeader t t1) :
    Holds (Keep env P) (M.modify r g) (fun _ => Keep env P) := by
  intro σ hc a σ1 hres
  cases ht : σ.heap[r]? with
  | none => simp [M.modify_none ht] at hres
  | some t =>
    cases hgt : g t with
    | error e => simp [M.modify_error ht hgt] at hres
    | ok t1 =>
      rw [M.modify_ok ht hgt] at hres
      cases hres
      exact Keep_set hc hr ht (hg t t1 hgt)

theorem Holds_get_keep {α : Type} {C : State → Prop} {Q : α → State → Prop} {r : Nat}
    {f : TypeDesc → M α} (hf : ∀ t, Holds C (f t) Q) : Holds C (M.get r >>= f) Q :=
  Holds_get_bind (fun _ => True) (fun _ _ _ _ => trivial) (fun t _ => hf t)

theorem Holds_getWord_keep {α : Type} {C : State → Prop} {Q : α → State → Prop} {w : Word}
    {f : TypeDesc → M α} (hf : ∀ t, Holds C (f t) Q) : Holds C (M.getWord w >>= f) Q :=
  Holds_getWord_bind (fun _ => True) (fun _ _ _ _ => trivial) (fun t _ => hf t)

theorem Holds_ofExcept_keep {α β : Type} {C : State → Prop} {Q : β → State → Prop}
    {x : Except Err α} {f : α → M β} (hf : ∀ a, Holds C (f a) Q) :
    Holds C (M.ofExcept x >>= f) Q :=
  Holds_ofExcept_bind (fun a _ => hf a)

/-! ## The init funcs leave the other descriptors completely built -/

theorem arrayInit_keeps {env : Env} {P : Nat → Prop} {r : Nat} (hr : P r) :
    Holds (Keep env P) (arrayInit env r) (fun _ => Keep env P) := by
  unfold Unsafereflect.arrayInit
  refine Holds_get_keep (fun t => ?_)
  refine Holds_ofExcept_keep (fun n => ?_)
  exact Holds_modify_keep_last hr (fun u u1 h => by cases h; exact ⟨rfl, rfl, rfl, rfl⟩)

theorem elemInit_keeps {env : Env} {recur : RType → M Nat} (hS : RecSound env recur)
    (hG : RecGood env recur) {P : Nat → Prop} {r : Nat} (hr : P r) :
    Holds (Keep env P) (elemInit env recur r) (fun _ => Keep env P) := by
  unfold Unsafereflect.elemInit
  refine Holds_get_keep (fun t => ?_)
  refine Holds_ofExcept_keep (fun e => ?_)
  refine Holds_recur_keep hS hG (fun elemType => ?_)
  refine Holds_get_keep (fun et => ?_)
  refine Holds_modify_keep hr (fun u u1 h => setField_header h) ?_
  refine Holds_get_keep (fun et => ?_)
  refine Holds_modify_keep hr (fun u u1 h => setWord_header (fieldABITypes_start u) h) ?_
  refine Holds_get_keep (fun et => ?_)
  refine Holds_modify_keep hr (fun u u1 h => setWord_header (ptrToFieldABITypes_start u) h) ?_
  refine Holds_modify_keep hr (fun u u1 h => setWord_header (fieldUSRTypes_start u) h) ?_
  refine Holds_get_keep (fun t1 => ?_)
  refine Holds_get_keep (fun et => ?_)
  refine Holds_recur_keep hS hG (fun p => ?_)
  exact Holds_modify_keep_last hr (fun u u1 h => setWord_header (ptrToFieldUSRTypes_start t1) h)

theorem structLoop_keeps {env : Env} {recur : RType → M Nat} (hS : RecSound env recur)
    (hG : RecGood env recur) {P : Nat → Prop} {r : Nat} (hr : P r) (rt : RType)
    (s1 s2 s3 s4 : Region) (fs : FieldRegion)
    (h1 : 2 ≤ s1.start) (h2 : 2 ≤ s2.start) (h3 : 2 ≤ s3.start) (h4 : 2 ≤ s4.start)
    (k : Nat) : ∀ i : Nat, Holds (Keep env P)
      (structLoop env recur r rt s1 s2 s3 s4 fs k i) (fun _ => Keep env P) := by
  induction k with
  | zero =>
    intro i
    unfold structLoop
    exact Holds_pure (fun σ h => h)
  | succ k ih =>
    intro i
    unfold structLoop
    refine Holds_ofExcept_keep (fun sf => ?_)
    refine Holds_modify_keep hr (fun u u1 h => setField_header h) ?_
    refine Holds_get_keep (fun t => ?_)
    refine Holds_ofExcept_keep (fun sf1 => ?_)
    refine Holds_ofExcept_keep (fun ft => ?_)
    refine Holds_recur_keep hS hG (fun f => ?_)
    refine Holds_modify_keep hr (fun u u1 h => setWord_header h3 h) ?_
    refine Holds_get_keep (fun t => ?_)
    refine Holds_ofExcept_keep (fun w => ?_)
    refine Holds_getWord_keep (fun d => ?_)
    refine Holds_modify_keep hr (fun u u1 h => setWord_header h2 h) ?_
    refine Holds_get_keep (fun t => ?_)
    refine Holds_ofExcept_keep (fun w => ?_)
    refine Holds_getWord_keep (fun d => ?_)
    refine Holds_modify_keep hr (fun u u1 h => setWord_header h1 h) ?_
    refine Holds_get_keep (fun t => ?_)
    refine Holds_ofExcept_keep (fun sf2 => ?_)
    refine Holds_ofExcept_keep (fun ft2 => ?_)
    refine Holds_recur_keep hS hG (fun p => ?_)
    refine Holds_modify_keep hr (fun u u1 h => setWord_header h4 h) ?_
    exact ih (i + 1)

theorem structInit_keeps {env : Env} {recur : RType → M Nat} (hS : RecSound env recur)
    (hG : RecGood env recur) {P : Nat → Prop} {r : Nat} (hr : P r) :
    Holds (Keep env P) (structInit env recur r) (fun _ => Keep env P) := by
  unfold Unsafereflect.structInit
  refine Holds_modify_keep hr (fun u u1 h => by cases h; exact ⟨rfl, rfl, rfl, rfl⟩) ?_
  refine Holds_get_keep (fun t => ?_)
  exact structLoop_keeps hS hG hr _ _ _ _ _ _ (fieldABITypes_start t)
    (ptrToFieldABITypes_start t) (fieldUSRTypes_start t) (ptrToFieldUSRTypes_start t) _ 0

/-! ## The element init func fills a slice or pointer descriptor -/

theorem ElemShape_numFields {t : TypeDesc} (h : ElemShape t) : t.numFields = 1 := by
  unfold TypeDesc.numFields
  rw [h.1]
  rfl

theorem ElemShape_multiplier {t : TypeDesc} (h : ElemShape t) :
    t.fieldIndexMultiplier = 0 := by
  unfold TypeDesc.fieldIndexMultiplier
  rw [h.1]
  rfl

theorem ElemShape_regions {t : TypeDesc} (h : ElemShape t) :
    t.fieldABITypes = ⟨2 + 0, 1⟩ ∧ t.ptrToFieldABITypes = ⟨2 + 1, 1⟩ ∧
      t.fieldUSRTypes = ⟨2 + 2, 1⟩ ∧ t.ptrToFieldUSRTypes = ⟨2 + 3, 1⟩ ∧
      t.ReflectStructFields = ⟨2 + 4 * 1, 1⟩ := by
  have hnum := ElemShape_numFields h
  unfold TypeDesc.fieldABITypes TypeDesc.ptrToFieldABITypes TypeDesc.fieldUSRTypes
    TypeDesc.ptrToFieldUSRTypes TypeDesc.ReflectStructFields
  rw [hnum]
  simp [unsafeSlice, Region.drop, usrType, abiPtrType, usrPtrType, typeUnsafePointers]

theorem ElemShape_of_eq {t t1 : TypeDesc} (h : ElemShape t) (hu : t1.uintData = t.uintData)
    (hs : t1.slots.length = t.slots.length) (hf : t1.fields.length = t.fields.length) :
    ElemShape t1 :=
  ⟨hu.trans h.1, hs.trans h.2.1, hf.trans h.2.2⟩

theorem EStage_setWord {env : Env} {r c : Nat} {σ : State}
    {P Q : TypeDesc → State → Prop} {u u1 : TypeDesc} {v : Word}
    (h : EStage env r P σ) (hu : σ.heap[r]? = some u)
    (hg : u.setWord ⟨2 + c, 1⟩ 0 v = Except.ok u1)
    (hP : ∀ σ1 : State, σ1.types = σ.types → c < u.slots.length → u1.fields = u.fields →
      u1.slots = u.slots.set c v → P u σ → Q u1 σ1) :
    EStage env r Q ⟨σ.heap.set r u1, σ.types⟩ := by
  obtain ⟨hinv, t, ht, hs, hp⟩ := h
  rw [hu] at ht
  cases ht
  have hg2 : u.setWord ⟨2 + c, 1⟩ ((0 : Nat) : Int) v = Except.ok u1 := by simpa using hg
  obtain ⟨g1, g2, g3, g4⟩ := setWord_ok hg2
  rw [Nat.add_zero] at g1 g4
  exact ⟨Inv_set hinv hu (setWord_header (by simp) hg), u1, getElem?_set_self_of_some hu,
    ElemShape_of_eq hs g2 (by rw [g4, List.length_set]) (by rw [g3]), hP _ rfl g1 g3 g4 hp⟩

theorem EStage_setField {env : Env} {r : Nat} {σ : State}
    {P Q : TypeDesc → State → Prop} {u u1 : TypeDesc} {sf : StructField}
    (h : EStage env r P σ) (hu : σ.heap[r]? = some u)
    (hg : u.setField ⟨2 + 4 * 1, 1⟩ 0 sf = Except.ok u1)
    (hP : ∀ σ1 : State, σ1.types = σ.types → u1.slots = u.slots →
      u1.fields = u.fields.set 0 sf → P u σ → Q u1 σ1) :
    EStage env r Q ⟨σ.heap.set r u1, σ.types⟩ := by
  obtain ⟨hinv, t, ht, hs, hp⟩ := h
  rw [hu] at ht
  cases ht
  have hlen : 0 < u.fields.length := by rw [hs.2.2]; exact Nat.one_pos
  have hg2 : u.setField ⟨2 + 4 * 1, 1⟩ ((0 : Nat) : Int) sf = Except.ok u1 := by simpa using hg
  obtain ⟨g2, g3, g4⟩ := setField_ok (n := 1) (by rw [hs.2.1]) hlen hg2
  exact ⟨Inv_set hinv hu (setField_header hg), u1, getElem?_set_self_of_some hu,
    ElemShape_of_eq hs g2 (by rw [g3]) (by rw [g4, List.length_set]), hP _ rfl g3 g4 hp⟩

theorem EStage_ext {env : Env} {r : Nat} {σ σ1 : State}
    {P Q : TypeDesc → State → Prop} (h : EStage env r P σ)
    (hext : Ext σ.heap.length σ σ1) (hinv : Inv env σ1)
    (hP : ∀ t, P t σ → Q t σ1) : EStage env r Q σ1 := by
  obtain ⟨_, t, ht, hs, hp⟩ := h
  exact ⟨hinv, t, by rw [hext.frame r (getElem?_lt ht)]; exact ht, hs, hP t hp⟩

theorem EStage_desc {env : Env} {r : Nat} {σ : State} {P : TypeDesc → State → Prop}
    {t : TypeDesc} (h : EStage env r P σ) (ht : σ.heap[r]? = some t) :
    ElemShape t ∧ P t σ := by
  obtain ⟨_, u, hu, hs, hp⟩ := h
  rw [ht] at hu
  cases hu
  exact ⟨hs, hp⟩

theorem alloc_elemShape (env : Env) (rt : RType) : ElemShape (TypeDesc.alloc env rt 1) := by
  refine ⟨?_, ?_, ?_⟩
  · simp [TypeDesc.alloc, toUint, uintDataBits]
  · simp [TypeDesc.alloc, typeUnsafePointers]
  · simp [TypeDesc.alloc]

theorem Holds_modify_last {C : State → Prop} {Q : Unit → State → Prop} {r : Nat}
    {g : TypeDesc → Except Err TypeDesc}
    (hpost : ∀ σ t t1, C σ → σ.heap[r]? = some t → g t = Except.ok t1 →
      Q () ⟨σ.heap.set r t1, σ.types⟩) : Holds C (M.modify r g) Q := by
  intro σ hc a σ1 hres
  cases ht : σ.heap[r]? with
  | none => simp [M.modify_none ht] at hres
  | some t =>
    cases hgt : g t with
    | error e => simp [M.modify_error ht hgt] at hres
    | ok t1 =>
      rw [M.modify_ok ht hgt] at hres
      cases hres
      exact hpost σ t t1 hc ht hgt

theorem inv_desc {env : Env} {σ : State} {k : RType} {v : Nat} {d : TypeDesc}
    (hinv : Inv env σ) (hk : load σ.types k = some v) (hd : σ.heap[v]? = some d) :
    d.reflectType = k ∧ d.self = valueIdentity env k ∧ d.ptrToSelf = Word.abi (RType.ptr k) ∧
      d.size = wrapInt (rtSize env k) := by
  obtain ⟨t, ht, h1, h2, h3, h4⟩ := hinv k v hk
  rw [hd] at ht
  cases ht
  exact ⟨h1, h2, h3, h4⟩

theorem list_eq_singleton {α : Type} {l : List α} {a : α} (hl : l.length = 1)
    (h0 : l[0]? = some a) : l = [a] := by
  match l, hl, h0 with
  | [x], _, h0 =>
    simp at h0
    rw [h0]

theorem elemInit_fills {env : Env} {recur : RType → M Nat} (hS : RecSound env recur)
    (r : Nat) (rt e : RType) (he : elemOf env rt = Except.ok e) :
    Holds (fun σ => Inv env σ ∧ σ.heap[r]? = some (TypeDesc.alloc env rt 1))
      (elemInit env recur r)
      (fun _ σ => ∃ t, σ.heap[r]? = some t ∧ ElemFilled env t σ e) := by
  unfold Unsafereflect.elemInit
  refine Holds_get_bind (fun t => t = TypeDesc.alloc env rt 1)
    (fun σ t hc ht => by
      have h2 := hc.2
      rw [ht] at h2
      cases h2
      rfl) (fun t ht => ?_)
  subst ht
  refine Holds_ofExcept_bind (fun e1 he1 => ?_)
  have ee : e1 = e := by
    have h2 : elemOf env rt = Except.ok e1 := he1
    rw [he] at h2
    cases h2
    rfl
  subst ee
  refine Holds_recur_bind hS
    (D := fun v => EStage env r (fun _ σ => load σ.types e1 = some v))
    (fun σ σ1 v hc hext hinv hk => ⟨hinv hc.1, _,
      by rw [hext.frame r (getElem?_lt hc.2)]; exact hc.2, alloc_elemShape env rt, hk⟩)
    (fun elemType => ?_)
  refine Holds_get_bind (fun et => et.reflectType = e1 ∧ et.self = valueIdentity env e1 ∧
      et.ptrToSelf = Word.abi (RType.ptr e1))
    (fun σ et hc het => by
      obtain ⟨hinv, u, _, _, hp⟩ := hc
      obtain ⟨a, b, c, _⟩ := inv_desc hinv hp het
      exact ⟨a, b, c⟩) (fun et het => ?_)
  refine Holds_modify_bind
    (D := EStage env r (fun t σ => load σ.types e1 = some elemType ∧
      t.fields[0]? = some ⟨"Elem", some e1, 0⟩))
    (fun σ u u1 hc hu hg => by
      have hsh := (EStage_desc hc hu).1
      rw [(ElemShape_regions hsh).2.2.2.2] at hg
      have hE : et.ReflectType = e1 := het.1
      rw [hE] at hg
      exact EStage_setField hc hu hg (fun σ1 hty g3 g4 hp =>
        ⟨by rw [hty]; exact hp,
          by rw [g4]; exact List.getElem?_set_self (by rw [hsh.2.2]; exact Nat.one_pos)⟩)) ?_
  refine Holds_get_bind (fun et => et.reflectType = e1 ∧ et.self = valueIdentity env e1 ∧
      et.ptrToSelf = Word.abi (RType.ptr e1))
    (fun σ et hc het => by
      obtain ⟨hinv, u, _, _, hp⟩ := hc
      obtain ⟨a, b, c, _⟩ := inv_desc hinv hp.1 het
      exact ⟨a, b, c⟩) (fun et2 het2 => ?_)
  refine Holds_modify_bind
    (D := EStage env r (fun t σ => load σ.types e1 = some elemType ∧
      t.fields[0]? = some ⟨"Elem", some e1, 0⟩ ∧ t.slots[0]? = some (valueIdentity env e1)))
    (fun σ u u1 hc hu hg => by
      have hsh := (EStage_desc hc hu).1
      rw [(ElemShape_regions hsh).1, het2.2.1] at hg
      exact EStage_setWord hc hu hg (fun σ1 hty g1 g3 g4 hp =>
        ⟨by rw [hty]; exact hp.1, by rw [g3]; exact hp.2,
          by rw [g4]; exact List.getElem?_set_self g1⟩)) ?_
  refine Holds_get_bind (fun et => et.reflectType = e1 ∧ et.self = valueIdentity env e1 ∧
      et.ptrToSelf = Word.abi (RType.ptr e1))
    (fun σ et hc het => by
      obtain ⟨hinv, u, _, _, hp⟩ := hc
      obtain ⟨a, b, c, _⟩ := inv_desc hinv hp.1 het
      exact ⟨a, b, c⟩) (fun et3 het3 => ?_)
  refine Holds_modify_bind
    (D := EStage env r (fun t σ => load σ.types e1 = some elemType ∧
      t.fields[0]? = some ⟨"Elem", some e1, 0⟩ ∧ t.slots[0]? = some (valueIdentity env e1) ∧
      t.slots[1]? = some (Word.abi (RType.ptr e1))))
    (fun σ u u1 hc hu hg => by
      have hsh := (EStage_desc hc hu).1
      rw [(ElemShape_regions hsh).2.1, het3.2.2] at hg
      exact EStage_setWord hc hu hg (fun σ1 hty g1 g3 g4 hp =>
        ⟨by rw [hty]; exact hp.1, by rw [g3]; exact hp.2.1,
          by rw [g4, List.getElem?_set_ne (by omega)]; exact hp.2.2,
          by rw [g4]; exact List.getElem?_set_self g1⟩)) ?_
  refine Holds_modify_bind
    (D := EStage env r (fun t σ => load σ.types e1 = some elemType ∧
      t.fields[0]? = some ⟨"Elem", some e1, 0⟩ ∧ t.slots[0]? = some (valueIdentity env e1) ∧
      t.slots[1]? = some (Word.abi (RType.ptr e1)) ∧
      t.slots[2]? = some (Word.usr elemType)))
    (fun σ u u1 hc hu hg => by
      have hsh := (EStage_desc hc hu).1
      rw [(ElemShape_regions hsh).2.2.1] at hg
      exact EStage_setWord hc hu hg (fun σ1 hty g1 g3 g4 hp =>
        ⟨by rw [hty]; exact hp.1, by rw [g3]; exact hp.2.1,
          by rw [g4, List.getElem?_set_ne (by omega)]; exact hp.2.2.1,
          by rw [g4, List.getElem?_set_ne (by omega)]; exact hp.2.2.2,
          by rw [g4]; exact List.getElem?_set_self g1⟩)) ?_
  refine Holds_get_bind (fun t => ElemShape t)
    (fun σ t hc ht => (EStage_desc hc ht).1) (fun t1 ht1 => ?_)
  refine Holds_get_bind (fun _ => True) (fun _ _ _ _ => trivial) (fun et4 _ => ?_)
  refine Holds_recur_bind hS
    (D := fun _ => EStage env r (fun t σ => load σ.types e1 = some elemType ∧
      t.fields[0]? = some ⟨"Elem", some e1, 0⟩ ∧ t.slots[0]? = some (valueIdentity env e1) ∧
      t.slots[1]? = some (Word.abi (RType.ptr e1)) ∧
      t.slots[2]? = some (Word.usr elemType)))
    (fun σ σ1 v hc hext hinv hk => EStage_ext hc hext (hinv hc.1)
      (fun t hp => ⟨hext.reg _ _ hp.1, hp.2⟩))
    (fun p => ?_)
  refine Holds_modify_last (fun σ u u1 hc hu hg => ?_)
  rw [(ElemShape_regions ht1).2.2.2.1] at hg
  have hst := EStage_setWord
    (Q := fun t σ => load σ.types e1 = some elemType ∧
      t.fields[0]? = some ⟨"Elem", some e1, 0⟩ ∧ t.slots[0]? = some (valueIdentity env e1) ∧
      t.slots[1]? = some (Word.abi (RType.ptr e1)) ∧
      t.slots[2]? = some (Word.usr elemType))
    hc hu hg (fun σ1 hty g1 g3 g4 hp =>
      ⟨by rw [hty]; exact hp.1, by rw [g3]; exact hp.2.1,
        by rw [g4, List.getElem?_set_ne (by omega)]; exact hp.2.2.1,
        by rw [g4, List.getElem?_set_ne (by omega)]; exact hp.2.2.2.1,
        by rw [g4, List.getElem?_set_ne (by omega)]; exact hp.2.2.2.2⟩)
  obtain ⟨_, t, ht, hs, hp⟩ := hst
  exact ⟨t, ht, hs.1, hs.2.1, list_eq_singleton hs.2.2 hp.2.1, hp.2.2.1, hp.2.2.2.1,
    elemType, hp.2.2.2.2, hp.1⟩

/-! ## A call that returns leaves the descriptors it registered completely built -/

theorem Holds_bind {α β : Type} {C D : State → Prop} {Q : β → State → Prop} {x : M α}
    {f : α → M β} (hx : Holds C x (fun _ => D)) (hf : ∀ a, Holds D (f a) Q) :
    Holds C (x >>= f) Q := by
  intro σ hc b σ1 hres
  rw [M.bind_apply] at hres
  rcases hr : x σ with ⟨σ2, e | a⟩
  · simp [hr] at hres
  · rw [hr] at hres
    exact hf a σ2 (hx σ hc a σ2 hr) b σ1 hres

theorem runInits_keeps {env : Env} {P : Nat → Prop} {r : Nat} :
    ∀ fs : List (Nat → M Unit),
      (∀ f ∈ fs, Holds (Keep env P) (f r) (fun _ => Keep env P)) →
      Holds (Keep env P) (runInits r fs) (fun _ => Keep env P) := by
  intro fs
  induction fs with
  | nil =>
    intro _
    unfold Unsafereflect.runInits
    exact Holds_pure (fun σ h => h)
  | cons f rest ih =>
    intro h
    unfold Unsafereflect.runInits
    exact Holds_bind (h f (List.mem_cons_self _ _))
      (fun _ => ih (fun g hg => h g (List.mem_cons_of_mem _ hg)))

theorem initFuncsFor_keeps {env : Env} {recur : RType → M Nat} (hS : RecSound env recur)
    (hG : RecGood env recur) {P : Nat → Prop} {r : Nat} (hr : P r) (rt : RType) :
    ∀ f ∈ initFuncsFor env recur rt, Holds (Keep env P) (f r) (fun _ => Keep env P) := by
  intro f hf
  unfold Unsafereflect.initFuncsFor at hf
  split at hf <;> simp at hf
  · rcases hf with rfl | rfl
    · exact arrayInit_keeps hr
    · exact elemInit_keeps hS hG hr
  · subst hf
    exact elemInit_keeps hS hG hr
  · subst hf
    exact elemInit_keeps hS hG hr
  · subst hf
    exact elemInit_keeps hS hG hr
  · subst hf
    exact structInit_keeps hS hG hr

theorem runInits_single {r : Nat} {f : Nat → M Unit} {σ σ1 : State}
    (h : runInits r [f] σ = (σ1, Except.ok ())) : f r σ = (σ1, Except.ok ()) := by
  have e1 : runInits r [f] = (f r >>= fun _ => (Pure.pure () : M Unit)) := rfl
  rw [e1, M.bind_apply] at h
  rcases hr : f r σ with ⟨σ2, e | u⟩
  · rw [hr] at h
    simp at h
  · rw [hr] at h
    simp only [M.pure_apply, Prod.mk.injEq] at h
    rw [h.1]

theorem buildDesc_good {env : Env} {recur : RType → M Nat} (hS : RecSound env recur)
    (hG : RecGood env recur) (rt : RType) (σ σ1 : State) (v : Nat) (P : Nat → Prop)
    (hk : Keep env P σ) (hl : load σ.types rt = none)
    (hb : buildDesc env recur rt σ = (σ1, Except.ok v)) : AGE env P σ1 := by
  have hsound := buildDesc_sound hS rt σ hl
  rw [hb] at hsound
  have hinv1 : Inv env σ1 := hsound.2.1 hk.1
  have hreg1 : load σ1.types rt = some v := hsound.2.2 v rfl
  rw [buildDesc_apply env recur rt σ hl] at hb
  split at hb
  · cases hb
  · rcases hrun : runInits σ.heap.length (initFuncsFor env recur rt)
      ⟨σ.heap ++ [TypeDesc.alloc env rt (numFieldsFor env rt)],
        (rt, σ.heap.length) :: σ.types⟩ with ⟨σ3, e | u⟩
    · rw [hrun] at hb
      cases hb
    · rw [hrun] at hb
      simp only [Prod.mk.injEq, Except.ok.injEq] at hb
      obtain ⟨h1, h2⟩ := hb
      subst h1
      subst h2
      have hk2 : Keep env (fun x => x = σ.heap.length ∨ P x)
          ⟨σ.heap ++ [TypeDesc.alloc env rt (numFieldsFor env rt)],
            (rt, σ.heap.length) :: σ.types⟩ :=
        ⟨store_inv env rt σ _ hk.1, AGE_store rt _ hk.1 hk.2 hl⟩
      have hk3 := runInits_keeps _ (initFuncsFor_keeps hS hG (Or.inl rfl) rt) _ hk2 u σ3 hrun
      refine AGE_done hk3.2 ?_
      intro t ht
      obtain ⟨hrt, _⟩ := inv_desc hinv1 hreg1 ht
      constructor
      · intro fs hv hn
        rw [hrt] at hv
        have hnf : numFieldsFor env rt = fs.length := by
          simp [numFieldsFor, kindOf, numFieldOf, hv]
        have hif : initFuncsFor env recur rt = [structInit env recur] := by
          simp [initFuncsFor, kindOf, hv]
        rw [hnf, hif] at hrun
        have hfill := structInit_fills hS fs σ.heap.length rt hv hn _
          ⟨store_inv env rt σ fs.length hk.1, by simp⟩ () σ3 (runInits_single hrun)
        obtain ⟨_, t2, ht2, hs, hf⟩ := hfill
        rw [ht] at ht2
        cases ht2
        exact ⟨hs, hf⟩
      · intro e he
        rw [hrt] at he
        have hnf : numFieldsFor env rt = 1 := by
          rcases he with he | he <;> simp [numFieldsFor, kindOf, he]
        have hif : initFuncsFor env recur rt = [elemInit env recur] := by
          rcases he with he | he <;> simp [initFuncsFor, kindOf, he]
        have hel : elemOf env rt = Except.ok e := by
          rcases he with he | he <;> simp [elemOf, he]
        rw [hnf, hif] at hrun
        have hfill := elemInit_fills hS σ.heap.length rt e hel _
          ⟨store_inv env rt σ 1 hk.1, by simp⟩ () σ3 (runInits_single hrun)
        obtain ⟨t2, ht2, hfl⟩ := hfill
        rw [ht] at ht2
        cases ht2
        exact hfl

theorem TFRT_good (env : Env) : ∀ fuel : Nat, RecGood env (TypeFromReflectType env fuel) := by
  intro fuel
  induction fuel with
  | zero =>
    intro k σ σ1 v P hk h
    cases hl : load σ.types k with
    | none =>
      rw [TFRT_zero_miss env hl] at h
      cases h
    | some w =>
      rw [TFRT_hit env 0 hl] at h
      cases h
      exact hk.2
  | succ fuel ih =>
    intro k σ σ1 v P hk h
    cases hl : load σ.types k with
    | none =>
      rw [TFRT_succ_miss env fuel hl] at h
      exact buildDesc_good (TFRT_sound env fuel) ih k σ σ1 v P hk hl h
    | some w =>
      rw [TFRT_hit env (fuel + 1) hl] at h
      cases h
      exact hk.2

theorem call_builds (env : Env) (fuel : Nat) (k rt : RType) (σa σb : State) (v r : Nat)
    (hinv : Inv env σa) (hcall : TypeFromReflectType env fuel k σa = (σb, Except.ok v))
    (hnew : load σa.types rt = none) (hreg : load σb.types rt = some r) :
    Good env σb r := by
  have hage : AGE env (fun x => ∃ k1, load σa.types k1 = some x) σa :=
    fun k1 r1 hk1 hp => absurd ⟨k1, hk1⟩ hp
  have h2 := TFRT_good env fuel k σa σb v _ ⟨hinv, hage⟩ hcall
  have hs := TFRT_sound env fuel k σa
  rw [hcall] at hs
  refine h2 rt r hreg ?_
  rintro ⟨k1, hk1⟩
  have hinvb : Inv env σb := hs.2.1 hinv
  obtain ⟨t, ht, hrt, _⟩ := hinvb rt r hreg
  obtain ⟨t1, ht1, hrt1, _⟩ := hinvb k1 r (hs.1.reg _ _ hk1)
  rw [ht] at ht1
  cases ht1
  rw [hrt] at hrt1
  subst hrt1
  rw [hnew] at hk1
  cases hk1

/-! ## Projections through completely built descriptors -/

theorem LaterInBlock_later {env : Env} {σ σ1 : State} (h : LaterInBlock env σ σ1) :
    Later env σ σ1 := by
  induction h with
  | refl => exact Later.refl _
  | step fuel rt _ _ ih => exact Later.step fuel rt ih

theorem field_of_elem (env : Env) (mem : Mem) (σ : State) (r : Nat) (rt e : RType)
    (t : TypeDesc) (hinv : Inv env σ) (hreg : load σ.types rt = some r)
    (hv : view env rt = Underlying.slice e ∨ view env rt = Underlying.ptr e)
    (ht : σ.heap[r]? = some t) (hf : ElemFilled env t σ e) (struc : Boxed) (i : Int)
    (hty : struc.type = Word.abi rt ∨ struc.type = Word.abi (RType.ptr rt)) :
    UnsafeFieldValue env mem σ r struc i
      = Except.ok ⟨valueIdentity env e,
          unsafeAdd (if kindOf env rt = Kind.Slice then sliceData mem struc.data
            else struc.data) (wrapInt (i * wrapInt (rtSize env e)))⟩ := by
  obtain ⟨hrt, hself, hptr, _⟩ := inv_desc hinv hreg ht
  have hvi : valueIdentity env rt = Word.abi rt := by
    rcases hv with hv | hv <;> simp [valueIdentity, kindOf, hv]
  rw [hvi] at hself
  have hty2 : struc.type = t.self ∨ struc.type = t.ptrToSelf := by
    rw [hself, hptr]
    exact hty
  obtain ⟨a1, a2, a3, a4, _, re, a6, a7⟩ := hf
  have hsh : ElemShape t := ⟨a1, a2, by rw [a3]; rfl⟩
  obtain ⟨d, hd, _, _, _, hsize⟩ := hinv e re a7
  obtain ⟨g1, _, g3, _, g5⟩ := ElemShape_regions hsh
  have hm := ElemShape_multiplier hsh
  have hw1 : t.getWord ⟨2 + 0, 1⟩ (0 : Int) = Except.ok (valueIdentity env e) := by
    have := @getWord_shape t 0 1 0 (valueIdentity env e) (by omega) a4
    simpa using this
  have hw3 : t.getWord ⟨2 + 2, 1⟩ (0 : Int) = Except.ok (Word.usr re) := by
    have := @getWord_shape t 2 1 0 (Word.usr re) (by omega) a6
    simpa using this
  have hgf : t.getField ⟨2 + 4 * 1, 1⟩ (0 : Int) = Except.ok ⟨"Elem", some e, 0⟩ := by
    have := @getField_shape t 1 1 0 ⟨"Elem", some e, 0⟩ (by rw [a2]) (by omega)
      (by rw [a3]; rfl)
    simpa using this
  have hoff : fieldOffset σ t i = Except.ok (wrapInt (i * wrapInt (rtSize env e))) := by
    unfold fieldOffset
    simp only [hm, g3, g5, Nat.cast_zero, mul_zero, hgf, hw3, bind, Except.bind,
      State.derefWord, State.deref, hd, pure, Except.pure, offsetSum, hsize]
    norm_num
  have hE : t.ReflectType = rt := hrt
  unfold UnsafeFieldValue
  rw [field_match env mem σ r t struc i _ ht hty2, hm, g1, Nat.cast_zero, mul_zero, hw1, hoff,
    hE]
  rfl

/-- C1 (amended): let a call of `TypeFromReflectType`, made in a state reached
by calls that stay inside their descriptor blocks, return, and let the
descriptor `r` of the struct type `rt` with fields `fs` (fewer than `2^62`) be
registered by that call, as its result or as a by-product (a pointer's element,
a field's type).  Then in every state reached from there by calls that stay
inside their blocks, returning or panicking, for every boxed aggregate whose
type word is the value identity or the pointer identity of `rt` and every
index `i` of a declared field `f`, `UnsafeFieldValue` returns the value
identity of the type of `f` with the data word `struc.data + f.offset`, and
`FieldPointer` returns the pointer identity of the type of `f` with the same
data word (the address stays in the 64-bit address space). -/
theorem struct_field_projection (env : Env) (mem : Mem) (fuel : Nat) (k rt : RType)
    (fs : List FieldDecl) (σa σb : State) (v r : Nat)
    (ha : LaterInBlock env State.empty σa)
    (hcall : TypeFromReflectType env fuel k σa = (σb, Except.ok v))
    (hnew : load σa.types rt = none) (hreg : load σb.types rt = some r)
    (hv : view env rt = Underlying.struct fs) (hn : fs.length < 2 ^ 62) :
    ∀ σ1, LaterInBlock env σb σ1 → ∀ (struc : Boxed) (i : Nat) (f : FieldDecl),
      fs[i]? = some f →
      (struc.type = Word.abi rt ∨ struc.type = Word.abi (RType.ptr rt)) →
      struc.data + f.offset < 2 ^ 64 →
      UnsafeFieldValue env mem σ1 r struc (i : Int)
          = Except.ok ⟨valueIdentity env f.type, struc.data + f.offset⟩ ∧
        FieldPointer env mem σ1 r struc (i : Int)
          = Except.ok ⟨Word.abi (RType.ptr f.type), struc.data + f.offset⟩ := by
  intro σ1 hl struc i f hfi hty hadd
  have hinva : Inv env σa := Later_inv (LaterInBlock_later ha) (Inv_empty env)
  have hgood := call_builds env fuel k rt σa σb v r hinva hcall hnew hreg
  have hs := TFRT_sound env fuel k σa
  rw [hcall] at hs
  have hinvb : Inv env σb := hs.2.1 hinva
  obtain ⟨t, ht, hrt, _⟩ := hinvb rt r hreg
  obtain ⟨hshape, hfill⟩ := (hgood t ht).1 fs (by rw [hrt]; exact hv) hn
  have hext := Later_ext (LaterInBlock_later hl)
  have ht1 : σ1.heap[r]? = some t := by
    rw [hext.frame r (getElem?_lt ht)]
    exact ht
  exact field_of_filled env mem σ1 r rt fs t (Later_inv (LaterInBlock_later hl) hinvb)
    (hext.reg _ _ hreg) hv hn ht1 hshape
    (fun j fj hj hfj => FieldFilled_ext (hfill j fj hj hfj) hext) struc i f hfi hty hadd

/-- C5 (amended): for a descriptor whose index multiplier is 1 (the has-length
bit is set, as in a struct descriptor) or which has no fields (opaque kinds), a
type-matching aggregate and an index outside `[0, numFields())`,
`UnsafeFieldValue` fails with Go's index-out-of-range panic and returns no
boxed value.  For the descriptor of a slice or pointer type with element type
`e`, registered by a call of `TypeFromReflectType` that returned (all calls
staying inside their descriptor blocks), the index is not checked:
`UnsafeFieldValue` returns, for every index `i`, the value identity of `e` with
the data word `base + i * size(e)` in 64-bit arithmetic, `base` being the
slice's data pointer or the pointer itself. -/
theorem field_index_check (env : Env) (mem : Mem) :
    (∀ (σ : State) (r : Nat) (t : TypeDesc) (struc : Boxed) (i : Int),
      σ.heap[r]? = some t →
      (struc.type = t.self ∨ struc.type = t.ptrToSelf) →
      (t.fieldIndexMultiplier = 1 ∨ t.numFields = 0) →
      (i < 0 ∨ (t.numFields : Int) ≤ i) →
      UnsafeFieldValue env mem σ r struc i = Except.error Err.indexOutOfRange) ∧
    (∀ (fuel : Nat) (k rt e : RType) (σa σb : State) (v r : Nat),
      LaterInBlock env State.empty σa →
      TypeFromReflectType env fuel k σa = (σb, Except.ok v) →
      load σa.types rt = none → load σb.types rt = some r →
      (view env rt = Underlying.slice e ∨ view env rt = Underlying.ptr e) →
      ∀ σ1, LaterInBlock env σb σ1 → ∀ (struc : Boxed) (i : Int),
        (struc.type = Word.abi rt ∨ struc.type = Word.abi (RType.ptr rt)) →
        UnsafeFieldValue env mem σ1 r struc i
          = Except.ok ⟨valueIdentity env e,
              unsafeAdd (if kindOf env rt = Kind.Slice then sliceData mem struc.data
                else struc.data) (wrapInt (i * wrapInt (rtSize env e)))⟩) := by
  constructor
  · intro σ r t struc i ht hm hk hi
    exact field_index_fails env mem σ r t struc i ht hm hk hi
  · intro fuel k rt e σa σb v r ha hcall hnew hreg hv σ1 hl struc i hty
    have hinva : Inv env σa := Later_inv (LaterInBlock_later ha) (Inv_empty env)
    have hgood := call_builds env fuel k rt σa σb v r hinva hcall hnew hreg
    have hs := TFRT_sound env fuel k σa
    rw [hcall] at hs
    have hinvb : Inv env σb := hs.2.1 hinva
    obtain ⟨t, ht, hrt, _⟩ := hinvb rt r hreg
    obtain ⟨a1, a2, a3, a4, a5, re, a6, a7⟩ := (hgood t ht).2 e (by rw [hrt]; exact hv)
    have hext := Later_ext (LaterInBlock_later hl)
    have ht1 : σ1.heap[r]? = some t := by
      rw [hext.frame r (getElem?_lt ht)]
      exact ht
    exact field_of_elem env mem σ1 r rt e t (Later_inv (LaterInBlock_later hl) hinvb)
      (hext.reg _ _ hreg) hv ht1 ⟨a1, a2, a3, a4, a5, re, a6, hext.reg _ _ a7⟩ struc i hty

/-! ## Descriptors of concrete types -/

set_option maxHeartbeats 4000000 in
set_option maxRecDepth 10000 in
theorem build_ptrInt :
    TypeFromReflectType envT 1 (RType.ptr tInt) stInt = (stPtr, Except.ok 1) := by
  simp [TypeFromReflectType, load, State.empty, buildDesc, bind, M.bind, allocDesc, loadOrStore,
    numFieldsFor, initFuncsFor, kindOf, view, runInits, elemInit, structInit, structLoop, arrayInit,
    M.get, M.getWord, M.modify, M.ofExcept, State.deref, State.derefWord, elemOf, lenOf, fieldOf,
    typeOfField, TypeDesc.ReflectType, TypeDesc.alloc, pure, M.pure, envT, declOf, numFieldOf,
    TypeDesc.numFields, TypeDesc.fieldABITypes, TypeDesc.ptrToFieldABITypes, TypeDesc.fieldUSRTypes,
    TypeDesc.ptrToFieldUSRTypes, TypeDesc.ReflectStructFields, TypeDesc.setField, TypeDesc.getField,
    TypeDesc.setWord, TypeDesc.getWord, TypeDesc.loadWord, TypeDesc.storeWord, TypeDesc.fieldCell,
    unsafeSlice, Region.drop, toUint, uintDataBits, typeUnsafePointers, usrType, usrPtrType,
    abiPtrType, abiType, udHasLenMask, udHasLenBit, udIsArrayBit, structFieldWords, valueIdentity,
    StructField.zero, List.replicate, tInt, tStr, tS, tNode, tZ, stS, stNode, stInt, stPtr, stSl, stPub,
    stArr, stZ, stArrPub, leafDesc, elemDesc, rtSize, wrapInt, offsetSum]

set_option maxHeartbeats 4000000 in
set_option maxRecDepth 10000 in
theorem build_sliceInt :
    TypeFromReflectType envT 1 (RType.slice tInt) stPtr = (stSl, Except.ok 2) := by
  simp [TypeFromReflectType, load, State.empty, buildDesc, bind, M.bind, allocDesc, loadOrStore,
    numFieldsFor, initFuncsFor, kindOf, view, runInits, elemInit, structInit, structLoop, arrayInit,
    M.get, M.getWord, M.modify, M.ofExcept, State.deref, State.derefWord, elemOf, lenOf, fieldOf,
    typeOfField, TypeDesc.ReflectType, TypeDesc.alloc, pure, M.pure, envT, declOf, numFieldOf,
    TypeDesc.numFields, TypeDesc.fieldABITypes, TypeDesc.ptrToFieldABITypes, TypeDesc.fieldUSRTypes,
    TypeDesc.ptrToFieldUSRTypes, TypeDesc.ReflectStructFields, TypeDesc.setField, TypeDesc.getField,
    TypeDesc.setWord, TypeDesc.getWord, TypeDesc.loadWord, TypeDesc.storeWord, TypeDesc.fieldCell,
    unsafeSlice, Region.drop, toUint, uintDataBits, typeUnsafePointers, usrType, usrPtrType,
    abiPtrType, abiType, udHasLenMask, udHasLenBit, udIsArrayBit, structFieldWords, valueIdentity,
    StructField.zero, List.replicate, tInt, tStr, tS, tNode, tZ, stS, stNode, stInt, stPtr, stSl, stPub,
    stArr, stZ, stArrPub, leafDesc, elemDesc, rtSize, wrapInt, offsetSum]

set_option maxHeartbeats 4000000 in
set_option maxRecDepth 10000 in
theorem publish_arr3 :
    (allocDesc (TypeDesc.alloc envT (RType.array 3 tInt) 1) >>=
        fun t => loadOrStore (RType.array 3 tInt) t) stInt
      = (stArrPub 3, Except.ok (1, false)) := by
  simp [TypeFromReflectType, load, State.empty, buildDesc, bind, M.bind, allocDesc, loadOrStore,
    numFieldsFor, initFuncsFor, kindOf, view, runInits, elemInit, structInit, structLoop, arrayInit,
    M.get, M.getWord, M.modify, M.ofExcept, State.deref, State.derefWord, elemOf, lenOf, fieldOf,
    typeOfField, TypeDesc.ReflectType, TypeDesc.alloc, pure, M.pure, envT, declOf, numFieldOf,
    TypeDesc.numFields, TypeDesc.fieldABITypes, TypeDesc.ptrToFieldABITypes, TypeDesc.fieldUSRTypes,
    TypeDesc.ptrToFieldUSRTypes, TypeDesc.ReflectStructFields, TypeDesc.setField, TypeDesc.getField,
    TypeDesc.setWord, TypeDesc.getWord, TypeDesc.loadWord, TypeDesc.storeWord, TypeDesc.fieldCell,
    unsafeSlice, Region.drop, toUint, uintDataBits, typeUnsafePointers, usrType, usrPtrType,
    abiPtrType, abiType, udHasLenMask, udHasLenBit, udIsArrayBit, structFieldWords, valueIdentity,
    StructField.zero, List.replicate, tInt, tStr, tS, tNode, tZ, stS, stNode, stInt, stPtr, stSl, stPub,
    stArr, stZ, stArrPub, leafDesc, elemDesc, rtSize, wrapInt, offsetSum]

set_option maxHeartbeats 4000000 in
set_option maxRecDepth 10000 in
theorem arrayInit_arr3 : arrayInit envT 1 (stArrPub 3) = (stArr 3 24 13, Except.ok ()) := by
  simp [TypeFromReflectType, load, State.empty, buildDesc, bind, M.bind, allocDesc, loadOrStore,
    numFieldsFor, initFuncsFor, kindOf, view, runInits, elemInit, structInit, structLoop, arrayInit,
    M.get, M.getWord, M.modify, M.ofExcept, State.deref, State.derefWord, elemOf, lenOf, fieldOf,
    typeOfField, TypeDesc.ReflectType, TypeDesc.alloc, pure, M.pure, envT, declOf, numFieldOf,
    TypeDesc.numFields, TypeDesc.fieldABITypes, TypeDesc.ptrToFieldABITypes, TypeDesc.fieldUSRTypes,
    TypeDesc.ptrToFieldUSRTypes, TypeDesc.ReflectStructFields, TypeDesc.setField, TypeDesc.getField,
    TypeDesc.setWord, TypeDesc.getWord, TypeDesc.loadWord, TypeDesc.storeWord, TypeDesc.fieldCell,
    unsafeSlice, Region.drop, toUint, uintDataBits, typeUnsafePointers, usrType, usrPtrType,
    abiPtrType, abiType, udHasLenMask, udHasLenBit, udIsArrayBit, structFieldWords, valueIdentity,
    StructField.zero, List.replicate, tInt, tStr, tS, tNode, tZ, stS, stNode, stInt, stPtr, stSl, stPub,
    stArr, stZ, stArrPub, leafDesc, elemDesc, rtSize, wrapInt, offsetSum]

set_option maxHeartbeats 4000000 in
set_option maxRecDepth 10000 in
theorem build_arr0 :
    TypeFromReflectType envT 1 (RType.array 0 tInt) stInt
      = (stArr 0 0 1, Except.error Err.indexOutOfRange) := by
  simp [TypeFromReflectType, load, State.empty, buildDesc, bind, M.bind, allocDesc, loadOrStore,
    numFieldsFor, initFuncsFor, kindOf, view, runInits, elemInit, structInit, structLoop, arrayInit,
    M.get, M.getWord, M.modify, M.ofExcept, State.deref, State.derefWord, elemOf, lenOf, fieldOf,
    typeOfField, TypeDesc.ReflectType, TypeDesc.alloc, pure, M.pure, envT, declOf, numFieldOf,
    TypeDesc.numFields, TypeDesc.fieldABITypes, TypeDesc.ptrToFieldABITypes, TypeDesc.fieldUSRTypes,
    TypeDesc.ptrToFieldUSRTypes, TypeDesc.ReflectStructFields, TypeDesc.setField, TypeDesc.getField,
    TypeDesc.setWord, TypeDesc.getWord, TypeDesc.loadWord, TypeDesc.storeWord, TypeDesc.fieldCell,
    unsafeSlice, Region.drop, toUint, uintDataBits, typeUnsafePointers, usrType, usrPtrType,
    abiPtrType, abiType, udHasLenMask, udHasLenBit, udIsArrayBit, structFieldWords, valueIdentity,
    StructField.zero, List.replicate, tInt, tStr, tS, tNode, tZ, stS, stNode, stInt, stPtr, stSl, stPub,
    stArr, stZ, stArrPub, leafDesc, elemDesc, rtSize, wrapInt, offsetSum]

set_option maxHeartbeats 4000000 in
set_option maxRecDepth 10000 in
theorem build_Node :
    TypeFromReflectType envT 3 tNode State.empty = (stNode, Except.ok 0) := by
  simp [TypeFromReflectType, load, State.empty, buildDesc, bind, M.bind, allocDesc, loadOrStore,
    numFieldsFor, initFuncsFor, kindOf, view, runInits, elemInit, structInit, structLoop, arrayInit,
    M.get, M.getWord, M.modify, M.ofExcept, State.deref, State.derefWord, elemOf, lenOf, fieldOf,
    typeOfField, TypeDesc.ReflectType, TypeDesc.alloc, pure, M.pure, envT, declOf, numFieldOf,
    TypeDesc.numFields, TypeDesc.fieldABITypes, TypeDesc.ptrToFieldABITypes, TypeDesc.fieldUSRTypes,
    TypeDesc.ptrToFieldUSRTypes, TypeDesc.ReflectStructFields, TypeDesc.setField, TypeDesc.getField,
    TypeDesc.setWord, TypeDesc.getWord, TypeDesc.loadWord, TypeDesc.storeWord, TypeDesc.fieldCell,
    unsafeSlice, Region.drop, toUint, uintDataBits, typeUnsafePointers, usrType, usrPtrType,
    abiPtrType, abiType, udHasLenMask, udHasLenBit, udIsArrayBit, structFieldWords, valueIdentity,
    StructField.zero, List.replicate, tInt, tStr, tS, tNode, tZ, stS, stNode, stInt, stPtr, stSl, stPub,
    stArr, stZ, stArrPub, leafDesc, elemDesc, rtSize, wrapInt, offsetSum]

set_option maxHeartbeats 4000000 in
set_option maxRecDepth 10000 in
theorem build_S :
    TypeFromReflectType envT 3 tS State.empty = (stS, Except.ok 0) := by
  simp [TypeFromReflectType, load, State.empty, buildDesc, bind, M.bind, allocDesc, loadOrStore,
    numFieldsFor, initFuncsFor, kindOf, view, runInits, elemInit, structInit, structLoop, arrayInit,
    M.get, M.getWord, M.modify, M.ofExcept, State.deref, State.derefWord, elemOf, lenOf, fieldOf,
    typeOfField, TypeDesc.ReflectType, TypeDesc.alloc, pure, M.pure, envT, declOf, numFieldOf,
    TypeDesc.numFields, TypeDesc.fieldABITypes, TypeDesc.ptrToFieldABITypes, TypeDesc.fieldUSRTypes,
    TypeDesc.ptrToFieldUSRTypes, TypeDesc.ReflectStructFields, TypeDesc.setField, TypeDesc.getField,
    TypeDesc.setWord, TypeDesc.getWord, TypeDesc.loadWord, TypeDesc.storeWord, TypeDesc.fieldCell,
    unsafeSlice, Region.drop, toUint, uintDataBits, typeUnsafePointers, usrType, usrPtrType,
    abiPtrType, abiType, udHasLenMask, udHasLenBit, udIsArrayBit, structFieldWords, valueIdentity,
    StructField.zero, List.replicate, tInt, tStr, tS, tNode, tZ, stS, stNode, stInt, stPtr, stSl, stPub,
    stArr, stZ, stArrPub, leafDesc, elemDesc, rtSize, wrapInt, offsetSum]

set_option maxHeartbeats 4000000 in
set_option maxRecDepth 10000 in
theorem build_Z :
    (TypeFromReflectType envT 2 tZ stInt).2 = Except.error Err.indexOutOfRange := by
  simp [TypeFromReflectType, load, State.empty, buildDesc, bind, M.bind, allocDesc, loadOrStore,
    numFieldsFor, initFuncsFor, kindOf, view, runInits, elemInit, structInit, structLoop, arrayInit,
    M.get, M.getWord, M.modify, M.ofExcept, State.deref, State.derefWord, elemOf, lenOf, fieldOf,
    typeOfField, TypeDesc.ReflectType, TypeDesc.alloc, pure, M.pure, envT, declOf, numFieldOf,
    TypeDesc.numFields, TypeDesc.fieldABITypes, TypeDesc.ptrToFieldABITypes, TypeDesc.fieldUSRTypes,
    TypeDesc.ptrToFieldUSRTypes, TypeDesc.ReflectStructFields, TypeDesc.setField, TypeDesc.getField,
    TypeDesc.setWord, TypeDesc.getWord, TypeDesc.loadWord, TypeDesc.storeWord, TypeDesc.fieldCell,
    unsafeSlice, Region.drop, toUint, uintDataBits, typeUnsafePointers, usrType, usrPtrType,
    abiPtrType, abiType, udHasLenMask, udHasLenBit, udIsArrayBit, structFieldWords, valueIdentity,
    StructField.zero, List.replicate, tInt, tStr, tS, tNode, tZ, stS, stNode, stInt, stPtr, stSl, stPub,
    stArr, stZ, stArrPub, leafDesc, elemDesc, rtSize, wrapInt, offsetSum]

theorem reach_stInt : Reachable envT stInt := by
  have h := @Later.step envT _ _ 1 tInt (Later.refl State.empty)
  rw [build_int] at h
  exact h

theorem reach_stPtr : Reachable envT stPtr := by
  have h := @Later.step envT _ _ 1 (RType.ptr tInt) reach_stInt
  rw [build_ptrInt] at h
  exact h

theorem reach_stSl : Reachable envT stSl := by
  have h := @Later.step envT _ _ 1 (RType.slice tInt) reach_stPtr
  rw [build_sliceInt] at h
  exact h

set_option maxRecDepth 10000 in
/-- C9: building the descriptor of `Node{Next *Node}` at program start returns
a descriptor with exactly one field; its `FieldType(0)` is the descriptor the
registry holds for `*Node`, and the `FieldType(0)` of that one is the
descriptor of `Node` itself. -/
theorem node_cycle :
    ∃ (σ : State) (node pnode : Nat) (tn tp : TypeDesc),
      TypeFromReflectType envT 3 tNode State.empty = (σ, Except.ok node) ∧
      σ.heap[node]? = some tn ∧ tn.Len = 1 ∧
      tn.FieldType 0 = Except.ok (Word.usr pnode) ∧
      load σ.types (RType.ptr tNode) = some pnode ∧
      σ.heap[pnode]? = some tp ∧
      tp.FieldType 0 = Except.ok (Word.usr node) ∧
      load σ.types tNode = some node := by
  refine ⟨stNode, 0, 1, _, _, build_Node, rfl, ?_, ?_, rfl, rfl, ?_, rfl⟩
  · simp [TypeDesc.Len, TypeDesc.numFields, uintDataBits, stNode]
  · simp [UnsafeFieldValue, FieldPointer, field, fieldOffset, unsafeAdd, sliceData, bind, Except.bind,
    pure, Except.pure, State.deref, State.derefWord, kindOf, view, envT, declOf,
    TypeDesc.ReflectType, TypeDesc.fieldIndexMultiplier, TypeDesc.numFields,
    TypeDesc.fieldABITypes, TypeDesc.ptrToFieldABITypes, TypeDesc.fieldUSRTypes,
    TypeDesc.ptrToFieldUSRTypes, TypeDesc.ReflectStructFields, TypeDesc.getField,
    TypeDesc.getWord, TypeDesc.loadWord, TypeDesc.fieldCell, TypeDesc.FieldType, unsafeSlice,
    Region.drop, uintDataBits, typeUnsafePointers, usrType, usrPtrType, abiPtrType, abiType,
    udHasLenMask, udHasLenBit, structFieldWords, StructField.zero, tInt, tStr, tS, tNode, tZ,
    stS, stNode, stInt, stPtr, stSl, stPub, stArr, stZ, stArrPub, leafDesc, elemDesc, wrapInt, offsetSum, load]
  · simp [UnsafeFieldValue, FieldPointer, field, fieldOffset, unsafeAdd, sliceData, bind, Except.bind,
    pure, Except.pure, State.deref, State.derefWord, kindOf, view, envT, declOf,
    TypeDesc.ReflectType, TypeDesc.fieldIndexMultiplier, TypeDesc.numFields,
    TypeDesc.fieldABITypes, TypeDesc.ptrToFieldABITypes, TypeDesc.fieldUSRTypes,
    TypeDesc.ptrToFieldUSRTypes, TypeDesc.ReflectStructFields, TypeDesc.getField,
    TypeDesc.getWord, TypeDesc.loadWord, TypeDesc.fieldCell, TypeDesc.FieldType, unsafeSlice,
    Region.drop, uintDataBits, typeUnsafePointers, usrType, usrPtrType, abiPtrType, abiType,
    udHasLenMask, udHasLenBit, structFieldWords, StructField.zero, tInt, tStr, tS, tNode, tZ,
    stS, stNode, stInt, stPtr, stSl, stPub, stArr, stZ, stArrPub, leafDesc, elemDesc, wrapInt, offsetSum, load]

/-! ## Arrays: the array init func against the one-entry block -/

theorem bind_fails {α β : Type} (x : M α) (f : α → M β) (σ : State) (e : Err)
    (h : (x σ).2 = Except.error e) : ((x >>= f) σ).2 = Except.error e := by
  rw [M.bind_apply]
  rcases hx : x σ with ⟨σ1, err | a⟩
  · rw [hx] at h
    simpa using h
  · rw [hx] at h
    cases h

theorem TFRT_slice_elem_fails (env : Env) (fuel : Nat) (e : RType) (σ : State) (err : Err)
    (hl : load σ.types (RType.slice e) = none)
    (h : (TypeFromReflectType env fuel e
      ⟨σ.heap ++ [TypeDesc.alloc env (RType.slice e) 1],
        (RType.slice e, σ.heap.length) :: σ.types⟩).2 = Except.error err) :
    (TypeFromReflectType env (fuel + 1) (RType.slice e) σ).2 = Except.error err := by
  have hnf : numFieldsFor env (RType.slice e) = 1 := by simp [numFieldsFor, kindOf, view]
  have hif : initFuncsFor env (TypeFromReflectType env fuel) (RType.slice e)
      = [elemInit env (TypeFromReflectType env fuel)] := by
    simp [initFuncsFor, kindOf, view]
  have hlen : (TypeDesc.alloc env (RType.slice e) 1).ReflectStructFields.len = 1 :=
    alloc_numFields env (RType.slice e) 1 (by norm_num)
  rw [TFRT_succ_miss env fuel hl, buildDesc_apply env _ _ σ hl, hnf, hif]
  simp only [hlen, ne_eq, not_true_eq_false, if_false]
  have hrun : (runInits σ.heap.length [elemInit env (TypeFromReflectType env fuel)]
      ⟨σ.heap ++ [TypeDesc.alloc env (RType.slice e) 1],
        (RType.slice e, σ.heap.length) :: σ.types⟩).2 = Except.error err := by
    have e1 : runInits σ.heap.length [elemInit env (TypeFromReflectType env fuel)]
        = (elemInit env (TypeFromReflectType env fuel) σ.heap.length >>=
            fun _ => (Pure.pure () : M Unit)) := rfl
    rw [e1]
    apply bind_fails
    unfold Unsafereflect.elemInit
    rw [M.bind_apply, M.get_ok (t := TypeDesc.alloc env (RType.slice e) 1) (by simp)]
    have e2 : elemOf env (TypeDesc.alloc env (RType.slice e) 1).ReflectType = Except.ok e := by
      simp [elemOf, view, TypeDesc.ReflectType, TypeDesc.alloc]
    simp only []
    rw [e2, M.bind_apply]
    simp only [M.ofExcept]
    exact bind_fails _ _ _ _ h
  rcases hr : runInits σ.heap.length [elemInit env (TypeFromReflectType env fuel)]
      ⟨σ.heap ++ [TypeDesc.alloc env (RType.slice e) 1],
        (RType.slice e, σ.heap.length) :: σ.types⟩ with ⟨σ3, er | u⟩
  · rw [hr] at hrun
    simpa using hrun
  · rw [hr] at hrun
    cases hrun

set_option maxHeartbeats 4000000 in
set_option maxRecDepth 10000 in
theorem build_Z_after_S :
    (TypeFromReflectType envT 2 tZ stS).2 = Except.error Err.indexOutOfRange := by
  simp [TypeFromReflectType, load, State.empty, buildDesc, bind, M.bind, allocDesc, loadOrStore,
    numFieldsFor, initFuncsFor, kindOf, view, runInits, elemInit, structInit, structLoop, arrayInit,
    M.get, M.getWord, M.modify, M.ofExcept, State.deref, State.derefWord, elemOf, lenOf, fieldOf,
    typeOfField, TypeDesc.ReflectType, TypeDesc.alloc, pure, M.pure, envT, declOf, numFieldOf,
    TypeDesc.numFields, TypeDesc.fieldABITypes, TypeDesc.ptrToFieldABITypes, TypeDesc.fieldUSRTypes,
    TypeDesc.ptrToFieldUSRTypes, TypeDesc.ReflectStructFields, TypeDesc.setField, TypeDesc.getField,
    TypeDesc.setWord, TypeDesc.getWord, TypeDesc.loadWord, TypeDesc.storeWord, TypeDesc.fieldCell,
    unsafeSlice, Region.drop, toUint, uintDataBits, typeUnsafePointers, usrType, usrPtrType,
    abiPtrType, abiType, udHasLenMask, udHasLenBit, udIsArrayBit, structFieldWords, valueIdentity,
    StructField.zero, List.replicate, tInt, tStr, tS, tNode, tZ, stS, stNode, stInt, stPtr, stSl, stPub,
    stArr, stZ, stArrPub, leafDesc, elemDesc, rtSize, wrapInt, offsetSum]

set_option maxHeartbeats 4000000 in
set_option maxRecDepth 10000 in
theorem build_arr0_in_slice :
    (TypeFromReflectType envT 1 (RType.array 0 tInt)
      ⟨stInt.heap ++ [TypeDesc.alloc envT (RType.slice (RType.array 0 tInt)) 1],
        (RType.slice (RType.array 0 tInt), stInt.heap.length) :: stInt.types⟩).2
      = Except.error Err.indexOutOfRange := by
  simp [TypeFromReflectType, load, State.empty, buildDesc, bind, M.bind, allocDesc, loadOrStore,
    numFieldsFor, initFuncsFor, kindOf, view, runInits, elemInit, structInit, structLoop, arrayInit,
    M.get, M.getWord, M.modify, M.ofExcept, State.deref, State.derefWord, elemOf, lenOf, fieldOf,
    typeOfField, TypeDesc.ReflectType, TypeDesc.alloc, pure, M.pure, envT, declOf, numFieldOf,
    TypeDesc.numFields, TypeDesc.fieldABITypes, TypeDesc.ptrToFieldABITypes, TypeDesc.fieldUSRTypes,
    TypeDesc.ptrToFieldUSRTypes, TypeDesc.ReflectStructFields, TypeDesc.setField, TypeDesc.getField,
    TypeDesc.setWord, TypeDesc.getWord, TypeDesc.loadWord, TypeDesc.storeWord, TypeDesc.fieldCell,
    unsafeSlice, Region.drop, toUint, uintDataBits, typeUnsafePointers, usrType, usrPtrType,
    abiPtrType, abiType, udHasLenMask, udHasLenBit, udIsArrayBit, structFieldWords, valueIdentity,
    StructField.zero, List.replicate, tInt, tStr, tS, tNode, tZ, stS, stNode, stInt, stPtr, stSl, stPub,
    stArr, stZ, stArrPub, leafDesc, elemDesc, rtSize, wrapInt, offsetSum]

theorem reach_stS : Reachable envT stS := by
  have h := @Later.step envT _ _ 3 tS (Later.refl State.empty)
  rw [build_S] at h
  exact h

set_option maxHeartbeats 4000000 in
set_option maxRecDepth 10000 in
theorem appendOne_S (mem : Mem) :
    appendOne envT mem 2 TypeDesc.fieldABITypes [] ⟨Word.abi tS, 4096⟩ stS
      = (stS, Except.ok [⟨Word.abi tInt, 4096⟩, ⟨Word.abi tStr, 4104⟩]) := by
  simp [AppendUnsafeFieldValues, AppendFieldPointers, appendFields, appendOne, appendLoop, TypeOf,
    reflectTypeOf, Len, sliceLen, refOfWord, TypeFromReflectType, M.bind, M.pure, M.get,
    M.ofExcept, UnsafeFieldValue, FieldPointer, field, fieldOffset, unsafeAdd, sliceData, bind,
    Except.bind, pure, Except.pure, State.deref, State.derefWord, kindOf, view, envT, declOf,
    TypeDesc.ReflectType, TypeDesc.fieldIndexMultiplier, TypeDesc.numFields,
    TypeDesc.fieldABITypes, TypeDesc.ptrToFieldABITypes, TypeDesc.fieldUSRTypes,
    TypeDesc.ptrToFieldUSRTypes, TypeDesc.ReflectStructFields, TypeDesc.getField,
    TypeDesc.getWord, TypeDesc.loadWord, TypeDesc.fieldCell, TypeDesc.FieldType, unsafeSlice,
    Region.drop, uintDataBits, typeUnsafePointers, usrType, usrPtrType, abiPtrType, abiType,
    udHasLenMask, udHasLenBit, structFieldWords, StructField.zero, tInt, tStr, tS, tNode, tZ,
    stS, stNode, stInt, stPtr, stSl, stPub, stArr, stZ, stArrPub, leafDesc, elemDesc, wrapInt, offsetSum, load]

set_option maxHeartbeats 4000000 in
set_option maxRecDepth 10000 in
theorem append_S (mem : Mem) :
    AppendUnsafeFieldValues envT mem 2 [] [⟨Word.abi tS, 4096⟩] stS
      = (stS, Except.ok [⟨Word.abi tInt, 4096⟩, ⟨Word.abi tStr, 4104⟩]) := by
  simp [AppendUnsafeFieldValues, AppendFieldPointers, appendFields, appendOne, appendLoop, TypeOf,
    reflectTypeOf, Len, sliceLen, refOfWord, TypeFromReflectType, M.bind, M.pure, M.get,
    M.ofExcept, UnsafeFieldValue, FieldPointer, field, fieldOffset, unsafeAdd, sliceData, bind,
    Except.bind, pure, Except.pure, State.deref, State.derefWord, kindOf, view, envT, declOf,
    TypeDesc.ReflectType, TypeDesc.fieldIndexMultiplier, TypeDesc.numFields,
    TypeDesc.fieldABITypes, TypeDesc.ptrToFieldABITypes, TypeDesc.fieldUSRTypes,
    TypeDesc.ptrToFieldUSRTypes, TypeDesc.ReflectStructFields, TypeDesc.getField,
    TypeDesc.getWord, TypeDesc.loadWord, TypeDesc.fieldCell, TypeDesc.FieldType, unsafeSlice,
    Region.drop, uintDataBits, typeUnsafePointers, usrType, usrPtrType, abiPtrType, abiType,
    udHasLenMask, udHasLenBit, structFieldWords, StructField.zero, tInt, tStr, tS, tNode, tZ,
    stS, stNode, stInt, stPtr, stSl, stPub, stArr, stZ, stArrPub, leafDesc, elemDesc, wrapInt, offsetSum, load]

set_option maxHeartbeats 4000000 in
set_option maxRecDepth 10000 in
theorem append_slice2 :
    AppendFieldPointers envT (fun a => if a = 512 then 4096 else 2) 2 []
        [⟨Word.abi (RType.slice tInt), 512⟩] stSl
      = (stSl, Except.ok [⟨Word.abi (RType.ptr tInt), 4096⟩, ⟨Word.abi (RType.ptr tInt), 4104⟩]) := by
  simp [AppendUnsafeFieldValues, AppendFieldPointers, appendFields, appendOne, appendLoop, TypeOf,
    reflectTypeOf, Len, sliceLen, refOfWord, TypeFromReflectType, M.bind, M.pure, M.get,
    M.ofExcept, UnsafeFieldValue, FieldPointer, field, fieldOffset, unsafeAdd, sliceData, bind,
    Except.bind, pure, Except.pure, State.deref, State.derefWord, kindOf, view, envT, declOf,
    TypeDesc.ReflectType, TypeDesc.fieldIndexMultiplier, TypeDesc.numFields,
    TypeDesc.fieldABITypes, TypeDesc.ptrToFieldABITypes, TypeDesc.fieldUSRTypes,
    TypeDesc.ptrToFieldUSRTypes, TypeDesc.ReflectStructFields, TypeDesc.getField,
    TypeDesc.getWord, TypeDesc.loadWord, TypeDesc.fieldCell, TypeDesc.FieldType, unsafeSlice,
    Region.drop, uintDataBits, typeUnsafePointers, usrType, usrPtrType, abiPtrType, abiType,
    udHasLenMask, udHasLenBit, structFieldWords, StructField.zero, tInt, tStr, tS, tNode, tZ,
    stS, stNode, stInt, stPtr, stSl, stPub, stArr, stZ, stArrPub, leafDesc, elemDesc, wrapInt, offsetSum, load]

theorem fieldOffset_hasLen (σ : State) (t : TypeDesc) (i v : Int)
    (hm : t.fieldIndexMultiplier = 1) (h : fieldOffset σ t i = Except.ok v) :
    ∃ sf, t.getField t.ReflectStructFields i = Except.ok sf ∧ v = wrapInt (sf.Offset : Int) := by
  unfold fieldOffset at h
  simp only [hm, Nat.cast_one, mul_one, bind, Except.bind, pure, Except.pure] at h
  cases hg : t.getField t.ReflectStructFields i with
  | error e => simp [hg] at h
  | ok sf =>
    refine ⟨sf, rfl, ?_⟩
    simp only [hg] at h
    cases hw : t.getWord t.fieldUSRTypes 0 with
    | error e => simp [hw] at h
    | ok w =>
      simp only [hw] at h
      cases hd : σ.derefWord w with
      | error e => simp [hd] at h
      | ok d =>
        simp only [hd, Except.ok.injEq] at h
        rw [← h]
        simp [offsetSum]

/-- C2 (failing input): after `TypeOf(S{})`, appending the fields of an `S`
alone returns its two projections in declared order, but
`AppendUnsafeFieldValues(nil, S{}, Z{})` with `Z{A [0]int64}` stops with an
index-out-of-range panic inside the descriptor build of `[0]int64` and returns
no slice, where the claim promises one of length 3. -/
theorem append_values_array_field (mem : Mem) :
    Reachable envT stS ∧
      AppendUnsafeFieldValues envT mem 2 [] [⟨Word.abi tS, 4096⟩] stS
        = (stS, Except.ok [⟨Word.abi tInt, 4096⟩, ⟨Word.abi tStr, 4104⟩]) ∧
      (AppendUnsafeFieldValues envT mem 2 [] [⟨Word.abi tS, 4096⟩, ⟨Word.abi tZ, 8192⟩] stS).2
        = Except.error Err.indexOutOfRange := by
  refine ⟨reach_stS, append_S mem, ?_⟩
  unfold AppendUnsafeFieldValues appendFields
  rw [M.bind_apply, appendOne_S mem]
  simp only []
  unfold appendFields
  apply bind_fails
  unfold appendOne
  apply bind_fails
  rw [TypeOf_abi envT 2 _ tZ stS rfl]
  exact build_Z_after_S

/-- C3 (failing input): after `TypeOf` of an `int64`, a `*int64` and a
`[]int64`, `AppendFieldPointers` on a `[]int64` of live length 2 appends the
addresses of its two elements; but after `TypeOf` of an `int64` alone,
`AppendFieldPointers(nil, sl)` for a slice `sl` of type `[][0]int64` stops with
an index-out-of-range panic inside the descriptor build of the element type
`[0]int64`, whatever the live length of `sl` is, and appends nothing. -/
theorem append_pointers_array_elem (mem : Mem) :
    Reachable envT stSl ∧
      AppendFieldPointers envT (fun a => if a = 512 then 4096 else 2) 2 []
          [⟨Word.abi (RType.slice tInt), 512⟩] stSl
        = (stSl, Except.ok
            [⟨Word.abi (RType.ptr tInt), 4096⟩, ⟨Word.abi (RType.ptr tInt), 4104⟩]) ∧
      Reachable envT stInt ∧
      (AppendFieldPointers envT mem 2 []
          [⟨Word.abi (RType.slice (RType.array 0 tInt)), 512⟩] stInt).2
        = Except.error Err.indexOutOfRange := by
  refine ⟨reach_stSl, append_slice2, reach_stInt, ?_⟩
  unfold AppendFieldPointers appendFields
  apply bind_fails
  unfold appendOne
  apply bind_fails
  rw [TypeOf_abi envT 2 _ (RType.slice (RType.array 0 tInt)) stInt rfl]
  exact TFRT_slice_elem_fails envT 1 (RType.array 0 tInt) stInt Err.indexOutOfRange rfl
    build_arr0_in_slice

theorem setWord_numFields {t t1 : TypeDesc} {s : Region} {i : Int} {v : Word}
    (h : t.setWord s i v = Except.ok t1) : t1.uintData = t.uintData := by
  unfold TypeDesc.setWord at h
  split at h
  · unfold TypeDesc.storeWord at h
    split at h
    · cases h; rfl
    · cases h; rfl
    · split at h
      · cases h; rfl
      · cases h
  · cases h

theorem setField_numFields {t t1 : TypeDesc} {s : FieldRegion} {j : Int} {sf : StructField}
    (h : t.setField s j sf = Except.ok t1) : t1.uintData = t.uintData := by
  unfold TypeDesc.setField at h
  split at h
  · cases hc : t.fieldCell s j.toNat with
    | none => simp [hc] at h
    | some k =>
      simp only [hc, Except.ok.injEq] at h
      rw [← h]
  · cases h

set_option maxRecDepth 10000 in
/-- C6 (failing input): in `TypeFromReflectType([3]int64)` the array init func
sets the has-length bit, so the index multiplier of the array descriptor is 1;
`ReflectStructFields()` then has length 3 over a field table allocated for one
entry, and entry 1, whose `Offset` is what `fieldOffset(1)` returns, is not an
element of that table; the stores of the element init func leave the
multiplier as it is.  With multiplier 1 the sum `fieldOffset` returns is the
`Offset` read and the element size does not enter it; with multiplier 0, as in
a slice descriptor, it is `i * elementSize` (for `[]int64`, `fieldOffset(3)` is
24). -/
theorem array_offset_diverges :
    arrayInit envT 1 (stArrPub 3) = (stArr 3 24 13, Except.ok ()) ∧
      (∃ t, (stArr 3 24 13).heap[1]? = some t ∧ t.fieldIndexMultiplier = 1 ∧
        t.ReflectStructFields = ⟨14, 3⟩ ∧ t.fields.length = 1 ∧
        t.fieldCell t.ReflectStructFields 1 = none) ∧
      (∀ (t t1 : TypeDesc) (s : Region) (i : Int) (v : Word),
        t.setWord s i v = Except.ok t1 →
          t1.fieldIndexMultiplier = t.fieldIndexMultiplier) ∧
      (∀ (t t1 : TypeDesc) (s : FieldRegion) (j : Int) (sf : StructField),
        t.setField s j sf = Except.ok t1 →
          t1.fieldIndexMultiplier = t.fieldIndexMultiplier) ∧
      (∀ (off : Nat) (i size : Int), offsetSum 1 off i size = wrapInt (off : Int)) ∧
      (∀ (i size : Int), offsetSum 0 0 i size = wrapInt (i * size)) ∧
      ∃ t, stSl.heap[2]? = some t ∧ t.fieldIndexMultiplier = 0 ∧
        fieldOffset stSl t 3 = Except.ok 24 := by
  refine ⟨arrayInit_arr3, ⟨_, rfl, ?_, ?_, rfl, ?_⟩, ?_, ?_, ?_, ?_, ⟨_, rfl, ?_, ?_⟩⟩
  · simp [TypeDesc.fieldIndexMultiplier, udHasLenBit, stArr]
  · simp [UnsafeFieldValue, FieldPointer, field, fieldOffset, unsafeAdd, sliceData, bind, Except.bind,
    pure, Except.pure, State.deref, State.derefWord, kindOf, view, envT, declOf,
    TypeDesc.ReflectType, TypeDesc.fieldIndexMultiplier, TypeDesc.numFields,
    TypeDesc.fieldABITypes, TypeDesc.ptrToFieldABITypes, TypeDesc.fieldUSRTypes,
    TypeDesc.ptrToFieldUSRTypes, TypeDesc.ReflectStructFields, TypeDesc.getField,
    TypeDesc.getWord, TypeDesc.loadWord, TypeDesc.fieldCell, TypeDesc.FieldType, unsafeSlice,
    Region.drop, uintDataBits, typeUnsafePointers, usrType, usrPtrType, abiPtrType, abiType,
    udHasLenMask, udHasLenBit, structFieldWords, StructField.zero, tInt, tStr, tS, tNode, tZ,
    stS, stNode, stInt, stPtr, stSl, stPub, stArr, stZ, stArrPub, leafDesc, elemDesc, wrapInt, offsetSum, load]
  · simp [UnsafeFieldValue, FieldPointer, field, fieldOffset, unsafeAdd, sliceData, bind, Except.bind,
    pure, Except.pure, State.deref, State.derefWord, kindOf, view, envT, declOf,
    TypeDesc.ReflectType, TypeDesc.fieldIndexMultiplier, TypeDesc.numFields,
    TypeDesc.fieldABITypes, TypeDesc.ptrToFieldABITypes, TypeDesc.fieldUSRTypes,
    TypeDesc.ptrToFieldUSRTypes, TypeDesc.ReflectStructFields, TypeDesc.getField,
    TypeDesc.getWord, TypeDesc.loadWord, TypeDesc.fieldCell, TypeDesc.FieldType, unsafeSlice,
    Region.drop, uintDataBits, typeUnsafePointers, usrType, usrPtrType, abiPtrType, abiType,
    udHasLenMask, udHasLenBit, structFieldWords, StructField.zero, tInt, tStr, tS, tNode, tZ,
    stS, stNode, stInt, stPtr, stSl, stPub, stArr, stZ, stArrPub, leafDesc, elemDesc, wrapInt, offsetSum, load]
  · intro t t1 s i v h
    simp only [TypeDesc.fieldIndexMultiplier, setWord_numFields h]
  · intro t t1 s j sf h
    simp only [TypeDesc.fieldIndexMultiplier, setField_numFields h]
  · intro off i size
    simp [offsetSum]
  · intro i size
    simp [offsetSum]
  · simp [UnsafeFieldValue, FieldPointer, field, fieldOffset, unsafeAdd, sliceData, bind, Except.bind,
    pure, Except.pure, State.deref, State.derefWord, kindOf, view, envT, declOf,
    TypeDesc.ReflectType, TypeDesc.fieldIndexMultiplier, TypeDesc.numFields,
    TypeDesc.fieldABITypes, TypeDesc.ptrToFieldABITypes, TypeDesc.fieldUSRTypes,
    TypeDesc.ptrToFieldUSRTypes, TypeDesc.ReflectStructFields, TypeDesc.getField,
    TypeDesc.getWord, TypeDesc.loadWord, TypeDesc.fieldCell, TypeDesc.FieldType, unsafeSlice,
    Region.drop, uintDataBits, typeUnsafePointers, usrType, usrPtrType, abiPtrType, abiType,
    udHasLenMask, udHasLenBit, structFieldWords, StructField.zero, tInt, tStr, tS, tNode, tZ,
    stS, stNode, stInt, stPtr, stSl, stPub, stArr, stZ, stArrPub, leafDesc, elemDesc, wrapInt, offsetSum, load]
  · simp [UnsafeFieldValue, FieldPointer, field, fieldOffset, unsafeAdd, sliceData, bind, Except.bind,
    pure, Except.pure, State.deref, State.derefWord, kindOf, view, envT, declOf,
    TypeDesc.ReflectType, TypeDesc.fieldIndexMultiplier, TypeDesc.numFields,
    TypeDesc.fieldABITypes, TypeDesc.ptrToFieldABITypes, TypeDesc.fieldUSRTypes,
    TypeDesc.ptrToFieldUSRTypes, TypeDesc.ReflectStructFields, TypeDesc.getField,
    TypeDesc.getWord, TypeDesc.loadWord, TypeDesc.fieldCell, TypeDesc.FieldType, unsafeSlice,
    Region.drop, uintDataBits, typeUnsafePointers, usrType, usrPtrType, abiPtrType, abiType,
    udHasLenMask, udHasLenBit, structFieldWords, StructField.zero, tInt, tStr, tS, tNode, tZ,
    stS, stNode, stInt, stPtr, stSl, stPub, stArr, stZ, stArrPub, leafDesc, elemDesc, wrapInt, offsetSum, load]

set_option maxRecDepth 10000 in
/-- C10 (failing input): `TypeFromReflectType([3]int64)` allocates the block
for one field table entry and publishes it; the array init func, the first of
its two init funcs, then stores the array length as the field count, so
`ReflectStructFields()` on the array descriptor has length 3, not 1, and the
stores of the element init func do not change the field count.  For `[0]int64`
the length is 0 and the element init func panics on its index 0.  For
`[]int64` the length is 1 and the entry holds the element type. -/
theorem array_field_count :
    numFieldsFor envT (RType.array 3 tInt) = 1 ∧
      (allocDesc (TypeDesc.alloc envT (RType.array 3 tInt) 1) >>=
          fun t => loadOrStore (RType.array 3 tInt) t) stInt
        = (stArrPub 3, Except.ok (1, false)) ∧
      (∀ recur, initFuncsFor envT recur (RType.array 3 tInt)
        = [arrayInit envT, elemInit envT recur]) ∧
      arrayInit envT 1 (stArrPub 3) = (stArr 3 24 13, Except.ok ()) ∧
      (∃ t, (stArr 3 24 13).heap[1]? = some t ∧ t.ReflectStructFields.len = 3 ∧
        t.fields.length = 1) ∧
      (∀ (t t1 : TypeDesc) (s : Region) (i : Int) (v : Word),
        t.setWord s i v = Except.ok t1 →
          t1.ReflectStructFields.len = t.ReflectStructFields.len) ∧
      (∀ (t t1 : TypeDesc) (s : FieldRegion) (j : Int) (sf : StructField),
        t.setField s j sf = Except.ok t1 →
          t1.ReflectStructFields.len = t.ReflectStructFields.len) ∧
      TypeFromReflectType envT 1 (RType.array 0 tInt) stInt
        = (stArr 0 0 1, Except.error Err.indexOutOfRange) ∧
      (∃ t, (stArr 0 0 1).heap[1]? = some t ∧ t.ReflectStructFields.len = 0 ∧
        t.fields.length = 1) ∧
      ∃ t, stSl.heap[2]? = some t ∧ t.ReflectStructFields.len = 1 ∧
        t.getField t.ReflectStructFields 0 = Except.ok ⟨"Elem", some tInt, 0⟩ := by
  refine ⟨?_, publish_arr3, ?_, arrayInit_arr3, ⟨_, rfl, ?_, rfl⟩, ?_, ?_, build_arr0,
    ⟨_, rfl, ?_, rfl⟩, ⟨_, rfl, ?_, ?_⟩⟩
  · simp [numFieldsFor, kindOf, view]
  · intro recur
    simp [initFuncsFor, kindOf, view]
  · simp [UnsafeFieldValue, FieldPointer, field, fieldOffset, unsafeAdd, sliceData, bind, Except.bind,
    pure, Except.pure, State.deref, State.derefWord, kindOf, view, envT, declOf,
    TypeDesc.ReflectType, TypeDesc.fieldIndexMultiplier, TypeDesc.numFields,
    TypeDesc.fieldABITypes, TypeDesc.ptrToFieldABITypes, TypeDesc.fieldUSRTypes,
    TypeDesc.ptrToFieldUSRTypes, TypeDesc.ReflectStructFields, TypeDesc.getField,
    TypeDesc.getWord, TypeDesc.loadWord, TypeDesc.fieldCell, TypeDesc.FieldType, unsafeSlice,
    Region.drop, uintDataBits, typeUnsafePointers, usrType, usrPtrType, abiPtrType, abiType,
    udHasLenMask, udHasLenBit, structFieldWords, StructField.zero, tInt, tStr, tS, tNode, tZ,
    stS, stNode, stInt, stPtr, stSl, stPub, stArr, stZ, stArrPub, leafDesc, elemDesc, wrapInt, offsetSum, load]
  · intro t t1 s i v h
    simp only [TypeDesc.ReflectStructFields, TypeDesc.numFields, setWord_numFields h]
  · intro t t1 s j sf h
    simp only [TypeDesc.ReflectStructFields, TypeDesc.numFields, setField_numFields h]
  · simp [UnsafeFieldValue, FieldPointer, field, fieldOffset, unsafeAdd, sliceData, bind, Except.bind,
    pure, Except.pure, State.deref, State.derefWord, kindOf, view, envT, declOf,
    TypeDesc.ReflectType, TypeDesc.fieldIndexMultiplier, TypeDesc.numFields,
    TypeDesc.fieldABITypes, TypeDesc.ptrToFieldABITypes, TypeDesc.fieldUSRTypes,
    TypeDesc.ptrToFieldUSRTypes, TypeDesc.ReflectStructFields, TypeDesc.getField,
    TypeDesc.getWord, TypeDesc.loadWord, TypeDesc.fieldCell, TypeDesc.FieldType, unsafeSlice,
    Region.drop, uintDataBits, typeUnsafePointers, usrType, usrPtrType, abiPtrType, abiType,
    udHasLenMask, udHasLenBit, structFieldWords, StructField.zero, tInt, tStr, tS, tNode, tZ,
    stS, stNode, stInt, stPtr, stSl, stPub, stArr, stZ, stArrPub, leafDesc, elemDesc, wrapInt, offsetSum, load]
  · simp [UnsafeFieldValue, FieldPointer, field, fieldOffset, unsafeAdd, sliceData, bind, Except.bind,
    pure, Except.pure, State.deref, State.derefWord, kindOf, view, envT, declOf,
    TypeDesc.ReflectType, TypeDesc.fieldIndexMultiplier, TypeDesc.numFields,
    TypeDesc.fieldABITypes, TypeDesc.ptrToFieldABITypes, TypeDesc.fieldUSRTypes,
    TypeDesc.ptrToFieldUSRTypes, TypeDesc.ReflectStructFields, TypeDesc.getField,
    TypeDesc.getWord, TypeDesc.loadWord, TypeDesc.fieldCell, TypeDesc.FieldType, unsafeSlice,
    Region.drop, uintDataBits, typeUnsafePointers, usrType, usrPtrType, abiPtrType, abiType,
    udHasLenMask, udHasLenBit, structFieldWords, StructField.zero, tInt, tStr, tS, tNode, tZ,
    stS, stNode, stInt, stPtr, stSl, stPub, stArr, stZ, stArrPub, leafDesc, elemDesc, wrapInt, offsetSum, load]
  · simp [UnsafeFieldValue, FieldPointer, field, fieldOffset, unsafeAdd, sliceData, bind, Except.bind,
    pure, Except.pure, State.deref, State.derefWord, kindOf, view, envT, declOf,
    TypeDesc.ReflectType, TypeDesc.fieldIndexMultiplier, TypeDesc.numFields,
    TypeDesc.fieldABITypes, TypeDesc.ptrToFieldABITypes, TypeDesc.fieldUSRTypes,
    TypeDesc.ptrToFieldUSRTypes, TypeDesc.ReflectStructFields, TypeDesc.getField,
    TypeDesc.getWord, TypeDesc.loadWord, TypeDesc.fieldCell, TypeDesc.FieldType, unsafeSlice,
    Region.drop, uintDataBits, typeUnsafePointers, usrType, usrPtrType, abiPtrType, abiType,
    udHasLenMask, udHasLenBit, structFieldWords, StructField.zero, tInt, tStr, tS, tNode, tZ,
    stS, stNode, stInt, stPtr, stSl, stPub, stArr, stZ, stArrPub, leafDesc, elemDesc, wrapInt, offsetSum, load]

/-! ## The field table after publication -/

theorem later_stSl : LaterInBlock envT stPtr stSl := by
  have h := @LaterInBlock.step envT _ _ 1 (RType.slice tInt) (LaterInBlock.refl stPtr)
    (by rw [build_sliceInt]; simp)
  rw [build_sliceInt] at h
  exact h

/-- C11 (amended): no call of `TypeFromReflectType` (made directly or through
`TypeOf`, `Len` or `appendFields`), returning or panicking, that stays inside
the descriptor blocks modifies a descriptor that was allocated before the call
started: in every state reached by such calls the descriptor behind `r`, its
field table included, is the one found in `σ`.  So once the call that built a
descriptor has ended, its field table stays as it is under every later call
that stores inside its own blocks. -/
theorem field_table_frozen (env : Env) (σ : State) (r : Nat) (t : TypeDesc)
    (h : σ.heap[r]? = some t) :
    ∀ σ1, LaterInBlock env σ σ1 →
      σ1.heap[r]? = some t ∧
        ∀ t1, σ1.heap[r]? = some t1 → t1.fieldTable = t.fieldTable := by
  intro σ1 hl
  have h1 : σ1.heap[r]? = some t := by
    rw [(Later_ext (LaterInBlock_later hl)).frame r (getElem?_lt h)]
    exact h
  refine ⟨h1, ?_⟩
  intro t1 ht1
  rw [h1] at ht1
  cases ht1
  rfl

theorem field_table_frozen_witness :
    stPtr.heap[1]? = some (elemDesc (RType.ptr tInt) tInt 8 0 1) ∧
      LaterInBlock envT stPtr stSl ∧
      stSl.heap[1]? = some (elemDesc (RType.ptr tInt) tInt 8 0 1) ∧
      ∀ t1, stSl.heap[1]? = some t1 →
        t1.fieldTable = (elemDesc (RType.ptr tInt) tInt 8 0 1).fieldTable :=
  ⟨rfl, later_stSl,
    field_table_frozen envT stPtr 1 (elemDesc (RType.ptr tInt) tInt 8 0 1) rfl stSl later_stSl⟩

set_option maxHeartbeats 4000000 in
set_option maxRecDepth 10000 in
theorem publish_ptrInt :
    (allocDesc (TypeDesc.alloc envT (RType.ptr tInt) 1) >>=
        fun t => loadOrStore (RType.ptr tInt) t) stInt = (stPub, Except.ok (1, false)) := by
  simp [TypeFromReflectType, load, State.empty, buildDesc, bind, M.bind, allocDesc, loadOrStore,
    numFieldsFor, initFuncsFor, kindOf, view, runInits, elemInit, structInit, structLoop, arrayInit,
    M.get, M.getWord, M.modify, M.ofExcept, State.deref, State.derefWord, elemOf, lenOf, fieldOf,
    typeOfField, TypeDesc.ReflectType, TypeDesc.alloc, pure, M.pure, envT, declOf, numFieldOf,
    TypeDesc.numFields, TypeDesc.fieldABITypes, TypeDesc.ptrToFieldABITypes, TypeDesc.fieldUSRTypes,
    TypeDesc.ptrToFieldUSRTypes, TypeDesc.ReflectStructFields, TypeDesc.setField, TypeDesc.getField,
    TypeDesc.setWord, TypeDesc.getWord, TypeDesc.loadWord, TypeDesc.storeWord, TypeDesc.fieldCell,
    unsafeSlice, Region.drop, toUint, uintDataBits, typeUnsafePointers, usrType, usrPtrType,
    abiPtrType, abiType, udHasLenMask, udHasLenBit, udIsArrayBit, structFieldWords, valueIdentity,
    StructField.zero, List.replicate, tInt, tStr, tS, tNode, tZ, stS, stNode, stInt, stPtr, stSl, stPub,
    stArr, stZ, stArrPub, leafDesc, elemDesc, rtSize, wrapInt, offsetSum]

set_option maxHeartbeats 4000000 in
set_option maxRecDepth 10000 in
theorem inits_ptrInt :
    runInits 1 (initFuncsFor envT (TypeFromReflectType envT 0) (RType.ptr tInt)) stPub
      = (stPtr, Except.ok ()) := by
  simp [TypeFromReflectType, load, State.empty, buildDesc, bind, M.bind, allocDesc, loadOrStore,
    numFieldsFor, initFuncsFor, kindOf, view, runInits, elemInit, structInit, structLoop, arrayInit,
    M.get, M.getWord, M.modify, M.ofExcept, State.deref, State.derefWord, elemOf, lenOf, fieldOf,
    typeOfField, TypeDesc.ReflectType, TypeDesc.alloc, pure, M.pure, envT, declOf, numFieldOf,
    TypeDesc.numFields, TypeDesc.fieldABITypes, TypeDesc.ptrToFieldABITypes, TypeDesc.fieldUSRTypes,
    TypeDesc.ptrToFieldUSRTypes, TypeDesc.ReflectStructFields, TypeDesc.setField, TypeDesc.getField,
    TypeDesc.setWord, TypeDesc.getWord, TypeDesc.loadWord, TypeDesc.storeWord, TypeDesc.fieldCell,
    unsafeSlice, Region.drop, toUint, uintDataBits, typeUnsafePointers, usrType, usrPtrType,
    abiPtrType, abiType, udHasLenMask, udHasLenBit, udIsArrayBit, structFieldWords, valueIdentity,
    StructField.zero, List.replicate, tInt, tStr, tS, tNode, tZ, stS, stNode, stInt, stPtr, stSl, stPub,
    stArr, stZ, stArrPub, leafDesc, elemDesc, rtSize, wrapInt, offsetSum]

set_option maxRecDepth 10000 in
/-- C11 (counterexample): in `TypeFromReflectType(*int64)`, called after
`TypeOf` of an `int64`, `types.LoadOrStore` publishes the descriptor under its
type key with a zeroed field table; the init funcs, which run next in the same
call, then write that field table, so the published descriptor's field table
is not the one it had when it was published. -/
theorem published_then_filled :
    (allocDesc (TypeDesc.alloc envT (RType.ptr tInt) 1) >>=
        fun t => loadOrStore (RType.ptr tInt) t) stInt = (stPub, Except.ok (1, false)) ∧
      load stPub.types (RType.ptr tInt) = some 1 ∧
      runInits 1 (initFuncsFor envT (TypeFromReflectType envT 0) (RType.ptr tInt)) stPub
        = (stPtr, Except.ok ()) ∧
      TypeFromReflectType envT 1 (RType.ptr tInt) stInt = (stPtr, Except.ok 1) ∧
      ∃ t t1, stPub.heap[1]? = some t ∧ stPtr.heap[1]? = some t1 ∧
        t.fieldTable = ([Word.null, Word.null, Word.null, Word.null], [⟨"", none, 0⟩]) ∧
        t1.fieldTable = ([Word.abi tInt, Word.abi (RType.ptr tInt), Word.usr 0, Word.usr 1],
          [⟨"Elem", some tInt, 0⟩]) ∧
        t1.fieldTable ≠ t.fieldTable := by
  refine ⟨publish_ptrInt, rfl, inits_ptrInt, build_ptrInt,
    TypeDesc.alloc envT (RType.ptr tInt) 1, elemDesc (RType.ptr tInt) tInt 8 0 1, rfl, rfl,
    ?_, ?_, ?_⟩
  · simp [TypeDesc.fieldTable, TypeDesc.alloc, typeUnsafePointers, StructField.zero,
      List.replicate]
  · simp [TypeDesc.fieldTable, elemDesc]
  · simp [TypeDesc.fieldTable, TypeDesc.alloc, typeUnsafePointers, StructField.zero,
      List.replicate, elemDesc]

/-! ## Completed and half-built descriptors of concrete types -/

theorem inblock_stInt : LaterInBlock envT State.empty stInt := by
  have h := @LaterInBlock.step envT _ _ 1 tInt (LaterInBlock.refl State.empty)
    (by rw [build_int]; simp)
  rw [build_int] at h
  exact h

theorem inblock_stPtr : LaterInBlock envT State.empty stPtr := by
  have h := @LaterInBlock.step envT _ _ 1 (RType.ptr tInt) inblock_stInt
    (by rw [build_ptrInt]; simp)
  rw [build_ptrInt] at h
  exact h

theorem inblock_stSl : LaterInBlock envT State.empty stSl := by
  have h := @LaterInBlock.step envT _ _ 1 (RType.slice tInt) inblock_stPtr
    (by rw [build_sliceInt]; simp)
  rw [build_sliceInt] at h
  exact h

theorem inblock_after_Z :
    LaterInBlock envT stS (TypeFromReflectType envT 2 tZ stS).1 :=
  LaterInBlock.step 2 tZ (LaterInBlock.refl stS) (by rw [build_Z_after_S]; simp)

set_option maxHeartbeats 4000000 in
set_option maxRecDepth 10000 in
theorem build_Z_full :
    TypeFromReflectType envT 2 tZ stInt = (stZ, Except.error Err.indexOutOfRange) := by
  simp [TypeFromReflectType, load, State.empty, buildDesc, bind, M.bind, allocDesc, loadOrStore,
    numFieldsFor, initFuncsFor, kindOf, view, runInits, elemInit, structInit, structLoop, arrayInit,
    M.get, M.getWord, M.modify, M.ofExcept, State.deref, State.derefWord, elemOf, lenOf, fieldOf,
    typeOfField, TypeDesc.ReflectType, TypeDesc.alloc, pure, M.pure, envT, declOf, numFieldOf,
    TypeDesc.numFields, TypeDesc.fieldABITypes, TypeDesc.ptrToFieldABITypes, TypeDesc.fieldUSRTypes,
    TypeDesc.ptrToFieldUSRTypes, TypeDesc.ReflectStructFields, TypeDesc.setField, TypeDesc.getField,
    TypeDesc.setWord, TypeDesc.getWord, TypeDesc.loadWord, TypeDesc.storeWord, TypeDesc.fieldCell,
    unsafeSlice, Region.drop, toUint, uintDataBits, typeUnsafePointers, usrType, usrPtrType,
    abiPtrType, abiType, udHasLenMask, udHasLenBit, udIsArrayBit, structFieldWords, valueIdentity,
    StructField.zero, List.replicate, tInt, tStr, tS, tNode, tZ, stS, stNode, stInt, stPtr, stSl, stPub,
    stArr, stZ, stArrPub, leafDesc, elemDesc, rtSize, wrapInt, offsetSum]

theorem struct_field_projection_witness :
    TypeFromReflectType envT 3 tS State.empty = (stS, Except.ok 0) ∧
      (TypeFromReflectType envT 2 tZ stS).2 = Except.error Err.indexOutOfRange ∧
      UnsafeFieldValue envT (fun _ => 0) (TypeFromReflectType envT 2 tZ stS).1 0
          ⟨Word.abi tS, 4096⟩ ((1 : Nat) : Int)
        = Except.ok ⟨valueIdentity envT tStr, 4096 + 8⟩ ∧
      FieldPointer envT (fun _ => 0) (TypeFromReflectType envT 2 tZ stS).1 0
          ⟨Word.abi tS, 4096⟩ ((1 : Nat) : Int)
        = Except.ok ⟨Word.abi (RType.ptr tStr), 4096 + 8⟩ :=
  ⟨build_S, build_Z_after_S,
    struct_field_projection envT (fun _ => 0) 3 tS tS
      [⟨"Int", 0, RType.named 0⟩, ⟨"Str", 8, RType.named 1⟩] State.empty stS 0 0
      (LaterInBlock.refl State.empty) build_S rfl rfl rfl (by norm_num)
      (TypeFromReflectType envT 2 tZ stS).1 inblock_after_Z
      ⟨Word.abi tS, 4096⟩ 1 ⟨"Str", 8, tStr⟩ rfl (Or.inl rfl) (by norm_num)⟩

set_option maxRecDepth 10000 in
/-- C1 (counterexample): after `TypeOf` of an `int64`, `TypeOf(Z{})` with
`Z{A [0]int64}` panics while its init func runs, after the descriptor of `Z`
has been published; the registry then returns that descriptor, a struct
descriptor with one field, and for a `Z` aggregate and index 0 both
`UnsafeFieldValue` and `FieldPointer` fail with a nil dereference instead of
returning a boxed value. -/
theorem half_built_projection :
    LaterInBlock envT State.empty stInt ∧
      TypeFromReflectType envT 2 tZ stInt = (stZ, Except.error Err.indexOutOfRange) ∧
      TypeFromReflectType envT 2 tZ stZ = (stZ, Except.ok 1) ∧
      (∃ t, stZ.heap[1]? = some t ∧ t.reflectType = tZ ∧ t.Len = 1 ∧
        t.self = Word.abi tZ) ∧
      UnsafeFieldValue envT (fun _ => 0) stZ 1 ⟨Word.abi tZ, 4096⟩ 0
        = Except.error Err.nilDeref ∧
      FieldPointer envT (fun _ => 0) stZ 1 ⟨Word.abi tZ, 4096⟩ 0
        = Except.error Err.nilDeref := by
  refine ⟨inblock_stInt, build_Z_full, TFRT_hit envT 2 rfl, ⟨_, rfl, rfl, ?_, rfl⟩, ?_, ?_⟩
  · simp [TypeDesc.Len, TypeDesc.numFields, uintDataBits, stZ]
  · simp [UnsafeFieldValue, FieldPointer, field, fieldOffset, unsafeAdd, sliceData, bind, Except.bind,
    pure, Except.pure, State.deref, State.derefWord, kindOf, view, envT, declOf,
    TypeDesc.ReflectType, TypeDesc.fieldIndexMultiplier, TypeDesc.numFields,
    TypeDesc.fieldABITypes, TypeDesc.ptrToFieldABITypes, TypeDesc.fieldUSRTypes,
    TypeDesc.ptrToFieldUSRTypes, TypeDesc.ReflectStructFields, TypeDesc.getField,
    TypeDesc.getWord, TypeDesc.loadWord, TypeDesc.fieldCell, TypeDesc.FieldType, unsafeSlice,
    Region.drop, uintDataBits, typeUnsafePointers, usrType, usrPtrType, abiPtrType, abiType,
    udHasLenMask, udHasLenBit, structFieldWords, StructField.zero, tInt, tStr, tS, tNode, tZ,
    stS, stNode, stInt, stPtr, stSl, stPub, stArr, stZ, stArrPub, leafDesc, elemDesc, wrapInt, offsetSum, load]
  · simp [UnsafeFieldValue, FieldPointer, field, fieldOffset, unsafeAdd, sliceData, bind, Except.bind,
    pure, Except.pure, State.deref, State.derefWord, kindOf, view, envT, declOf,
    TypeDesc.ReflectType, TypeDesc.fieldIndexMultiplier, TypeDesc.numFields,
    TypeDesc.fieldABITypes, TypeDesc.ptrToFieldABITypes, TypeDesc.fieldUSRTypes,
    TypeDesc.ptrToFieldUSRTypes, TypeDesc.ReflectStructFields, TypeDesc.getField,
    TypeDesc.getWord, TypeDesc.loadWord, TypeDesc.fieldCell, TypeDesc.FieldType, unsafeSlice,
    Region.drop, uintDataBits, typeUnsafePointers, usrType, usrPtrType, abiPtrType, abiType,
    udHasLenMask, udHasLenBit, structFieldWords, StructField.zero, tInt, tStr, tS, tNode, tZ,
    stS, stNode, stInt, stPtr, stSl, stPub, stArr, stZ, stArrPub, leafDesc, elemDesc, wrapInt, offsetSum, load]

theorem field_index_check_witness :
    UnsafeFieldValue envT (fun _ => 0) stS 0 ⟨Word.abi tS, 4096⟩ 2
        = Except.error Err.indexOutOfRange ∧
      UnsafeFieldValue envT (fun _ => 0) stS 0 ⟨Word.abi tS, 4096⟩ (-1)
        = Except.error Err.indexOutOfRange ∧
      UnsafeFieldValue envT (fun _ => 0) stNode 1 ⟨Word.abi (RType.ptr tNode), 4096⟩ 5
        = Except.ok ⟨valueIdentity envT tNode,
            unsafeAdd (if kindOf envT (RType.ptr tNode) = Kind.Slice
              then sliceData (fun _ => 0) 4096 else 4096)
              (wrapInt (5 * wrapInt (rtSize envT tNode)))⟩ :=
  ⟨(field_index_check envT (fun _ => 0)).1 stS 0 _ ⟨Word.abi tS, 4096⟩ 2 rfl (Or.inl rfl)
      (Or.inl rfl) (Or.inr (by decide)),
    (field_index_check envT (fun _ => 0)).1 stS 0 _ ⟨Word.abi tS, 4096⟩ (-1) rfl (Or.inl rfl)
      (Or.inl rfl) (Or.inl (by decide)),
    (field_index_check envT (fun _ => 0)).2 3 tNode (RType.ptr tNode) tNode State.empty stNode
      0 1 (LaterInBlock.refl State.empty) build_Node rfl rfl (Or.inr rfl) stNode
      (LaterInBlock.refl stNode) ⟨Word.abi (RType.ptr tNode), 4096⟩ 5 (Or.inl rfl)⟩

set_option maxRecDepth 10000 in
/-- C5 (counterexample): after `TypeOf` of an `int64`, a `*int64` and a
`[]int64`, the descriptor of `[]int64` has one field; for a slice value of
live length 2 (`Len` returns 2) and index 5, outside both counts,
`UnsafeFieldValue` returns a boxed value, the address `data + 5 * 8`, instead
of failing. -/
theorem field_index_unchecked :
    LaterInBlock envT State.empty stSl ∧ load stSl.types (RType.slice tInt) = some 2 ∧
      (elemDesc (RType.slice tInt) tInt 24 0 1).numFields = 1 ∧
      stSl.heap[2]? = some (elemDesc (RType.slice tInt) tInt 24 0 1) ∧
      Len envT (fun a => if a = 512 then 4096 else 2) 1 ⟨Word.abi (RType.slice tInt), 512⟩ stSl
        = (stSl, Except.ok 2) ∧
      UnsafeFieldValue envT (fun a => if a = 512 then 4096 else 2) stSl 2
          ⟨Word.abi (RType.slice tInt), 512⟩ 5
        = Except.ok ⟨Word.abi tInt, 4096 + 40⟩ := by
  refine ⟨inblock_stSl, rfl, rfl, rfl, ?_, ?_⟩
  · simp [AppendUnsafeFieldValues, AppendFieldPointers, appendFields, appendOne, appendLoop, TypeOf,
    reflectTypeOf, Len, sliceLen, refOfWord, TypeFromReflectType, M.bind, M.pure, M.get,
    M.ofExcept, UnsafeFieldValue, FieldPointer, field, fieldOffset, unsafeAdd, sliceData, bind,
    Except.bind, pure, Except.pure, State.deref, State.derefWord, kindOf, view, envT, declOf,
    TypeDesc.ReflectType, TypeDesc.fieldIndexMultiplier, TypeDesc.numFields,
    TypeDesc.fieldABITypes, TypeDesc.ptrToFieldABITypes, TypeDesc.fieldUSRTypes,
    TypeDesc.ptrToFieldUSRTypes, TypeDesc.ReflectStructFields, TypeDesc.getField,
    TypeDesc.getWord, TypeDesc.loadWord, TypeDesc.fieldCell, TypeDesc.FieldType, unsafeSlice,
    Region.drop, uintDataBits, typeUnsafePointers, usrType, usrPtrType, abiPtrType, abiType,
    udHasLenMask, udHasLenBit, structFieldWords, StructField.zero, tInt, tStr, tS, tNode, tZ,
    stS, stNode, stInt, stPtr, stSl, stPub, stArr, stZ, stArrPub, leafDesc, elemDesc, wrapInt, offsetSum, load]
  · simp [UnsafeFieldValue, FieldPointer, field, fieldOffset, unsafeAdd, sliceData, bind, Except.bind,
    pure, Except.pure, State.deref, State.derefWord, kindOf, view, envT, declOf,
    TypeDesc.ReflectType, TypeDesc.fieldIndexMultiplier, TypeDesc.numFields,
    TypeDesc.fieldABITypes, TypeDesc.ptrToFieldABITypes, TypeDesc.fieldUSRTypes,
    TypeDesc.ptrToFieldUSRTypes, TypeDesc.ReflectStructFields, TypeDesc.getField,
    TypeDesc.getWord, TypeDesc.loadWord, TypeDesc.fieldCell, TypeDesc.FieldType, unsafeSlice,
    Region.drop, uintDataBits, typeUnsafePointers, usrType, usrPtrType, abiPtrType, abiType,
    udHasLenMask, udHasLenBit, structFieldWords, StructField.zero, tInt, tStr, tS, tNode, tZ,
    stS, stNode, stInt, stPtr, stSl, stPub, stArr, stZ, stArrPub, leafDesc, elemDesc, wrapInt, offsetSum, load]


end Unsafereflect
